import Mathlib

/-!
# Thermal printer driver (thermal_printer.c / thermal_printer.h)

Shallow embedding of the command encoder and its timing gate.

Conventions of the embedding
* Fields and parameters of the C integer types are natural numbers; every place
  where the C code converts to an 8, 16 or 32 bit unsigned type is written as an
  explicit remainder (u8, u16, u32).  The target is the ESP32, where size_t and
  long are 32 bits wide, so the product length * BYTE_TIME is taken modulo 2^32.
* The microsecond timer and resume_time are 64 bit values that cannot wrap in
  practice (2^63 microseconds are about 292000 years); they are unbounded naturals.
* The world outside the session is: the value of the microsecond timer, and a log
  of the observable steps (waits, UART sends, calls of timeoutSet, assignments to
  resume_time, task delays).  Time that elapses between two observations of the
  timer is supplied by an environment function (Timer): the k-th observation finds
  the timer advanced by (env k) microseconds, so the timer never runs backwards.
* A C string argument is the list of its characters before the terminating NUL.
-/

namespace ThermalPrinter

/-! ## Constants of thermal_printer.h -/

def ASCII_TAB : Nat := 9
def ASCII_LF : Nat := 10
def ASCII_FF : Nat := 12
def ASCII_CR : Nat := 13
def ASCII_DC2 : Nat := 18
def ASCII_ESC : Nat := 27
def ASCII_FS : Nat := 28
def ASCII_GS : Nat := 29

def BAUDRATE : Nat := 19200

/-- Time to send one byte in microseconds: the macro
    (((11L * 1000000L) + (BAUDRATE / 2)) / BAUDRATE). -/
def BYTE_TIME : Nat := ((11 * 1000000) + (BAUDRATE / 2)) / BAUDRATE

/-- Conversion to uint8_t. -/
def u8 (x : Nat) : Nat := x % 256
/-- Conversion to uint16_t. -/
def u16 (x : Nat) : Nat := x % 65536
/-- Conversion to uint32_t (also size_t and unsigned long on the target). -/
def u32 (x : Nat) : Nat := x % 4294967296

/-- The struct Adafruit_Thermal of thermal_printer.h. -/
structure Adafruit_Thermal where
  uart_num : Int
  tx_pin : Nat
  rx_pin : Nat
  dtr_pin : Nat
  dtr_enabled : Bool
  firmware : Nat
  prev_byte : Nat
  print_mode : Nat
  column : Nat
  max_column : Nat
  char_height : Nat
  line_spacing : Nat
  barcode_height : Nat
  resume_time : Nat
  dot_print_time : Nat
  dot_feed_time : Nat
  max_chunk_height : Nat
  deriving DecidableEq, Repr

/-- Observable steps of the driver. -/
inductive Event where
  /-- A call of Adafruit_Thermal_timeoutWait has returned. -/
  | wait : Event
  /-- One call of uart_write_bytes with these bytes. -/
  | send : List Nat → Event
  /-- A call of Adafruit_Thermal_timeoutSet with this duration (microseconds). -/
  | setBusy : Nat → Event
  /-- The field resume_time was overwritten: old value, new value. -/
  | assign : Nat → Nat → Event
  /-- A call of vTaskDelay outside the wait loop (milliseconds). -/
  | delay : Nat → Event
  deriving DecidableEq, Repr

/-- Elapsed microseconds found by the k-th observation of esp_timer_get_time. -/
abbrev Timer := Nat → Nat

/-- The session together with its surroundings. -/
structure World where
  printer : Adafruit_Thermal
  /-- Value of esp_timer_get_time at its latest observation. -/
  clock : Nat
  /-- Number of observations of the timer so far. -/
  reads : Nat
  /-- Log of the observable steps, oldest first. -/
  trace : List Event
  deriving DecidableEq, Repr

/-- A world with an empty log. -/
def World.start (p : Adafruit_Thermal) (clock : Nat) : World :=
  { printer := p, clock := clock, reads := 0, trace := [] }

/-- All bytes handed to uart_write_bytes, in order. -/
def bytesOf : List Event → List Nat
  | [] => []
  | Event.send bs :: rest => bs ++ bytesOf rest
  | _ :: rest => bytesOf rest

/-- Durations passed to timeoutSet, in order. -/
def busyOf : List Event → List Nat
  | [] => []
  | Event.setBusy x :: rest => x :: busyOf rest
  | _ :: rest => busyOf rest

/-- Assignments to resume_time (old value, new value), in order. -/
def assignsOf : List Event → List (Nat × Nat)
  | [] => []
  | Event.assign o n :: rest => (o, n) :: assignsOf rest
  | _ :: rest => assignsOf rest

/-- The function uart_write_bytes: the bytes go out in order. -/
def uart_write_bytes (w : World) (data : List Nat) : World :=
  { w with trace := w.trace ++ [Event.send data] }

/-- The function vTaskDelay as called by wake. -/
def vTaskDelay (w : World) (ms : Nat) : World :=
  { w with trace := w.trace ++ [Event.delay ms] }

/-- Adafruit_Thermal_timeoutSet: under timed flow control, resume_time becomes the
    current timer value plus x; nothing is stored when the DTR line is used. -/
def Adafruit_Thermal_timeoutSet (env : Timer) (w : World) (x : Nat) : World :=
  if w.printer.dtr_enabled then
    { w with trace := w.trace ++ [Event.setBusy (u32 x)] }
  else
    let now := w.clock + env w.reads
    { printer := { w.printer with resume_time := now + u32 x }
      clock := now
      reads := w.reads + 1
      trace := w.trace ++ [Event.setBusy (u32 x), Event.assign w.printer.resume_time (now + u32 x)] }

/-- Adafruit_Thermal_timeoutWait: returns once the printer can take data.  With the
    DTR line the loop polls the pin (it is assumed to report ready eventually);
    otherwise the loop leaves at the first timer value that is not before
    resume_time. -/
def Adafruit_Thermal_timeoutWait (env : Timer) (w : World) : World :=
  if w.printer.dtr_enabled then
    { w with trace := w.trace ++ [Event.wait] }
  else
    { w with
      clock := max (w.clock + env w.reads) w.printer.resume_time
      reads := w.reads + 1
      trace := w.trace ++ [Event.wait] }

/-- Adafruit_Thermal_writeBytes: wait, send, busy for length * BYTE_TIME. -/
def Adafruit_Thermal_writeBytes (env : Timer) (w : World) (data : List Nat) : World :=
  let w1 := Adafruit_Thermal_timeoutWait env w
  let w2 := uart_write_bytes w1 data
  Adafruit_Thermal_timeoutSet env w2 (u32 (data.length * BYTE_TIME))

/-- Adafruit_Thermal_write: one character with line-wrap bookkeeping. -/
def Adafruit_Thermal_write (env : Timer) (w : World) (c : Nat) : World :=
  if c ≠ ASCII_CR then
    let w1 := Adafruit_Thermal_timeoutWait env w
    let w2 := uart_write_bytes w1 [c]
    let p := w2.printer
    if c = ASCII_LF ∨ p.column = p.max_column then
      let d := u32 (BYTE_TIME +
        (if p.prev_byte = ASCII_LF then
          u32 ((p.char_height + p.line_spacing) * p.dot_feed_time)
        else
          u32 (u32 (p.char_height * p.dot_print_time) + u32 (p.line_spacing * p.dot_feed_time))))
      let w3 := { w2 with printer := { p with column := 0 } }
      let w4 := uart_write_bytes w3 [ASCII_CR]
      let w5 := Adafruit_Thermal_timeoutSet env w4 d
      { w5 with printer := { w5.printer with prev_byte := c } }
    else
      let w3 := { w2 with printer := { p with column := u8 (p.column + 1) } }
      let w5 := Adafruit_Thermal_timeoutSet env w3 BYTE_TIME
      { w5 with printer := { w5.printer with prev_byte := c } }
  else w

/-- Adafruit_Thermal_print: the whole string as one burst. -/
def Adafruit_Thermal_print (env : Timer) (w : World) (str : List Nat) : World :=
  let w1 := Adafruit_Thermal_timeoutWait env w
  let w2 := uart_write_bytes w1 str
  Adafruit_Thermal_timeoutSet env w2 (u32 (str.length * BYTE_TIME))

/-- Adafruit_Thermal_println: print, then one LF byte. -/
def Adafruit_Thermal_println (env : Timer) (w : World) (str : List Nat) : World :=
  let w1 := Adafruit_Thermal_print env w str
  let w2 := uart_write_bytes w1 [ASCII_LF]
  Adafruit_Thermal_timeoutSet env w2 BYTE_TIME

/-- The libc function toupper in the C locale, on an unsigned char value. -/
def toupper (c : Nat) : Nat := if 97 ≤ c ∧ c ≤ 122 then c - 32 else c

/-- Adafruit_Thermal_setSize. -/
def Adafruit_Thermal_setSize (env : Timer) (w : World) (value : Nat) : World :=
  let p := w.printer
  let p1 : Adafruit_Thermal :=
    if toupper (u8 value) = 83 then       -- S
      { p with print_mode := 0x00, char_height := 24, max_column := 32 }
    else if toupper (u8 value) = 77 then  -- M
      { p with print_mode := 0x01, char_height := 48, max_column := 32 }
    else if toupper (u8 value) = 76 then  -- L
      { p with print_mode := 0x11, char_height := 48, max_column := 16 }
    else
      { p with print_mode := 0x00, char_height := 24, max_column := 32 }
  let w1 := Adafruit_Thermal_writeBytes env { w with printer := p1 } [ASCII_GS, 33, p1.print_mode]
  { w1 with printer := { w1.printer with prev_byte := ASCII_LF } }

/-- Adafruit_Thermal_boldOn. -/
def Adafruit_Thermal_boldOn (env : Timer) (w : World) : World :=
  let p1 := { w.printer with print_mode := u8 (w.printer.print_mode ||| 0x08) }
  Adafruit_Thermal_writeBytes env { w with printer := p1 } [ASCII_ESC, 33, p1.print_mode]

/-- Adafruit_Thermal_boldOff (the mask is the low byte of the complement of 0x08). -/
def Adafruit_Thermal_boldOff (env : Timer) (w : World) : World :=
  let p1 := { w.printer with print_mode := u8 (w.printer.print_mode &&& 0xF7) }
  Adafruit_Thermal_writeBytes env { w with printer := p1 } [ASCII_ESC, 33, p1.print_mode]

/-- Adafruit_Thermal_underlineOn. -/
def Adafruit_Thermal_underlineOn (env : Timer) (w : World) (weight : Nat) : World :=
  let weight := if weight > 2 then 2 else weight
  Adafruit_Thermal_writeBytes env w [ASCII_ESC, 45, weight]

/-- Adafruit_Thermal_underlineOff. -/
def Adafruit_Thermal_underlineOff (env : Timer) (w : World) : World :=
  Adafruit_Thermal_writeBytes env w [ASCII_ESC, 45, 0]

/-- Adafruit_Thermal_inverseOn. -/
def Adafruit_Thermal_inverseOn (env : Timer) (w : World) : World :=
  Adafruit_Thermal_writeBytes env w [ASCII_GS, 66, 1]

/-- Adafruit_Thermal_inverseOff. -/
def Adafruit_Thermal_inverseOff (env : Timer) (w : World) : World :=
  Adafruit_Thermal_writeBytes env w [ASCII_GS, 66, 0]

/-- Adafruit_Thermal_justify. -/
def Adafruit_Thermal_justify (env : Timer) (w : World) (value : Nat) : World :=
  let pos :=
    if toupper (u8 value) = 76 then 0        -- L
    else if toupper (u8 value) = 67 then 1   -- C
    else if toupper (u8 value) = 82 then 2   -- R
    else 0
  Adafruit_Thermal_writeBytes env w [ASCII_ESC, 97, pos]

/-- The loop while (x--) write(LF) of Adafruit_Thermal_feed. -/
def feed_loop (env : Timer) : Nat → World → World
  | 0, w => w
  | x + 1, w => feed_loop env x (Adafruit_Thermal_write env w ASCII_LF)

/-- Adafruit_Thermal_feed. -/
def Adafruit_Thermal_feed (env : Timer) (w : World) (x : Nat) : World :=
  if w.printer.firmware ≥ 264 then
    let w1 := Adafruit_Thermal_writeBytes env w [ASCII_ESC, 100, x]
    let w2 := Adafruit_Thermal_timeoutSet env w1
      (u32 (w1.printer.dot_feed_time * w1.printer.char_height))
    { w2 with printer := { w2.printer with prev_byte := ASCII_LF, column := 0 } }
  else
    feed_loop env x w

/-- Adafruit_Thermal_reset. -/
def Adafruit_Thermal_reset (env : Timer) (w : World) : World :=
  let w1 := Adafruit_Thermal_writeBytes env w [ASCII_ESC, 64]
  let w2 := { w1 with printer := { w1.printer with
    prev_byte := ASCII_LF, column := 0, max_column := 32, char_height := 24,
    line_spacing := 6, barcode_height := 50 } }
  if w2.printer.firmware ≥ 264 then
    Adafruit_Thermal_writeBytes env w2 [ASCII_ESC, 68, 4, 8, 12, 16, 20, 24, 28, 0]
  else w2

/-- The loop of Adafruit_Thermal_wake for old firmware; n iterations remain. -/
def wake_loop (env : Timer) : Nat → World → World
  | 0, w => w
  | n + 1, w =>
    let w1 := Adafruit_Thermal_writeBytes env w [0]
    wake_loop env n (Adafruit_Thermal_timeoutSet env w1 10000)

/-- Adafruit_Thermal_wake. -/
def Adafruit_Thermal_wake (env : Timer) (w : World) : World :=
  let w1 := Adafruit_Thermal_timeoutSet env w 10000
  let w2 := uart_write_bytes w1 [255]
  if w2.printer.firmware ≥ 264 then
    let w3 := vTaskDelay w2 50
    Adafruit_Thermal_writeBytes env w3 [ASCII_ESC, 56, 0, 0]
  else
    wake_loop env 10 w2

/-- Adafruit_Thermal_sleepAfter. -/
def Adafruit_Thermal_sleepAfter (env : Timer) (w : World) (seconds : Nat) : World :=
  if w.printer.firmware ≥ 264 then
    Adafruit_Thermal_writeBytes env w [ASCII_ESC, 56, u8 (seconds &&& 0xFF), u8 (seconds >>> 8)]
  else
    Adafruit_Thermal_writeBytes env w [ASCII_ESC, 56, u8 seconds]

/-- Adafruit_Thermal_sleep. -/
def Adafruit_Thermal_sleep (env : Timer) (w : World) : World :=
  Adafruit_Thermal_sleepAfter env w 1

/-- Adafruit_Thermal_setHeatConfig. -/
def Adafruit_Thermal_setHeatConfig (env : Timer) (w : World) (dots time interval : Nat) : World :=
  Adafruit_Thermal_writeBytes env w [ASCII_ESC, 55, dots, time, interval]

/-- Adafruit_Thermal_setPrintDensity. -/
def Adafruit_Thermal_setPrintDensity (env : Timer) (w : World) (density breakTime : Nat) : World :=
  Adafruit_Thermal_writeBytes env w [ASCII_DC2, 35, u8 ((density <<< 5) ||| breakTime)]

/-- Adafruit_Thermal_setCharset. -/
def Adafruit_Thermal_setCharset (env : Timer) (w : World) (val : Nat) : World :=
  let val := if val > 15 then 15 else val
  Adafruit_Thermal_writeBytes env w [ASCII_ESC, 82, val]

/-- Adafruit_Thermal_setCodePage. -/
def Adafruit_Thermal_setCodePage (env : Timer) (w : World) (val : Nat) : World :=
  let val := if val > 47 then 47 else val
  Adafruit_Thermal_writeBytes env w [ASCII_ESC, 116, val]

/-- Adafruit_Thermal_printBarcode. -/
def Adafruit_Thermal_printBarcode (env : Timer) (w : World) (data : List Nat) (type : Nat) : World :=
  let w1 := Adafruit_Thermal_writeBytes env w [ASCII_GS, 104, w.printer.barcode_height]
  let w2 := Adafruit_Thermal_writeBytes env w1 [ASCII_GS, 107, type]
  let w3 := Adafruit_Thermal_writeBytes env w2 data
  Adafruit_Thermal_write env w3 0

/-- Adafruit_Thermal_printQRCode. -/
def Adafruit_Thermal_printQRCode (env : Timer) (w : World) (qr_data : List Nat) : World :=
  let len := u16 (qr_data.length + 3)
  let w1 := Adafruit_Thermal_writeBytes env w [ASCII_GS, 40, 107, 0x03, 0x00, 0x31, 0x43, 0x03]
  let w2 := Adafruit_Thermal_writeBytes env w1 [ASCII_GS, 40, 107, 0x03, 0x00, 0x31, 0x45, 0x30]
  let w3 := Adafruit_Thermal_writeBytes env w2
    [ASCII_GS, 40, 107, u8 (len &&& 0xFF), u8 (len >>> 8), 0x31, 0x50, 0x30]
  let w4 := Adafruit_Thermal_writeBytes env w3 qr_data
  Adafruit_Thermal_writeBytes env w4 [ASCII_GS, 40, 107, 0x03, 0x00, 0x31, 0x51, 0x30]

/-- The inner loop of printBitmap: rows i, i+1, ... of the band starting at row y;
    n rows remain.  Row r is the row_bytes bytes at offset r * row_bytes. -/
def printBitmap_rows (env : Timer) (bitmap_data : List Nat) (row_bytes y : Nat) :
    Nat → Nat → World → World
  | 0, _, w => w
  | n + 1, i, w =>
    let row_data := (bitmap_data.drop ((y + i) * row_bytes)).take row_bytes
    printBitmap_rows env bitmap_data row_bytes y n (i + 1)
      (Adafruit_Thermal_writeBytes env w row_data)

/-- The outer loop of printBitmap, for (y = ...; y < height; y += 24) with a 16 bit
    counter y.  At most fuel iterations are run; the flag tells whether the loop was
    left through its condition. -/
def printBitmap_bands (env : Timer) (bitmap_data : List Nat) (row_bytes height : Nat) :
    Nat → Nat → World → World × Bool
  | 0, y, w => (w, decide (¬ y < height))
  | fuel + 1, y, w =>
    if y < height then
      let chunk_height := if height - y > 24 then 24 else height - y
      let w1 := Adafruit_Thermal_writeBytes env w
        [ASCII_ESC, 42, 0x00, u8 (row_bytes &&& 0xFF), u8 ((row_bytes >>> 8) &&& 0xFF)]
      let w2 := printBitmap_rows env bitmap_data row_bytes y chunk_height 0 w1
      let w3 := Adafruit_Thermal_feed env w2 1
      printBitmap_bands env bitmap_data row_bytes height fuel (u16 (y + 24)) w3
    else (w, true)

/-- Adafruit_Thermal_printBitmap, run for at most fuel bands. -/
def Adafruit_Thermal_printBitmap (fuel : Nat) (env : Timer) (w : World)
    (bitmap_data : List Nat) (width height : Nat) : World × Bool :=
  if width % 8 ≠ 0 then (w, true)
  else
    let row_bytes := u16 (width / 8)
    printBitmap_bands env bitmap_data row_bytes height fuel 0 w

/-- The operations of the command encoder with their arguments. -/
inductive Op where
  | write (c : Nat)
  | print (str : List Nat)
  | println (str : List Nat)
  | setSize (value : Nat)
  | boldOn
  | boldOff
  | underlineOn (weight : Nat)
  | underlineOff
  | inverseOn
  | inverseOff
  | justify (value : Nat)
  | feed (x : Nat)
  | reset
  | wake
  | sleep
  | sleepAfter (seconds : Nat)
  | setHeatConfig (dots time interval : Nat)
  | setPrintDensity (density breakTime : Nat)
  | setCharset (val : Nat)
  | setCodePage (val : Nat)
  | printBarcode (data : List Nat) (type : Nat)
  | printQRCode (qr_data : List Nat)
  | printBitmap (bitmap_data : List Nat) (width height : Nat)
  deriving DecidableEq, Repr

/-- Run one operation (printBitmap for at most fuel bands). -/
def Op.run (fuel : Nat) (env : Timer) (w : World) : Op → World
  | Op.write c => Adafruit_Thermal_write env w c
  | Op.print str => Adafruit_Thermal_print env w str
  | Op.println str => Adafruit_Thermal_println env w str
  | Op.setSize value => Adafruit_Thermal_setSize env w value
  | Op.boldOn => Adafruit_Thermal_boldOn env w
  | Op.boldOff => Adafruit_Thermal_boldOff env w
  | Op.underlineOn weight => Adafruit_Thermal_underlineOn env w weight
  | Op.underlineOff => Adafruit_Thermal_underlineOff env w
  | Op.inverseOn => Adafruit_Thermal_inverseOn env w
  | Op.inverseOff => Adafruit_Thermal_inverseOff env w
  | Op.justify value => Adafruit_Thermal_justify env w value
  | Op.feed x => Adafruit_Thermal_feed env w x
  | Op.reset => Adafruit_Thermal_reset env w
  | Op.wake => Adafruit_Thermal_wake env w
  | Op.sleep => Adafruit_Thermal_sleep env w
  | Op.sleepAfter seconds => Adafruit_Thermal_sleepAfter env w seconds
  | Op.setHeatConfig dots time interval => Adafruit_Thermal_setHeatConfig env w dots time interval
  | Op.setPrintDensity density breakTime => Adafruit_Thermal_setPrintDensity env w density breakTime
  | Op.setCharset val => Adafruit_Thermal_setCharset env w val
  | Op.setCodePage val => Adafruit_Thermal_setCodePage env w val
  | Op.printBarcode data type => Adafruit_Thermal_printBarcode env w data type
  | Op.printQRCode qr_data => Adafruit_Thermal_printQRCode env w qr_data
  | Op.printBitmap bitmap_data width height =>
      (Adafruit_Thermal_printBitmap fuel env w bitmap_data width height).1

/-- The session of the demo program after init (UART 1, pins 18 and 19, no DTR
    pin), begin (firmware 268) and reset. -/
def sessionAfterReset : Adafruit_Thermal :=
  { uart_num := 1, tx_pin := 18, rx_pin := 19, dtr_pin := 255, dtr_enabled := false,
    firmware := 268, prev_byte := 10, print_mode := 0, column := 0, max_column := 32,
    char_height := 24, line_spacing := 6, barcode_height := 50, resume_time := 0,
    dot_print_time := 30000, dot_feed_time := 2100, max_chunk_height := 255 }

/-- The world after the demo session has written the letter A and a line feed (no
    time passes between the steps). -/
def lineWritten : World :=
  Adafruit_Thermal_write (fun _ => 0)
    (Adafruit_Thermal_write (fun _ => 0) (World.start sessionAfterReset 0) 65) ASCII_LF

/-- The world after the demo session has written twenty letters A. -/
def twentyWritten : World :=
  Nat.iterate (fun w => Adafruit_Thermal_write (fun _ => 0) w 65) 20
    (World.start sessionAfterReset 0)

/-- The byte-time formula in the words of the specification:
    ceil (n * 11 * 1000000 / baud). -/
def byteTimeCeil (n baud : Nat) : Nat := (n * 11 * 1000000 + baud - 1) / baud

/-- The triple (print_mode, char_height, max_column) of a session. -/
def sizeTriple (p : Adafruit_Thermal) : Nat × Nat × Nat :=
  (p.print_mode, p.char_height, p.max_column)

/-- Whether the event is a call of timeoutSet. -/
def Event.isSetBusy : Event → Bool
  | Event.setBusy _ => true
  | _ => false

/-- Every send of the log is preceded by a wait with no call of timeoutSet between
    that wait and the send. -/
def SendsGuarded (tr : List Event) : Prop :=
  ∀ pre bs post, tr = pre ++ Event.send bs :: post →
    ∃ a b, pre = a ++ Event.wait :: b ∧ ∀ e ∈ b, Event.isSetBusy e = false

/-- Executable check of a log: armed tells whether a wait has been seen with no call
    of timeoutSet after it; every send must find the check armed. -/
def guardedFrom : Bool → List Event → Bool
  | _, [] => true
  | _, Event.wait :: rest => guardedFrom true rest
  | _, Event.setBusy _ :: rest => guardedFrom false rest
  | armed, Event.send _ :: rest => armed && guardedFrom armed rest
  | armed, Event.assign _ _ :: rest => guardedFrom armed rest
  | armed, Event.delay _ :: rest => guardedFrom armed rest

/-- The value of armed after a log. -/
def armedAfter : Bool → List Event → Bool
  | armed, [] => armed
  | _, Event.wait :: rest => armedAfter true rest
  | _, Event.setBusy _ :: rest => armedAfter false rest
  | armed, Event.send _ :: rest => armedAfter armed rest
  | armed, Event.assign _ _ :: rest => armedAfter armed rest
  | armed, Event.delay _ :: rest => armedAfter armed rest

/-- A stretch of log that passes the check whatever came before it. -/
def SelfGuarded (ev : List Event) : Prop := ∀ armed, guardedFrom armed ev = true

/-- The log of the second world continues the log of the first by events with P. -/
def Emits (P : List Event → Prop) (w w1 : World) : Prop :=
  ∃ ev, w1.trace = w.trace ++ ev ∧ P ev

/-- No assignment of the log lowers resume_time. -/
def MonotoneAssigns (tr : List Event) : Prop :=
  ∀ o n, (o, n) ∈ assignsOf tr → o ≤ n

/-- Operations that call the feed of firmware 264 and later: feed and printBitmap. -/
def Op.isFeeding : Op → Bool
  | Op.feed _ => true
  | Op.printBitmap _ _ _ => true
  | _ => false

/-- The fields that decide flow control and the feed time are the same. -/
def SameCfg (p q : Adafruit_Thermal) : Prop :=
  q.dtr_enabled = p.dtr_enabled ∧ q.firmware = p.firmware
    ∧ q.char_height = p.char_height ∧ q.dot_feed_time = p.dot_feed_time

/-- The feed time of one line is not below the byte time of the three command bytes. -/
def FeedCovers (p : Adafruit_Thermal) : Prop :=
  3 * BYTE_TIME ≤ u32 (p.dot_feed_time * p.char_height)

/-- The column bound of the data model: column ≤ max_column. -/
def ColumnBound (p : Adafruit_Thermal) : Prop := p.column ≤ p.max_column

/-- The part of the log that timeoutSet adds. -/
def timeoutSet_events (env : Timer) (w : World) (x : Nat) : List Event :=
  if w.printer.dtr_enabled then [Event.setBusy (u32 x)]
  else [Event.setBusy (u32 x),
        Event.assign w.printer.resume_time (w.clock + env w.reads + u32 x)]

/-- The part of the log that writeBytes adds. -/
def writeBytes_events (env : Timer) (w : World) (data : List Nat) : List Event :=
  [Event.wait, Event.send data] ++
    timeoutSet_events env (uart_write_bytes (Adafruit_Thermal_timeoutWait env w) data)
      (u32 (data.length * BYTE_TIME))

/-- The payloads of the calls of uart_write_bytes, one list per call, in order. -/
def sendsOf : List Event → List (List Nat)
  | [] => []
  | Event.send bs :: rest => bs :: sendsOf rest
  | _ :: rest => sendsOf rest

/-- The world after the demo session has written thirty-two letters A: the line is
    full, column = max_column = 32. -/
def lineFull : World :=
  Nat.iterate (fun w => Adafruit_Thermal_write (fun _ => 0) w 65) 32
    (World.start sessionAfterReset 0)

/-- Row r of a bitmap that is packed with row_bytes bytes per row. -/
def bitmapRow (bitmap_data : List Nat) (row_bytes r : Nat) : List Nat :=
  (bitmap_data.drop (r * row_bytes)).take row_bytes

/-- The transmissions of a one-line paper feed: the command ESC, d, 1 on firmware 264
    and later, a line feed followed by CR on older firmware. -/
def feedOneSends (firmware : Nat) : List (List Nat) :=
  if firmware ≥ 264 then [[ASCII_ESC, 100, 1]] else [[ASCII_LF], [ASCII_CR]]

/-- Raster band k in the words of the specification: the header
    ESC, *, 0, row_bytes mod 256, row_bytes div 256, then min 24 (height - 24 k) rows
    taken in order from the bitmap, then a one-line paper feed. -/
def bandSends (firmware : Nat) (bitmap_data : List Nat) (row_bytes height k : Nat) :
    List (List Nat) :=
  [ASCII_ESC, 42, 0, row_bytes % 256, row_bytes / 256]
    :: (List.range (min 24 (height - 24 * k))).map
          (fun i => bitmapRow bitmap_data row_bytes (24 * k + i))
    ++ feedOneSends firmware

/-- All raster bands of a bitmap in the words of the specification: bands
    0, 1, ..., ceil (height / 24) - 1. -/
def bitmapSends (firmware : Nat) (bitmap_data : List Nat) (row_bytes height : Nat) :
    List (List Nat) :=
  (List.range ((height + 23) / 24)).flatMap (bandSends firmware bitmap_data row_bytes height)

/-! ## The text transcoder of uart_events_example_main.c -/

/-- The byte that the two-byte branch of utf8_to_cp1251 stores for the code point
    unicode_char (its chain of comparisons). -/
def cp1251_byte (unicode_char : Nat) : Nat :=
  if unicode_char ≥ 0x410 ∧ unicode_char ≤ 0x44F then u8 (unicode_char - 0x350)
  else if unicode_char = 0x401 then 0xA8
  else if unicode_char = 0x451 then 0xB8
  else 63

/-- The loop of utf8_to_cp1251.  The first list is the input from index i on
    (utf8_str[i], utf8_str[i + 1], ... up to the terminating NUL), out holds
    cp1251_str[0], ..., cp1251_str[cp1251_len - 1], and limit is cp1251_size - 1.
    A character of the input enters through u8, its value as a byte (the masks with
    0x1F and 0x3F give the same bits for a signed and for an unsigned char).
    A two-byte lead at the last position leaves the loop (break).  A three-byte lead
    skips three positions; when fewer than three remain the loop ends because i is no
    longer below utf8_len. -/
def utf8_to_cp1251_loop (limit : Nat) : List Nat → List Nat → List Nat
  | [], out => out
  | c0 :: rest, out =>
    if out.length < limit then
      if u8 c0 < 0x80 then
        utf8_to_cp1251_loop limit rest (out ++ [u8 c0])
      else if u8 c0 &&& 0xE0 = 0xC0 then
        match rest with
        | [] => out
        | c1 :: rest2 =>
          utf8_to_cp1251_loop limit rest2
            (out ++ [cp1251_byte (u16 (((u8 c0 &&& 0x1F) <<< 6) ||| (u8 c1 &&& 0x3F)))])
      else if u8 c0 &&& 0xF0 = 0xE0 then
        match rest with
        | _ :: _ :: rest3 => utf8_to_cp1251_loop limit rest3 out
        | _ => out
      else
        utf8_to_cp1251_loop limit rest (out ++ [63])
    else out

/-- The function utf8_to_cp1251.  The argument utf8_str is the list of the characters
    before the terminating NUL.  The first component of the result is what the call
    stores into cp1251_str from index 0 on (the converted bytes and the terminating
    NUL), the second is the returned length.  The bound cp1251_size - 1 is computed in
    size_t, that is modulo 2^32. -/
def utf8_to_cp1251 (utf8_str : List Nat) (cp1251_size : Nat) : List Nat × Nat :=
  (utf8_to_cp1251_loop (u32 (cp1251_size + 4294967295)) utf8_str [] ++ [0],
   (utf8_to_cp1251_loop (u32 (cp1251_size + 4294967295)) utf8_str []).length)

/-- The UTF-8 encoding of a code point below U+0800: one byte below U+0080, two
    bytes otherwise. -/
def utf8Encode (cp : Nat) : List Nat :=
  if cp < 0x80 then [cp] else [0xC0 ||| (cp >>> 6), 0x80 ||| (cp &&& 0x3F)]

/-- The repertoire that the transcoder maps: ASCII without NUL, U+0410..U+044F,
    U+0401 and U+0451. -/
abbrev Mapped (cp : Nat) : Prop :=
  (1 ≤ cp ∧ cp < 0x80) ∨ (0x410 ≤ cp ∧ cp ≤ 0x44F) ∨ cp = 0x401 ∨ cp = 0x451

/-- The byte that the specification assigns to a code point of the repertoire. -/
def cp1251Of (cp : Nat) : Nat :=
  if cp < 0x80 then cp
  else if cp = 0x401 then 0xA8
  else if cp = 0x451 then 0xB8
  else cp - 0x350

/-- The line-advance time in the words of the specification:
    (char_height + line_spacing) * dot_feed_time if the previous byte was a line feed,
    otherwise char_height * dot_print_time + line_spacing * dot_feed_time. -/
def lineAdvanceTime (p : Adafruit_Thermal) : Nat :=
  if p.prev_byte = ASCII_LF then (p.char_height + p.line_spacing) * p.dot_feed_time
  else p.char_height * p.dot_print_time + p.line_spacing * p.dot_feed_time

/-- In the words of the specification: n successive calls of write with a line feed. -/
def writeNewlines (env : Timer) (n : Nat) (w : World) : World :=
  Nat.iterate (fun v => Adafruit_Thermal_write env v ASCII_LF) n w

/-- The control flow of the band loop of printBitmap alone: whether the loop
    for (y = ...; y < height; y += 24), with its 16 bit counter starting at y, has been
    left through its condition after at most fuel iterations. -/
def bandLoopExit (height : Nat) : Nat → Nat → Bool
  | 0, y => decide (¬ y < height)
  | fuel + 1, y => if y < height then bandLoopExit height fuel (u16 (y + 24)) else true

/-- A session with its two flow-control fields blanked.  Two sessions agree on all
    fields except dtr_enabled and resume_time exactly when their cores are equal. -/
def Core (p : Adafruit_Thermal) : Adafruit_Thermal :=
  { p with dtr_enabled := false, resume_time := 0 }

/-- Two sessions agree on all fields except resume_time. -/
def SameButResumeTime (p q : Adafruit_Thermal) : Prop :=
  ({ p with resume_time := 0 } : Adafruit_Thermal) = { q with resume_time := 0 }

/-- From world w to world v the flow-control choice is kept, and under the DTR line
    resume_time is kept as well. -/
def Frozen (w v : World) : Prop :=
  v.printer.dtr_enabled = w.printer.dtr_enabled
    ∧ (w.printer.dtr_enabled = true → v.printer.resume_time = w.printer.resume_time)

/-- Two runs side by side, from w1 to v1 and from w2 to v2: they end in sessions with
    equal cores, they add the same transmissions, and each keeps its flow control. -/
def Sim (w1 w2 v1 v2 : World) : Prop :=
  Core v1.printer = Core v2.printer
    ∧ (∃ s, sendsOf v1.trace = sendsOf w1.trace ++ s ∧ sendsOf v2.trace = sendsOf w2.trace ++ s)
    ∧ Frozen w1 v1 ∧ Frozen w2 v2

/-! ## Basic facts about the primitives -/

theorem BYTE_TIME_eq : BYTE_TIME = 573 := by decide

theorem u32_u32 (x : Nat) : u32 (u32 x) = u32 x := by
  unfold u32
  omega

theorem bytesOf_append (a b : List Event) : bytesOf (a ++ b) = bytesOf a ++ bytesOf b := by
  induction a with
  | nil => rfl
  | cons e t ih => cases e <;> simp [bytesOf, ih]

theorem busyOf_append (a b : List Event) : busyOf (a ++ b) = busyOf a ++ busyOf b := by
  induction a with
  | nil => rfl
  | cons e t ih => cases e <;> simp [busyOf, ih]

theorem assignsOf_append (a b : List Event) :
    assignsOf (a ++ b) = assignsOf a ++ assignsOf b := by
  induction a with
  | nil => rfl
  | cons e t ih => cases e <;> simp [assignsOf, ih]

/-! ### Frame lemmas: the timing gate touches no field but resume_time -/

@[simp] theorem uart_write_bytes_printer (w : World) (d : List Nat) :
    (uart_write_bytes w d).printer = w.printer := rfl

@[simp] theorem uart_write_bytes_trace (w : World) (d : List Nat) :
    (uart_write_bytes w d).trace = w.trace ++ [Event.send d] := rfl

@[simp] theorem uart_write_bytes_clock (w : World) (d : List Nat) :
    (uart_write_bytes w d).clock = w.clock := rfl

@[simp] theorem vTaskDelay_printer (w : World) (ms : Nat) :
    (vTaskDelay w ms).printer = w.printer := rfl

@[simp] theorem vTaskDelay_trace (w : World) (ms : Nat) :
    (vTaskDelay w ms).trace = w.trace ++ [Event.delay ms] := rfl

@[simp] theorem timeoutWait_printer (env : Timer) (w : World) :
    (Adafruit_Thermal_timeoutWait env w).printer = w.printer := by
  unfold Adafruit_Thermal_timeoutWait
  split <;> rfl

@[simp] theorem timeoutWait_trace (env : Timer) (w : World) :
    (Adafruit_Thermal_timeoutWait env w).trace = w.trace ++ [Event.wait] := by
  unfold Adafruit_Thermal_timeoutWait
  split <;> rfl

theorem timeoutWait_resume_le_clock (env : Timer) (w : World)
    (hd : w.printer.dtr_enabled = false) :
    (Adafruit_Thermal_timeoutWait env w).printer.resume_time
      ≤ (Adafruit_Thermal_timeoutWait env w).clock := by
  simp [Adafruit_Thermal_timeoutWait, hd]

@[simp] theorem timeoutSet_trace (env : Timer) (w : World) (x : Nat) :
    (Adafruit_Thermal_timeoutSet env w x).trace = w.trace ++ timeoutSet_events env w x := by
  unfold Adafruit_Thermal_timeoutSet timeoutSet_events
  split <;> rfl

@[simp] theorem bytesOf_timeoutSet_events (env : Timer) (w : World) (x : Nat) :
    bytesOf (timeoutSet_events env w x) = [] := by
  unfold timeoutSet_events
  split <;> rfl

@[simp] theorem busyOf_timeoutSet_events (env : Timer) (w : World) (x : Nat) :
    busyOf (timeoutSet_events env w x) = [u32 x] := by
  unfold timeoutSet_events
  split <;> rfl

theorem timeoutSet_resume_time (env : Timer) (w : World) (x : Nat)
    (hd : w.printer.dtr_enabled = false) :
    (Adafruit_Thermal_timeoutSet env w x).printer.resume_time
      = (Adafruit_Thermal_timeoutSet env w x).clock + u32 x := by
  simp [Adafruit_Thermal_timeoutSet, hd]

theorem timeoutSet_resume_time_dtr (env : Timer) (w : World) (x : Nat)
    (hd : w.printer.dtr_enabled = true) :
    (Adafruit_Thermal_timeoutSet env w x).printer.resume_time = w.printer.resume_time := by
  simp [Adafruit_Thermal_timeoutSet, hd]

@[simp] theorem writeBytes_trace (env : Timer) (w : World) (data : List Nat) :
    (Adafruit_Thermal_writeBytes env w data).trace = w.trace ++ writeBytes_events env w data := by
  simp [Adafruit_Thermal_writeBytes, writeBytes_events]

@[simp] theorem bytesOf_writeBytes_events (env : Timer) (w : World) (data : List Nat) :
    bytesOf (writeBytes_events env w data) = data := by
  simp [writeBytes_events, bytesOf, bytesOf_append]

@[simp] theorem timeoutSet_dtr_enabled (env : Timer) (w : World) (x : Nat) :
    (Adafruit_Thermal_timeoutSet env w x).printer.dtr_enabled = w.printer.dtr_enabled := by
  unfold Adafruit_Thermal_timeoutSet
  split <;> rfl

@[simp] theorem writeBytes_dtr_enabled (env : Timer) (w : World) (d : List Nat) :
    (Adafruit_Thermal_writeBytes env w d).printer.dtr_enabled = w.printer.dtr_enabled := by
  simp [Adafruit_Thermal_writeBytes]

@[simp] theorem timeoutSet_firmware (env : Timer) (w : World) (x : Nat) :
    (Adafruit_Thermal_timeoutSet env w x).printer.firmware = w.printer.firmware := by
  unfold Adafruit_Thermal_timeoutSet
  split <;> rfl

@[simp] theorem writeBytes_firmware (env : Timer) (w : World) (d : List Nat) :
    (Adafruit_Thermal_writeBytes env w d).printer.firmware = w.printer.firmware := by
  simp [Adafruit_Thermal_writeBytes]

@[simp] theorem timeoutSet_prev_byte (env : Timer) (w : World) (x : Nat) :
    (Adafruit_Thermal_timeoutSet env w x).printer.prev_byte = w.printer.prev_byte := by
  unfold Adafruit_Thermal_timeoutSet
  split <;> rfl

@[simp] theorem writeBytes_prev_byte (env : Timer) (w : World) (d : List Nat) :
    (Adafruit_Thermal_writeBytes env w d).printer.prev_byte = w.printer.prev_byte := by
  simp [Adafruit_Thermal_writeBytes]

@[simp] theorem timeoutSet_print_mode (env : Timer) (w : World) (x : Nat) :
    (Adafruit_Thermal_timeoutSet env w x).printer.print_mode = w.printer.print_mode := by
  unfold Adafruit_Thermal_timeoutSet
  split <;> rfl

@[simp] theorem writeBytes_print_mode (env : Timer) (w : World) (d : List Nat) :
    (Adafruit_Thermal_writeBytes env w d).printer.print_mode = w.printer.print_mode := by
  simp [Adafruit_Thermal_writeBytes]

@[simp] theorem timeoutSet_column (env : Timer) (w : World) (x : Nat) :
    (Adafruit_Thermal_timeoutSet env w x).printer.column = w.printer.column := by
  unfold Adafruit_Thermal_timeoutSet
  split <;> rfl

@[simp] theorem writeBytes_column (env : Timer) (w : World) (d : List Nat) :
    (Adafruit_Thermal_writeBytes env w d).printer.column = w.printer.column := by
  simp [Adafruit_Thermal_writeBytes]

@[simp] theorem timeoutSet_max_column (env : Timer) (w : World) (x : Nat) :
    (Adafruit_Thermal_timeoutSet env w x).printer.max_column = w.printer.max_column := by
  unfold Adafruit_Thermal_timeoutSet
  split <;> rfl

@[simp] theorem writeBytes_max_column (env : Timer) (w : World) (d : List Nat) :
    (Adafruit_Thermal_writeBytes env w d).printer.max_column = w.printer.max_column := by
  simp [Adafruit_Thermal_writeBytes]

@[simp] theorem timeoutSet_char_height (env : Timer) (w : World) (x : Nat) :
    (Adafruit_Thermal_timeoutSet env w x).printer.char_height = w.printer.char_height := by
  unfold Adafruit_Thermal_timeoutSet
  split <;> rfl

@[simp] theorem writeBytes_char_height (env : Timer) (w : World) (d : List Nat) :
    (Adafruit_Thermal_writeBytes env w d).printer.char_height = w.printer.char_height := by
  simp [Adafruit_Thermal_writeBytes]

@[simp] theorem timeoutSet_line_spacing (env : Timer) (w : World) (x : Nat) :
    (Adafruit_Thermal_timeoutSet env w x).printer.line_spacing = w.printer.line_spacing := by
  unfold Adafruit_Thermal_timeoutSet
  split <;> rfl

@[simp] theorem writeBytes_line_spacing (env : Timer) (w : World) (d : List Nat) :
    (Adafruit_Thermal_writeBytes env w d).printer.line_spacing = w.printer.line_spacing := by
  simp [Adafruit_Thermal_writeBytes]

@[simp] theorem timeoutSet_barcode_height (env : Timer) (w : World) (x : Nat) :
    (Adafruit_Thermal_timeoutSet env w x).printer.barcode_height = w.printer.barcode_height := by
  unfold Adafruit_Thermal_timeoutSet
  split <;> rfl

@[simp] theorem writeBytes_barcode_height (env : Timer) (w : World) (d : List Nat) :
    (Adafruit_Thermal_writeBytes env w d).printer.barcode_height = w.printer.barcode_height := by
  simp [Adafruit_Thermal_writeBytes]

@[simp] theorem timeoutSet_dot_print_time (env : Timer) (w : World) (x : Nat) :
    (Adafruit_Thermal_timeoutSet env w x).printer.dot_print_time = w.printer.dot_print_time := by
  unfold Adafruit_Thermal_timeoutSet
  split <;> rfl

@[simp] theorem writeBytes_dot_print_time (env : Timer) (w : World) (d : List Nat) :
    (Adafruit_Thermal_writeBytes env w d).printer.dot_print_time = w.printer.dot_print_time := by
  simp [Adafruit_Thermal_writeBytes]

@[simp] theorem timeoutSet_dot_feed_time (env : Timer) (w : World) (x : Nat) :
    (Adafruit_Thermal_timeoutSet env w x).printer.dot_feed_time = w.printer.dot_feed_time := by
  unfold Adafruit_Thermal_timeoutSet
  split <;> rfl

@[simp] theorem writeBytes_dot_feed_time (env : Timer) (w : World) (d : List Nat) :
    (Adafruit_Thermal_writeBytes env w d).printer.dot_feed_time = w.printer.dot_feed_time := by
  simp [Adafruit_Thermal_writeBytes]

/-! ## C1: every send is preceded by a wait -/

theorem guardedFrom_append (armed : Bool) (x y : List Event) :
    guardedFrom armed (x ++ y) = (guardedFrom armed x && guardedFrom (armedAfter armed x) y) := by
  induction x generalizing armed with
  | nil => simp [guardedFrom, armedAfter]
  | cons e t ih =>
    cases e <;> simp [guardedFrom, armedAfter, ih, Bool.and_assoc]

theorem SelfGuarded_nil : SelfGuarded [] := fun _ => rfl

theorem SelfGuarded_append {x y : List Event} (hx : SelfGuarded x) (hy : SelfGuarded y) :
    SelfGuarded (x ++ y) := by
  intro armed
  rw [guardedFrom_append, hx armed, hy _]
  rfl

theorem guardedFrom_sound (tr : List Event) :
    ∀ armed, guardedFrom armed tr = true →
      ∀ pre bs post, tr = pre ++ Event.send bs :: post →
        (∃ a b, pre = a ++ Event.wait :: b ∧ ∀ e ∈ b, Event.isSetBusy e = false)
        ∨ (armed = true ∧ ∀ e ∈ pre, Event.isSetBusy e = false) := by
  induction tr with
  | nil =>
    intro armed _ pre bs post h
    simp at h
  | cons e t ih =>
    intro armed hg pre bs post h
    cases pre with
    | nil =>
      simp only [List.nil_append, List.cons.injEq] at h
      obtain ⟨he, _⟩ := h
      subst he
      simp only [guardedFrom, Bool.and_eq_true] at hg
      exact Or.inr ⟨hg.1, by simp⟩
    | cons e1 pre1 =>
      simp only [List.cons_append, List.cons.injEq] at h
      obtain ⟨he, ht⟩ := h
      subst he
      cases e with
      | wait =>
        simp only [guardedFrom] at hg
        rcases ih true hg pre1 bs post ht with ⟨a, b, hab, hb⟩ | ⟨_, hpre⟩
        · exact Or.inl ⟨Event.wait :: a, b, by simp [hab], hb⟩
        · exact Or.inl ⟨[], pre1, by simp, hpre⟩
      | setBusy x =>
        simp only [guardedFrom] at hg
        rcases ih false hg pre1 bs post ht with ⟨a, b, hab, hb⟩ | ⟨hf, _⟩
        · exact Or.inl ⟨Event.setBusy x :: a, b, by simp [hab], hb⟩
        · exact absurd hf (by decide)
      | send d =>
        simp only [guardedFrom, Bool.and_eq_true] at hg
        rcases ih armed hg.2 pre1 bs post ht with ⟨a, b, hab, hb⟩ | ⟨ha, hpre⟩
        · exact Or.inl ⟨Event.send d :: a, b, by simp [hab], hb⟩
        · refine Or.inr ⟨ha, ?_⟩
          intro e he
          rcases List.mem_cons.mp he with h1 | h1
          · subst h1
            rfl
          · exact hpre e h1
      | assign o n =>
        simp only [guardedFrom] at hg
        rcases ih armed hg pre1 bs post ht with ⟨a, b, hab, hb⟩ | ⟨ha, hpre⟩
        · exact Or.inl ⟨Event.assign o n :: a, b, by simp [hab], hb⟩
        · refine Or.inr ⟨ha, ?_⟩
          intro e he
          rcases List.mem_cons.mp he with h1 | h1
          · subst h1
            rfl
          · exact hpre e h1
      | delay ms =>
        simp only [guardedFrom] at hg
        rcases ih armed hg pre1 bs post ht with ⟨a, b, hab, hb⟩ | ⟨ha, hpre⟩
        · exact Or.inl ⟨Event.delay ms :: a, b, by simp [hab], hb⟩
        · refine Or.inr ⟨ha, ?_⟩
          intro e he
          rcases List.mem_cons.mp he with h1 | h1
          · subst h1
            rfl
          · exact hpre e h1

theorem SelfGuarded.sendsGuarded {tr : List Event} (h : SelfGuarded tr) : SendsGuarded tr := by
  intro pre bs post htr
  rcases guardedFrom_sound tr false (h false) pre bs post htr with h1 | ⟨hf, _⟩
  · exact h1
  · exact absurd hf (by decide)

/-! ### Composition of log extensions -/

theorem Emits.emits_refl {P : List Event → Prop} (hnil : P []) (w : World) : Emits P w w :=
  ⟨[], by simp, hnil⟩

theorem Emits.emits_trans {P : List Event → Prop} (happ : ∀ x y, P x → P y → P (x ++ y))
    {w w1 w2 : World} (h1 : Emits P w w1) (h2 : Emits P w1 w2) : Emits P w w2 := by
  obtain ⟨e1, ht1, hp1⟩ := h1
  obtain ⟨e2, ht2, hp2⟩ := h2
  exact ⟨e1 ++ e2, by rw [ht2, ht1, List.append_assoc], happ e1 e2 hp1 hp2⟩

theorem Emits.of_drop {P : List Event → Prop} {w w1 : World}
    (h : w1.trace = w.trace ++ w1.trace.drop w.trace.length)
    (hp : P (w1.trace.drop w.trace.length)) : Emits P w w1 :=
  ⟨_, h, hp⟩

theorem Emits.from_same_trace {P : List Event → Prop} {w w0 w1 : World}
    (h0 : w0.trace = w.trace) (h : Emits P w0 w1) : Emits P w w1 := by
  obtain ⟨e, ht, hp⟩ := h
  exact ⟨e, by rw [ht, h0], hp⟩

theorem Emits.to_same_trace {P : List Event → Prop} {w w1 w2 : World}
    (h2 : w2.trace = w1.trace) (h : Emits P w w1) : Emits P w w2 := by
  obtain ⟨e, ht, hp⟩ := h
  exact ⟨e, by rw [h2, ht], hp⟩

/-! ### The blocks of the encoder pass the check -/

@[simp] theorem guardedFrom_timeoutSet_events (armed : Bool) (env : Timer) (w : World) (x : Nat) :
    guardedFrom armed (timeoutSet_events env w x) = true := by
  unfold timeoutSet_events
  split <;> rfl

theorem timeoutSet_emits_guarded (env : Timer) (w : World) (x : Nat) :
    Emits SelfGuarded w (Adafruit_Thermal_timeoutSet env w x) :=
  ⟨_, timeoutSet_trace env w x, fun a => guardedFrom_timeoutSet_events a env _ x⟩

theorem writeBytes_emits_guarded (env : Timer) (w : World) (d : List Nat) :
    Emits SelfGuarded w (Adafruit_Thermal_writeBytes env w d) := by
  refine ⟨_, writeBytes_trace env w d, ?_⟩
  intro a
  simp [writeBytes_events, guardedFrom]

theorem print_emits_guarded (env : Timer) (w : World) (str : List Nat) :
    Emits SelfGuarded w (Adafruit_Thermal_print env w str) := by
  unfold Adafruit_Thermal_print
  apply Emits.of_drop
  · simp
  · intro a
    simp [guardedFrom_append, guardedFrom, armedAfter]

theorem write_emits_guarded (env : Timer) (w : World) (c : Nat) :
    Emits SelfGuarded w (Adafruit_Thermal_write env w c) := by
  unfold Adafruit_Thermal_write
  by_cases h1 : c ≠ ASCII_CR
  · rw [if_pos h1]
    dsimp only
    by_cases h2 : c = ASCII_LF ∨ w.printer.column = w.printer.max_column
    · apply Emits.of_drop
      · simp [h2]
      · intro a
        simp [h2, guardedFrom_append, guardedFrom, armedAfter]
    · apply Emits.of_drop
      · simp [h2]
      · intro a
        simp [h2, guardedFrom_append, guardedFrom, armedAfter]
  · rw [if_neg h1]
    exact Emits.emits_refl SelfGuarded_nil w

theorem Emits.gtrans {w w1 w2 : World} (h1 : Emits SelfGuarded w w1)
    (h2 : Emits SelfGuarded w1 w2) : Emits SelfGuarded w w2 :=
  Emits.emits_trans (fun _ _ hx hy => SelfGuarded_append hx hy) h1 h2

theorem vTaskDelay_emits_guarded (w : World) (ms : Nat) :
    Emits SelfGuarded w (vTaskDelay w ms) :=
  ⟨[Event.delay ms], rfl, fun a => by cases a <;> rfl⟩

theorem feed_loop_emits_guarded (env : Timer) (x : Nat) (w : World) :
    Emits SelfGuarded w (feed_loop env x w) := by
  induction x generalizing w with
  | zero => exact Emits.emits_refl SelfGuarded_nil w
  | succ n ih => exact (write_emits_guarded env w ASCII_LF).gtrans (ih _)

theorem feed_emits_guarded (env : Timer) (w : World) (x : Nat) :
    Emits SelfGuarded w (Adafruit_Thermal_feed env w x) := by
  unfold Adafruit_Thermal_feed
  split_ifs
  · exact Emits.to_same_trace rfl
      ((writeBytes_emits_guarded env w _).gtrans (timeoutSet_emits_guarded env _ _))
  · exact feed_loop_emits_guarded env x w

theorem wake_loop_emits_guarded (env : Timer) (n : Nat) (w : World) :
    Emits SelfGuarded w (wake_loop env n w) := by
  induction n generalizing w with
  | zero => exact Emits.emits_refl SelfGuarded_nil w
  | succ n ih =>
    exact ((writeBytes_emits_guarded env w [0]).gtrans
      (timeoutSet_emits_guarded env _ 10000)).gtrans (ih _)

theorem printBitmap_rows_emits_guarded (env : Timer) (bitmap_data : List Nat)
    (row_bytes y n i : Nat) (w : World) :
    Emits SelfGuarded w (printBitmap_rows env bitmap_data row_bytes y n i w) := by
  induction n generalizing i w with
  | zero => exact Emits.emits_refl SelfGuarded_nil w
  | succ n ih => exact (writeBytes_emits_guarded env w _).gtrans (ih _ _)

theorem printBitmap_bands_emits_guarded (env : Timer) (bitmap_data : List Nat)
    (row_bytes height fuel y : Nat) (w : World) :
    Emits SelfGuarded w (printBitmap_bands env bitmap_data row_bytes height fuel y w).1 := by
  induction fuel generalizing y w with
  | zero => exact Emits.emits_refl SelfGuarded_nil w
  | succ n ih =>
    rw [printBitmap_bands]
    by_cases hy : y < height
    · rw [if_pos hy]
      exact (((writeBytes_emits_guarded env w _).gtrans
        (printBitmap_rows_emits_guarded env bitmap_data row_bytes y _ 0 _)).gtrans
        (feed_emits_guarded env _ 1)).gtrans (ih _ _)
    · rw [if_neg hy]
      exact Emits.emits_refl SelfGuarded_nil w

/-- Every operation other than println and wake only adds blocks that pass the check. -/
theorem run_emits_guarded (fuel : Nat) (env : Timer) (w : World) (op : Op)
    (hprintln : ∀ str, op ≠ Op.println str) (hwake : op ≠ Op.wake) :
    Emits SelfGuarded w (op.run fuel env w) := by
  cases op with
  | write c => exact write_emits_guarded env w c
  | print str => exact print_emits_guarded env w str
  | println str => exact absurd rfl (hprintln str)
  | setSize value =>
    exact Emits.to_same_trace rfl (Emits.from_same_trace rfl (writeBytes_emits_guarded env _ _))
  | boldOn => exact Emits.from_same_trace rfl (writeBytes_emits_guarded env _ _)
  | boldOff => exact Emits.from_same_trace rfl (writeBytes_emits_guarded env _ _)
  | underlineOn weight => exact writeBytes_emits_guarded env w _
  | underlineOff => exact writeBytes_emits_guarded env w _
  | inverseOn => exact writeBytes_emits_guarded env w _
  | inverseOff => exact writeBytes_emits_guarded env w _
  | justify value => exact writeBytes_emits_guarded env w _
  | feed x => exact feed_emits_guarded env w x
  | reset =>
    show Emits SelfGuarded w (Adafruit_Thermal_reset env w)
    unfold Adafruit_Thermal_reset
    dsimp only
    split_ifs
    · exact (Emits.to_same_trace rfl (writeBytes_emits_guarded env w _)).gtrans
        (writeBytes_emits_guarded env _ _)
    · exact Emits.to_same_trace rfl (writeBytes_emits_guarded env w _)
  | wake => exact absurd rfl hwake
  | sleep =>
    show Emits SelfGuarded w (Adafruit_Thermal_sleepAfter env w 1)
    unfold Adafruit_Thermal_sleepAfter
    split_ifs <;> exact writeBytes_emits_guarded env w _
  | sleepAfter seconds =>
    show Emits SelfGuarded w (Adafruit_Thermal_sleepAfter env w seconds)
    unfold Adafruit_Thermal_sleepAfter
    split_ifs <;> exact writeBytes_emits_guarded env w _
  | setHeatConfig dots time interval => exact writeBytes_emits_guarded env w _
  | setPrintDensity density breakTime => exact writeBytes_emits_guarded env w _
  | setCharset val => exact writeBytes_emits_guarded env w _
  | setCodePage val => exact writeBytes_emits_guarded env w _
  | printBarcode data type =>
    exact (((writeBytes_emits_guarded env w _).gtrans (writeBytes_emits_guarded env _ _)).gtrans
      (writeBytes_emits_guarded env _ data)).gtrans (write_emits_guarded env _ 0)
  | printQRCode qr_data =>
    exact ((((writeBytes_emits_guarded env w _).gtrans
      (writeBytes_emits_guarded env _ _)).gtrans (writeBytes_emits_guarded env _ _)).gtrans
      (writeBytes_emits_guarded env _ qr_data)).gtrans (writeBytes_emits_guarded env _ _)
  | printBitmap bitmap_data width height =>
    show Emits SelfGuarded w (Adafruit_Thermal_printBitmap fuel env w bitmap_data width height).1
    unfold Adafruit_Thermal_printBitmap
    split_ifs
    · exact Emits.emits_refl SelfGuarded_nil w
    · exact printBitmap_bands_emits_guarded env bitmap_data _ height fuel 0 w

/-- After its first two steps (timeoutSet, then the wake byte) wake only adds blocks
    that pass the check. -/
theorem wake_rest_emits_guarded (env : Timer) (w : World) :
    Emits SelfGuarded (uart_write_bytes (Adafruit_Thermal_timeoutSet env w 10000) [255])
      (Adafruit_Thermal_wake env w) := by
  unfold Adafruit_Thermal_wake
  dsimp only
  split_ifs
  · exact (vTaskDelay_emits_guarded _ 50).gtrans (writeBytes_emits_guarded env _ _)
  · exact wake_loop_emits_guarded env 10 _

/-- The newline of println goes out after the timeoutSet of print with no wait in
    between (here for the one-letter string A in the session of the demo program). -/
theorem println_newline_without_wait :
    (Op.run 0 (fun _ => 0) (World.start sessionAfterReset 0) (Op.println [65])).trace
      = [Event.wait, Event.send [65], Event.setBusy 573, Event.assign 0 573,
         Event.send [10], Event.setBusy 573, Event.assign 573 573]
    ∧ ¬ SendsGuarded
        (Op.run 0 (fun _ => 0) (World.start sessionAfterReset 0) (Op.println [65])).trace := by
  have ht : (Op.run 0 (fun _ => 0) (World.start sessionAfterReset 0) (Op.println [65])).trace
      = [Event.wait, Event.send [65], Event.setBusy 573, Event.assign 0 573,
         Event.send [10], Event.setBusy 573, Event.assign 573 573] := by decide
  refine ⟨ht, ?_⟩
  rw [ht]
  intro h
  obtain ⟨a, b, hab, hb⟩ := h [Event.wait, Event.send [65], Event.setBusy 573, Event.assign 0 573]
    [10] [Event.setBusy 573, Event.assign 573 573] rfl
  cases a with
  | nil =>
    simp only [List.nil_append, List.cons.injEq, true_and] at hab
    have := hb (Event.setBusy 573) (by rw [← hab]; simp)
    simp [Event.isSetBusy] at this
  | cons e t =>
    simp only [List.cons_append, List.cons.injEq] at hab
    have hmem : Event.wait ∈ [Event.send [65], Event.setBusy 573, Event.assign 0 573] := by
      rw [hab.2]
      simp
    simp at hmem

/-- C1 (counterexample): wake sends its first byte (255) right after a call of
    timeoutSet and with no wait before it. -/
theorem C1_counterexample_wake :
    ¬ SendsGuarded (Op.run 0 (fun _ => 0) (World.start sessionAfterReset 0) Op.wake).trace := by
  intro h
  obtain ⟨a, b, hab, _⟩ := h [Event.setBusy 10000, Event.assign 0 10000] [255]
    [Event.delay 50, Event.wait, Event.send [27, 56, 0, 0], Event.setBusy 2292,
      Event.assign 10000 12292] (by decide)
  have hmem : Event.wait ∈ [Event.setBusy 10000, Event.assign 0 10000] := by
    rw [hab]
    simp
  simp at hmem

/-- C1 (amended): for every operation other than println and wake, every session
    state, timer and fuel: each send of the operation is preceded, inside the
    operation, by a wait with no call of timeoutSet between that wait and the send.
    wake first calls timeoutSet and sends the wake byte 255 without any wait; each
    later send of wake is preceded by a wait in the same way. -/
theorem C1_sends_follow_a_wait (fuel : Nat) (env : Timer) (p : Adafruit_Thermal) (clock : Nat)
    (op : Op) :
    ((∀ str, op ≠ Op.println str) → op ≠ Op.wake →
        SendsGuarded (op.run fuel env (World.start p clock)).trace)
    ∧ (∃ rest, (Op.run fuel env (World.start p clock) Op.wake).trace
          = timeoutSet_events env (World.start p clock) 10000 ++ Event.send [255] :: rest
        ∧ SendsGuarded rest) := by
  constructor
  · intro h1 h2
    obtain ⟨ev, hev, hg⟩ := run_emits_guarded fuel env (World.start p clock) op h1 h2
    have : (op.run fuel env (World.start p clock)).trace = ev := by
      rw [hev]
      rfl
    rw [this]
    exact hg.sendsGuarded
  · obtain ⟨ev, hev, hg⟩ := wake_rest_emits_guarded env (World.start p clock)
    refine ⟨ev, ?_, hg.sendsGuarded⟩
    show (Adafruit_Thermal_wake env (World.start p clock)).trace = _
    rw [hev]
    simp [World.start]

/-- C1 (witness): printing a barcode in the session of the demo program. -/
theorem C1_sends_follow_a_wait_witness :
    SendsGuarded (Op.run 0 (fun _ => 0) (World.start sessionAfterReset 0)
      (Op.printBarcode [48, 49, 50] 4)).trace :=
  (C1_sends_follow_a_wait 0 (fun _ => 0) sessionAfterReset 0 (Op.printBarcode [48, 49, 50] 4)).1
    (fun _ h => Op.noConfusion h) (fun h => Op.noConfusion h)

/-! ## C2: byte time -/

theorem busyOf_writeBytes (env : Timer) (p : Adafruit_Thermal) (clock : Nat) (data : List Nat) :
    busyOf (Adafruit_Thermal_writeBytes env (World.start p clock) data).trace
      = [u32 (data.length * 573)] := by
  cases hd : p.dtr_enabled <;>
    simp [Adafruit_Thermal_writeBytes, Adafruit_Thermal_timeoutWait,
      Adafruit_Thermal_timeoutSet, uart_write_bytes, World.start, busyOf, BYTE_TIME_eq, u32, hd]

theorem busyOf_print (env : Timer) (p : Adafruit_Thermal) (clock : Nat) (str : List Nat) :
    busyOf (Adafruit_Thermal_print env (World.start p clock) str).trace
      = [u32 (str.length * 573)] := by
  cases hd : p.dtr_enabled <;>
    simp [Adafruit_Thermal_print, Adafruit_Thermal_timeoutWait,
      Adafruit_Thermal_timeoutSet, uart_write_bytes, World.start, busyOf, BYTE_TIME_eq, u32, hd]

/-- C2 (counterexample): for 1024 bytes writeBytes records 586752 microseconds, while
    ceil (1024 * 11 * 1000000 / 19200) is 586667. -/
theorem C2_counterexample_1024 :
    busyOf (Adafruit_Thermal_writeBytes (fun _ => 0) (World.start sessionAfterReset 0)
      (List.replicate 1024 0)).trace = [586752]
    ∧ byteTimeCeil 1024 BAUDRATE = 586667
    ∧ busyOf (Adafruit_Thermal_writeBytes (fun _ => 0) (World.start sessionAfterReset 0)
      (List.replicate 1024 0)).trace ≠ [byteTimeCeil 1024 BAUDRATE] := by
  have h : busyOf (Adafruit_Thermal_writeBytes (fun _ => 0) (World.start sessionAfterReset 0)
      (List.replicate 1024 0)).trace = [586752] := by
    rw [busyOf_writeBytes, List.length_replicate]
    rfl
  have h2 : byteTimeCeil 1024 BAUDRATE = 586667 := by decide
  refine ⟨h, h2, ?_⟩
  rw [h, h2]
  decide

/-- C2 (amended): a raw transmission of N bytes (writeBytes, print) with
    N * 573 below 2^32 records a busy duration of N * BYTE_TIME = N * 573 microseconds
    (under timed flow control resume_time is the timer value plus that duration); this
    exceeds ceil (N * 11 * 1000000 / 19200) by exactly N / 12 (rounded down), so the two
    agree exactly when N is below 12. -/
theorem C2_busy_is_length_times_byte_time (env : Timer) (p : Adafruit_Thermal) (clock : Nat)
    (data : List Nat) (h : data.length * BYTE_TIME < 4294967296) :
    busyOf (Adafruit_Thermal_writeBytes env (World.start p clock) data).trace
        = [data.length * 573]
    ∧ busyOf (Adafruit_Thermal_print env (World.start p clock) data).trace
        = [data.length * 573]
    ∧ (p.dtr_enabled = false →
        (Adafruit_Thermal_writeBytes env (World.start p clock) data).printer.resume_time
          = (Adafruit_Thermal_writeBytes env (World.start p clock) data).clock
            + data.length * 573
        ∧ (Adafruit_Thermal_print env (World.start p clock) data).printer.resume_time
          = (Adafruit_Thermal_print env (World.start p clock) data).clock
            + data.length * 573)
    ∧ data.length * 573 = byteTimeCeil data.length BAUDRATE + data.length / 12
    ∧ (data.length * 573 = byteTimeCeil data.length BAUDRATE ↔ data.length < 12) := by
  rw [BYTE_TIME_eq] at h
  have hmod : data.length * 573 % 4294967296 = data.length * 573 := Nat.mod_eq_of_lt h
  have hc : data.length * 573 = byteTimeCeil data.length BAUDRATE + data.length / 12 := by
    simp only [byteTimeCeil, BAUDRATE]
    omega
  refine ⟨?_, ?_, ?_, hc, ?_⟩
  · rw [busyOf_writeBytes, u32, hmod]
  · rw [busyOf_print, u32, hmod]
  · intro hd
    simp [Adafruit_Thermal_writeBytes, Adafruit_Thermal_print, Adafruit_Thermal_timeoutWait,
        Adafruit_Thermal_timeoutSet, uart_write_bytes, World.start, BYTE_TIME_eq, u32,
        hd, hmod]
  · constructor
    · intro he
      have : data.length / 12 = 0 := by omega
      omega
    · intro hl
      have : data.length / 12 = 0 := by omega
      omega

/-- C2 (witness): the amended statement at 1024 bytes. -/
theorem C2_busy_is_length_times_byte_time_witness :
    busyOf (Adafruit_Thermal_writeBytes (fun _ => 0) (World.start sessionAfterReset 0)
      (List.replicate 1024 0)).trace = [(List.replicate 1024 0).length * 573] :=
  (C2_busy_is_length_times_byte_time (fun _ => 0) sessionAfterReset 0 (List.replicate 1024 0)
    (by rw [List.length_replicate, BYTE_TIME_eq]; decide)).1

/-! ## C3, C4, C5: write -/

/-- C3: for every session state and every byte c other than CR: if c is LF or
    column = max_column before the call, write sets column to 0 and transmits exactly
    the two bytes c, CR; otherwise it transmits exactly the byte c and increments
    column by one (column is an 8 bit field: the new value is column + 1 reduced
    modulo 256, which is column + 1 for every column below 255).  In both cases
    prev_byte becomes c. -/
theorem C3_write_wrap_or_advance (env : Timer) (p : Adafruit_Thermal) (clock c : Nat)
    (hc : c ≠ ASCII_CR) :
    ((c = ASCII_LF ∨ p.column = p.max_column) →
        (Adafruit_Thermal_write env (World.start p clock) c).printer.column = 0
        ∧ bytesOf (Adafruit_Thermal_write env (World.start p clock) c).trace = [c, ASCII_CR])
    ∧ (¬ (c = ASCII_LF ∨ p.column = p.max_column) →
        bytesOf (Adafruit_Thermal_write env (World.start p clock) c).trace = [c]
        ∧ (Adafruit_Thermal_write env (World.start p clock) c).printer.column
            = (p.column + 1) % 256
        ∧ (p.column < 255 →
            (Adafruit_Thermal_write env (World.start p clock) c).printer.column = p.column + 1))
    ∧ (Adafruit_Thermal_write env (World.start p clock) c).printer.prev_byte = c := by
  refine ⟨?_, ?_, ?_⟩
  · intro h
    cases hd : p.dtr_enabled <;>
      simp [Adafruit_Thermal_write, Adafruit_Thermal_timeoutWait, Adafruit_Thermal_timeoutSet,
        uart_write_bytes, World.start, bytesOf, hc, hd, h]
  · intro h
    have hmod : p.column < 255 → (p.column + 1) % 256 = p.column + 1 := by
      intro hlt
      exact Nat.mod_eq_of_lt (by omega)
    cases hd : p.dtr_enabled <;>
      simpa [Adafruit_Thermal_write, Adafruit_Thermal_timeoutWait, Adafruit_Thermal_timeoutSet,
        uart_write_bytes, World.start, bytesOf, u8, hc, hd, h] using hmod
  · by_cases h : c = ASCII_LF ∨ p.column = p.max_column <;>
    cases hd : p.dtr_enabled <;>
      simp [Adafruit_Thermal_write, Adafruit_Thermal_timeoutWait, Adafruit_Thermal_timeoutSet,
        uart_write_bytes, World.start, hc, hd, h]

/-- C3 (witness): the letter A written at column 32 of 32. -/
theorem C3_write_wrap_or_advance_witness :
    (65 : Nat) ≠ ASCII_CR
    ∧ bytesOf (Adafruit_Thermal_write (fun _ => 0)
        (World.start { sessionAfterReset with column := 32 } 0) 65).trace = [65, ASCII_CR] :=
  ⟨by decide,
   ((C3_write_wrap_or_advance (fun _ => 0) { sessionAfterReset with column := 32 } 0 65
      (by decide)).1 (Or.inr rfl)).2⟩

/-- C4 (counterexample): with column = 31 = max_column - 1 the letter A leaves
    column at 32 (not 0) and only the byte A is transmitted (no CR). -/
theorem C4_counterexample_column_31 :
    (Adafruit_Thermal_write (fun _ => 0)
        (World.start { sessionAfterReset with column := 31 } 0) 65).printer.column = 32
    ∧ bytesOf (Adafruit_Thermal_write (fun _ => 0)
        (World.start { sessionAfterReset with column := 31 } 0) 65).trace = [65] := by
  decide

/-- C4 (amended): the wrap happens with column = max_column before the call: then,
    for every byte c other than CR, write leaves column = 0 and transmits exactly
    c, CR.  With column = max_column - 1 (max_column an 8 bit value) and c neither
    CR nor LF, write transmits only c and leaves column = max_column. -/
theorem C4_wrap_at_max_column (env : Timer) (p : Adafruit_Thermal) (clock c : Nat)
    (hc : c ≠ ASCII_CR) :
    (p.column = p.max_column →
        (Adafruit_Thermal_write env (World.start p clock) c).printer.column = 0
        ∧ bytesOf (Adafruit_Thermal_write env (World.start p clock) c).trace = [c, ASCII_CR])
    ∧ (p.column + 1 = p.max_column → p.max_column < 256 → c ≠ ASCII_LF →
        (Adafruit_Thermal_write env (World.start p clock) c).printer.column = p.max_column
        ∧ bytesOf (Adafruit_Thermal_write env (World.start p clock) c).trace = [c]) := by
  refine ⟨?_, ?_⟩
  · intro h
    cases hd : p.dtr_enabled <;>
      simp [Adafruit_Thermal_write, Adafruit_Thermal_timeoutWait, Adafruit_Thermal_timeoutSet,
        uart_write_bytes, World.start, bytesOf, hc, hd, h]
  · intro h hmax hlf
    have hne : ¬ p.column = p.max_column := by omega
    have hmod : (p.column + 1) % 256 = p.max_column := by
      rw [h]
      exact Nat.mod_eq_of_lt hmax
    cases hd : p.dtr_enabled <;>
      simp [Adafruit_Thermal_write, Adafruit_Thermal_timeoutWait, Adafruit_Thermal_timeoutSet,
        uart_write_bytes, World.start, bytesOf, u8, hc, hd, hne, hlf, hmod]

/-- C4 (witness): the letter A written at column 32 of 32. -/
theorem C4_wrap_at_max_column_witness :
    (65 : Nat) ≠ ASCII_CR
    ∧ (Adafruit_Thermal_write (fun _ => 0)
        (World.start { sessionAfterReset with column := 32 } 0) 65).printer.column = 0 :=
  ⟨by decide,
   ((C4_wrap_at_max_column (fun _ => 0) { sessionAfterReset with column := 32 } 0 65
      (by decide)).1 rfl).1⟩

/-- C5: for every world (session, timer, log), write of CR sends nothing and changes
    nothing: the world after the call is the world before it. -/
theorem C5_write_cr_is_noop (env : Timer) (w : World) :
    Adafruit_Thermal_write env w ASCII_CR = w
    ∧ bytesOf (Adafruit_Thermal_write env (World.start w.printer w.clock) ASCII_CR).trace = []
    ∧ (Adafruit_Thermal_write env w ASCII_CR).printer = w.printer := by
  simp [Adafruit_Thermal_write, World.start, bytesOf]

/-! ## C6: the column bound -/

theorem write_columnBound (env : Timer) (w : World) (c : Nat) (h : ColumnBound w.printer) :
    ColumnBound (Adafruit_Thermal_write env w c).printer := by
  unfold ColumnBound at *
  unfold Adafruit_Thermal_write
  split_ifs with h1
  · dsimp only
    by_cases h2 : c = ASCII_LF ∨ w.printer.column = w.printer.max_column
    · simp [h2]
    · have h3 : ¬ w.printer.column = w.printer.max_column := fun hc => h2 (Or.inr hc)
      have h4 : (w.printer.column + 1) % 256 ≤ w.printer.column + 1 := Nat.mod_le _ _
      simp only [uart_write_bytes_printer, timeoutWait_printer, h2, if_false, timeoutSet_column,
        timeoutSet_max_column, u8]
      omega
  · exact h

theorem feed_loop_columnBound (env : Timer) (x : Nat) (w : World) (h : ColumnBound w.printer) :
    ColumnBound (feed_loop env x w).printer := by
  induction x generalizing w with
  | zero => exact h
  | succ n ih => exact ih _ (write_columnBound env w ASCII_LF h)

theorem feed_columnBound (env : Timer) (w : World) (x : Nat) (h : ColumnBound w.printer) :
    ColumnBound (Adafruit_Thermal_feed env w x).printer := by
  unfold Adafruit_Thermal_feed
  split_ifs
  · simp [ColumnBound]
  · exact feed_loop_columnBound env x w h

theorem writeBytes_columnBound (env : Timer) (w : World) (d : List Nat)
    (h : ColumnBound w.printer) : ColumnBound (Adafruit_Thermal_writeBytes env w d).printer := by
  unfold ColumnBound at *
  simpa using h

theorem wake_loop_columnBound (env : Timer) (n : Nat) (w : World) (h : ColumnBound w.printer) :
    ColumnBound (wake_loop env n w).printer := by
  induction n generalizing w with
  | zero => exact h
  | succ n ih =>
    refine ih _ ?_
    unfold ColumnBound at *
    simpa using h

theorem printBitmap_rows_columnBound (env : Timer) (bitmap_data : List Nat)
    (row_bytes y n i : Nat) (w : World) (h : ColumnBound w.printer) :
    ColumnBound (printBitmap_rows env bitmap_data row_bytes y n i w).printer := by
  induction n generalizing i w with
  | zero => exact h
  | succ n ih => exact ih _ _ (writeBytes_columnBound env w _ h)

theorem printBitmap_bands_columnBound (env : Timer) (bitmap_data : List Nat)
    (row_bytes height fuel y : Nat) (w : World) (h : ColumnBound w.printer) :
    ColumnBound (printBitmap_bands env bitmap_data row_bytes height fuel y w).1.printer := by
  induction fuel generalizing y w with
  | zero => exact h
  | succ n ih =>
    rw [printBitmap_bands]
    by_cases hy : y < height
    · rw [if_pos hy]
      exact ih _ _ (feed_columnBound env _ 1
        (printBitmap_rows_columnBound env bitmap_data row_bytes y _ 0 _
          (writeBytes_columnBound env w _ h)))
    · rw [if_neg hy]
      exact h

/-- Every operation other than setSize keeps the column bound. -/
theorem run_columnBound (fuel : Nat) (env : Timer) (w : World) (op : Op)
    (hop : ∀ v, op ≠ Op.setSize v) (h : ColumnBound w.printer) :
    ColumnBound (op.run fuel env w).printer := by
  cases op with
  | write c => exact write_columnBound env w c h
  | print str => exact writeBytes_columnBound env w str h
  | println str =>
    show ColumnBound (Adafruit_Thermal_println env w str).printer
    unfold ColumnBound at *
    simpa [Adafruit_Thermal_println, Adafruit_Thermal_print] using h
  | setSize value => exact absurd rfl (hop value)
  | boldOn =>
    show ColumnBound (Adafruit_Thermal_boldOn env w).printer
    unfold ColumnBound at *
    simpa [Adafruit_Thermal_boldOn] using h
  | boldOff =>
    show ColumnBound (Adafruit_Thermal_boldOff env w).printer
    unfold ColumnBound at *
    simpa [Adafruit_Thermal_boldOff] using h
  | underlineOn weight => exact writeBytes_columnBound env w _ h
  | underlineOff => exact writeBytes_columnBound env w _ h
  | inverseOn => exact writeBytes_columnBound env w _ h
  | inverseOff => exact writeBytes_columnBound env w _ h
  | justify value => exact writeBytes_columnBound env w _ h
  | feed x => exact feed_columnBound env w x h
  | reset =>
    show ColumnBound (Adafruit_Thermal_reset env w).printer
    unfold ColumnBound Adafruit_Thermal_reset
    dsimp only
    split_ifs <;> simp
  | wake =>
    show ColumnBound (Adafruit_Thermal_wake env w).printer
    unfold Adafruit_Thermal_wake
    dsimp only
    split_ifs
    · refine writeBytes_columnBound env _ _ ?_
      unfold ColumnBound at *
      simpa using h
    · refine wake_loop_columnBound env 10 _ ?_
      unfold ColumnBound at *
      simpa using h
  | sleep =>
    show ColumnBound (Adafruit_Thermal_sleepAfter env w 1).printer
    unfold Adafruit_Thermal_sleepAfter
    split_ifs <;> exact writeBytes_columnBound env w _ h
  | sleepAfter seconds =>
    show ColumnBound (Adafruit_Thermal_sleepAfter env w seconds).printer
    unfold Adafruit_Thermal_sleepAfter
    split_ifs <;> exact writeBytes_columnBound env w _ h
  | setHeatConfig dots time interval => exact writeBytes_columnBound env w _ h
  | setPrintDensity density breakTime => exact writeBytes_columnBound env w _ h
  | setCharset val => exact writeBytes_columnBound env w _ h
  | setCodePage val => exact writeBytes_columnBound env w _ h
  | printBarcode data type =>
    exact write_columnBound env _ 0 (writeBytes_columnBound env _ data
      (writeBytes_columnBound env _ _ (writeBytes_columnBound env w _ h)))
  | printQRCode qr_data =>
    exact writeBytes_columnBound env _ _ (writeBytes_columnBound env _ qr_data
      (writeBytes_columnBound env _ _ (writeBytes_columnBound env _ _
        (writeBytes_columnBound env w _ h))))
  | printBitmap bitmap_data width height =>
    show ColumnBound (Adafruit_Thermal_printBitmap fuel env w bitmap_data width height).1.printer
    unfold Adafruit_Thermal_printBitmap
    split_ifs
    · exact h
    · exact printBitmap_bands_columnBound env bitmap_data _ height fuel 0 w h

set_option maxRecDepth 8000 in
/-- C6 (failing input): after reset and twenty written letters the session has
    column = 20 and max_column = 32, so the bound column ≤ max_column holds; setSize
    with the character L then leaves column = 20 and sets max_column = 16, and the
    bound no longer holds. -/
theorem C6_setSize_breaks_column_bound :
    twentyWritten.printer.column = 20 ∧ twentyWritten.printer.max_column = 32
    ∧ ColumnBound twentyWritten.printer
    ∧ (Op.run 0 (fun _ => 0) twentyWritten (Op.setSize 76)).printer.column = 20
    ∧ (Op.run 0 (fun _ => 0) twentyWritten (Op.setSize 76)).printer.max_column = 16
    ∧ ¬ ColumnBound (Op.run 0 (fun _ => 0) twentyWritten (Op.setSize 76)).printer := by
  unfold ColumnBound
  decide

/-! ## C7: assignments to resume_time under timed flow control -/

theorem MonotoneAssigns_nil : MonotoneAssigns [] := by
  intro o n h
  simp [assignsOf] at h

theorem MonotoneAssigns_append {x y : List Event} (hx : MonotoneAssigns x)
    (hy : MonotoneAssigns y) : MonotoneAssigns (x ++ y) := by
  intro o n h
  rw [assignsOf_append, List.mem_append] at h
  rcases h with h | h
  · exact hx o n h
  · exact hy o n h

theorem Emits.mtrans {w w1 w2 : World} (h1 : Emits MonotoneAssigns w w1)
    (h2 : Emits MonotoneAssigns w1 w2) : Emits MonotoneAssigns w w2 :=
  Emits.emits_trans (fun _ _ hx hy => MonotoneAssigns_append hx hy) h1 h2

theorem SameCfg.cfg_refl (p : Adafruit_Thermal) : SameCfg p p := ⟨rfl, rfl, rfl, rfl⟩

theorem SameCfg.cfg_trans {p q r : Adafruit_Thermal} (h1 : SameCfg p q) (h2 : SameCfg q r) :
    SameCfg p r :=
  ⟨h2.1.trans h1.1, h2.2.1.trans h1.2.1, h2.2.2.1.trans h1.2.2.1, h2.2.2.2.trans h1.2.2.2⟩

theorem timeoutSet_events_timed (env : Timer) (w : World) (x : Nat)
    (hd : w.printer.dtr_enabled = false) :
    timeoutSet_events env w x
      = [Event.setBusy (u32 x),
         Event.assign w.printer.resume_time (w.clock + env w.reads + u32 x)] := by
  simp [timeoutSet_events, hd]

theorem timeoutWait_clock_timed (env : Timer) (w : World)
    (hd : w.printer.dtr_enabled = false) :
    (Adafruit_Thermal_timeoutWait env w).clock
      = max (w.clock + env w.reads) w.printer.resume_time := by
  simp [Adafruit_Thermal_timeoutWait, hd]

theorem writeBytes_emits_mono (env : Timer) (w : World) (d : List Nat)
    (hd : w.printer.dtr_enabled = false) :
    Emits MonotoneAssigns w (Adafruit_Thermal_writeBytes env w d) := by
  refine ⟨_, writeBytes_trace env w d, ?_⟩
  intro o n h
  simp [writeBytes_events, timeoutSet_events_timed, hd, assignsOf,
    timeoutWait_clock_timed] at h
  omega

theorem writeBytes_sameCfg (env : Timer) (w : World) (d : List Nat) :
    SameCfg w.printer (Adafruit_Thermal_writeBytes env w d).printer := by
  simp [SameCfg]

theorem print_emits_mono (env : Timer) (w : World) (str : List Nat)
    (hd : w.printer.dtr_enabled = false) :
    Emits MonotoneAssigns w (Adafruit_Thermal_print env w str) :=
  writeBytes_emits_mono env w str hd

theorem write_emits_mono (env : Timer) (w : World) (c : Nat)
    (hd : w.printer.dtr_enabled = false) :
    Emits MonotoneAssigns w (Adafruit_Thermal_write env w c) := by
  unfold Adafruit_Thermal_write
  by_cases h1 : c ≠ ASCII_CR
  · rw [if_pos h1]
    dsimp only
    by_cases h2 : c = ASCII_LF ∨ w.printer.column = w.printer.max_column
    · apply Emits.of_drop
      · simp [h2]
      · intro o n h
        simp [h2, timeoutSet_events_timed, hd, assignsOf, assignsOf_append,
          timeoutWait_clock_timed] at h
        omega
    · apply Emits.of_drop
      · simp [h2]
      · intro o n h
        simp [h2, timeoutSet_events_timed, hd, assignsOf, assignsOf_append,
          timeoutWait_clock_timed] at h
        omega
  · rw [if_neg h1]
    exact Emits.emits_refl MonotoneAssigns_nil w

theorem write_sameCfg (env : Timer) (w : World) (c : Nat) :
    SameCfg w.printer (Adafruit_Thermal_write env w c).printer := by
  unfold Adafruit_Thermal_write
  split_ifs with h1
  · dsimp only
    split_ifs <;> simp [SameCfg]
  · exact SameCfg.cfg_refl _

theorem writeBytes_resume_time (env : Timer) (w : World) (d : List Nat)
    (hd : w.printer.dtr_enabled = false) :
    (Adafruit_Thermal_writeBytes env w d).printer.resume_time
      = (Adafruit_Thermal_writeBytes env w d).clock + u32 (d.length * BYTE_TIME) := by
  unfold Adafruit_Thermal_writeBytes
  rw [timeoutSet_resume_time _ _ _ (by simpa using hd), u32_u32]

theorem timeoutSet_after_writeBytes_mono (env : Timer) (w : World) (d : List Nat) (x : Nat)
    (hd : w.printer.dtr_enabled = false) (hx : u32 (d.length * BYTE_TIME) ≤ u32 x) :
    Emits MonotoneAssigns (Adafruit_Thermal_writeBytes env w d)
      (Adafruit_Thermal_timeoutSet env (Adafruit_Thermal_writeBytes env w d) x) := by
  refine ⟨_, timeoutSet_trace env _ x, ?_⟩
  intro o n h
  rw [timeoutSet_events_timed _ _ _ (by simpa using hd)] at h
  simp only [assignsOf, List.mem_singleton, Prod.mk.injEq] at h
  obtain ⟨ho, hn⟩ := h
  rw [ho, hn, writeBytes_resume_time env w d hd]
  omega

theorem FeedCovers.of_sameCfg {p q : Adafruit_Thermal} (h : SameCfg p q) (hp : FeedCovers p) :
    FeedCovers q := by
  unfold FeedCovers at *
  rw [h.2.2.2, h.2.2.1]
  exact hp

theorem feed_loop_sameCfg (env : Timer) (x : Nat) (w : World) :
    SameCfg w.printer (feed_loop env x w).printer := by
  induction x generalizing w with
  | zero => exact SameCfg.cfg_refl _
  | succ n ih => exact (write_sameCfg env w ASCII_LF).cfg_trans (ih _)

theorem feed_loop_emits_mono (env : Timer) (x : Nat) (w : World)
    (hd : w.printer.dtr_enabled = false) :
    Emits MonotoneAssigns w (feed_loop env x w) := by
  induction x generalizing w with
  | zero => exact Emits.emits_refl MonotoneAssigns_nil w
  | succ n ih =>
    exact (write_emits_mono env w ASCII_LF hd).mtrans
      (ih _ ((write_sameCfg env w ASCII_LF).1.trans hd))

theorem feed_sameCfg (env : Timer) (w : World) (x : Nat) :
    SameCfg w.printer (Adafruit_Thermal_feed env w x).printer := by
  unfold Adafruit_Thermal_feed
  split_ifs
  · simp [SameCfg]
  · exact feed_loop_sameCfg env x w

theorem feed_emits_mono (env : Timer) (w : World) (x : Nat)
    (hd : w.printer.dtr_enabled = false)
    (hcov : w.printer.firmware ≥ 264 → FeedCovers w.printer) :
    Emits MonotoneAssigns w (Adafruit_Thermal_feed env w x) := by
  unfold Adafruit_Thermal_feed
  split_ifs with hfw
  · refine Emits.to_same_trace rfl ((writeBytes_emits_mono env w _ hd).mtrans
      (timeoutSet_after_writeBytes_mono env w _ _ hd ?_))
    have h := hcov hfw
    unfold FeedCovers at h
    simpa [u32_u32] using le_trans (Nat.mod_le _ _) h
  · exact feed_loop_emits_mono env x w hd

theorem wake_loop_emits_mono (env : Timer) (n : Nat) (w : World)
    (hd : w.printer.dtr_enabled = false) :
    Emits MonotoneAssigns w (wake_loop env n w) := by
  induction n generalizing w with
  | zero => exact Emits.emits_refl MonotoneAssigns_nil w
  | succ n ih =>
    refine ((writeBytes_emits_mono env w [0] hd).mtrans
      (timeoutSet_after_writeBytes_mono env w [0] 10000 hd (by decide))).mtrans (ih _ ?_)
    simpa using hd

theorem printBitmap_rows_sameCfg (env : Timer) (bitmap_data : List Nat)
    (row_bytes y n i : Nat) (w : World) :
    SameCfg w.printer (printBitmap_rows env bitmap_data row_bytes y n i w).printer := by
  induction n generalizing i w with
  | zero => exact SameCfg.cfg_refl _
  | succ n ih => exact (writeBytes_sameCfg env w _).cfg_trans (ih _ _)

theorem printBitmap_rows_emits_mono (env : Timer) (bitmap_data : List Nat)
    (row_bytes y n i : Nat) (w : World) (hd : w.printer.dtr_enabled = false) :
    Emits MonotoneAssigns w (printBitmap_rows env bitmap_data row_bytes y n i w) := by
  induction n generalizing i w with
  | zero => exact Emits.emits_refl MonotoneAssigns_nil w
  | succ n ih =>
    exact (writeBytes_emits_mono env w _ hd).mtrans (ih _ _ (by simpa using hd))

theorem printBitmap_bands_emits_mono (env : Timer) (bitmap_data : List Nat)
    (row_bytes height fuel y : Nat) (w : World) (hd : w.printer.dtr_enabled = false)
    (hcov : w.printer.firmware ≥ 264 → FeedCovers w.printer) :
    Emits MonotoneAssigns w
      (printBitmap_bands env bitmap_data row_bytes height fuel y w).1 := by
  induction fuel generalizing y w with
  | zero => exact Emits.emits_refl MonotoneAssigns_nil w
  | succ n ih =>
    rw [printBitmap_bands]
    by_cases hy : y < height
    · rw [if_pos hy]
      have c1 := writeBytes_sameCfg env w
        [ASCII_ESC, 42, 0x00, u8 (row_bytes &&& 0xFF), u8 ((row_bytes >>> 8) &&& 0xFF)]
      have c2 := c1.cfg_trans (printBitmap_rows_sameCfg env bitmap_data row_bytes y
        (if height - y > 24 then 24 else height - y) 0 _)
      have c3 := c2.cfg_trans (feed_sameCfg env _ 1)
      have hcov2 : ∀ q, SameCfg w.printer q → q.firmware ≥ 264 → FeedCovers q := by
        intro q hq hfw
        exact FeedCovers.of_sameCfg hq (hcov (by rw [← hq.2.1]; exact hfw))
      exact (((writeBytes_emits_mono env w _ hd).mtrans
        (printBitmap_rows_emits_mono env bitmap_data row_bytes y _ 0 _ (c1.1.trans hd))).mtrans
        (feed_emits_mono env _ 1 (c2.1.trans hd) (hcov2 _ c2))).mtrans
        (ih _ _ (c3.1.trans hd) (hcov2 _ c3))
    · rw [if_neg hy]
      exact Emits.emits_refl MonotoneAssigns_nil w

/-- Under timed flow control no operation other than println and wake lowers
    resume_time, given that the fast feed covers the byte time of its command. -/
theorem run_emits_mono (fuel : Nat) (env : Timer) (w : World) (op : Op)
    (hd : w.printer.dtr_enabled = false)
    (hprintln : ∀ str, op ≠ Op.println str) (hwake : op ≠ Op.wake)
    (hcov : Op.isFeeding op = true → w.printer.firmware ≥ 264 → FeedCovers w.printer) :
    Emits MonotoneAssigns w (op.run fuel env w) := by
  cases op with
  | write c => exact write_emits_mono env w c hd
  | print str => exact print_emits_mono env w str hd
  | println str => exact absurd rfl (hprintln str)
  | setSize value =>
    refine Emits.to_same_trace rfl (Emits.from_same_trace rfl
      (writeBytes_emits_mono env _ _ ?_))
    dsimp only
    split_ifs <;> exact hd
  | boldOn => exact Emits.from_same_trace rfl (writeBytes_emits_mono env _ _ hd)
  | boldOff => exact Emits.from_same_trace rfl (writeBytes_emits_mono env _ _ hd)
  | underlineOn weight => exact writeBytes_emits_mono env w _ hd
  | underlineOff => exact writeBytes_emits_mono env w _ hd
  | inverseOn => exact writeBytes_emits_mono env w _ hd
  | inverseOff => exact writeBytes_emits_mono env w _ hd
  | justify value => exact writeBytes_emits_mono env w _ hd
  | feed x => exact feed_emits_mono env w x hd (hcov rfl)
  | reset =>
    show Emits MonotoneAssigns w (Adafruit_Thermal_reset env w)
    unfold Adafruit_Thermal_reset
    dsimp only
    split_ifs
    · exact (Emits.to_same_trace rfl (writeBytes_emits_mono env w _ hd)).mtrans
        (writeBytes_emits_mono env _ _ (by simpa using hd))
    · exact Emits.to_same_trace rfl (writeBytes_emits_mono env w _ hd)
  | wake => exact absurd rfl hwake
  | sleep =>
    show Emits MonotoneAssigns w (Adafruit_Thermal_sleepAfter env w 1)
    unfold Adafruit_Thermal_sleepAfter
    split_ifs <;> exact writeBytes_emits_mono env w _ hd
  | sleepAfter seconds =>
    show Emits MonotoneAssigns w (Adafruit_Thermal_sleepAfter env w seconds)
    unfold Adafruit_Thermal_sleepAfter
    split_ifs <;> exact writeBytes_emits_mono env w _ hd
  | setHeatConfig dots time interval => exact writeBytes_emits_mono env w _ hd
  | setPrintDensity density breakTime => exact writeBytes_emits_mono env w _ hd
  | setCharset val => exact writeBytes_emits_mono env w _ hd
  | setCodePage val => exact writeBytes_emits_mono env w _ hd
  | printBarcode data type =>
    exact (((writeBytes_emits_mono env w _ hd).mtrans
      (writeBytes_emits_mono env _ _ (by simpa using hd))).mtrans
      (writeBytes_emits_mono env _ data (by simpa using hd))).mtrans
      (write_emits_mono env _ 0 (by simpa using hd))
  | printQRCode qr_data =>
    exact ((((writeBytes_emits_mono env w _ hd).mtrans
      (writeBytes_emits_mono env _ _ (by simpa using hd))).mtrans
      (writeBytes_emits_mono env _ _ (by simpa using hd))).mtrans
      (writeBytes_emits_mono env _ qr_data (by simpa using hd))).mtrans
      (writeBytes_emits_mono env _ _ (by simpa using hd))
  | printBitmap bitmap_data width height =>
    show Emits MonotoneAssigns w
      (Adafruit_Thermal_printBitmap fuel env w bitmap_data width height).1
    unfold Adafruit_Thermal_printBitmap
    split_ifs
    · exact Emits.emits_refl MonotoneAssigns_nil w
    · exact printBitmap_bands_emits_mono env bitmap_data _ height fuel 0 w hd (hcov rfl)

/-- After its first two steps wake does not lower resume_time under timed flow control. -/
theorem wake_rest_emits_mono (env : Timer) (w : World) (hd : w.printer.dtr_enabled = false) :
    Emits MonotoneAssigns (uart_write_bytes (Adafruit_Thermal_timeoutSet env w 10000) [255])
      (Adafruit_Thermal_wake env w) := by
  unfold Adafruit_Thermal_wake
  dsimp only
  split_ifs
  · exact (Emits.emits_refl MonotoneAssigns_nil _).mtrans
      (Emits.from_same_trace rfl (Emits.to_same_trace rfl
        (Emits.mtrans ⟨[Event.delay 50], rfl, by intro o n h; simp [assignsOf] at h⟩
          (writeBytes_emits_mono env (vTaskDelay _ 50) _ (by simpa using hd)))))
  · exact wake_loop_emits_mono env 10 _ (by simpa using hd)

/-- C7 (counterexample): under timed flow control, in the session of the demo program
    after the letter A and a line feed have been written (timer at 573, resume_time at
    733746, the end of the line feed), wake assigns 10573 to resume_time. -/
theorem C7_counterexample_wake :
    lineWritten.printer.dtr_enabled = false
    ∧ lineWritten.printer.resume_time = 733746
    ∧ (733746, 10573) ∈ assignsOf (Op.run 0 (fun _ => 0)
        (World.start lineWritten.printer lineWritten.clock) Op.wake).trace
    ∧ ¬ MonotoneAssigns (Op.run 0 (fun _ => 0)
        (World.start lineWritten.printer lineWritten.clock) Op.wake).trace := by
  have hmem : (733746, 10573) ∈ assignsOf (Op.run 0 (fun _ => 0)
      (World.start lineWritten.printer lineWritten.clock) Op.wake).trace := by decide
  refine ⟨by decide, by decide, hmem, ?_⟩
  intro h
  have h1 := h 733746 10573 hmem
  omega

/-- C7 (amended): under timed flow control (dtr_enabled false; the timer never runs
    backwards), for every session state, timer and fuel, every value assigned to
    resume_time is at least the value it replaces, in every operation other than
    println and wake, provided that for feed and printBitmap on firmware 264 or later
    the feed time dot_feed_time * char_height (modulo 2^32) is at least 3 * BYTE_TIME.
    In wake every assignment after the first one (which is made without waiting and
    may lower resume_time) is at least the value it replaces. -/
theorem C7_resume_time_never_lowered (fuel : Nat) (env : Timer) (p : Adafruit_Thermal)
    (clock : Nat) (op : Op) (hd : p.dtr_enabled = false) :
    ((∀ str, op ≠ Op.println str) → op ≠ Op.wake →
        (Op.isFeeding op = true → p.firmware ≥ 264 → FeedCovers p) →
        MonotoneAssigns (op.run fuel env (World.start p clock)).trace)
    ∧ (∃ rest, (Op.run fuel env (World.start p clock) Op.wake).trace
          = timeoutSet_events env (World.start p clock) 10000 ++ Event.send [255] :: rest
        ∧ MonotoneAssigns rest) := by
  constructor
  · intro h1 h2 h3
    obtain ⟨ev, hev, hm⟩ := run_emits_mono fuel env (World.start p clock) op hd h1 h2 h3
    have : (op.run fuel env (World.start p clock)).trace = ev := by
      rw [hev]
      rfl
    rw [this]
    exact hm
  · obtain ⟨ev, hev, hm⟩ := wake_rest_emits_mono env (World.start p clock) hd
    refine ⟨ev, ?_, hm⟩
    show (Adafruit_Thermal_wake env (World.start p clock)).trace = _
    rw [hev]
    simp [World.start]

/-- C7 (witness): feeding three lines in the session of the demo program. -/
theorem C7_resume_time_never_lowered_witness :
    sessionAfterReset.dtr_enabled = false
    ∧ MonotoneAssigns (Op.run 0 (fun _ => 0) (World.start sessionAfterReset 0)
        (Op.feed 3)).trace :=
  ⟨rfl,
   (C7_resume_time_never_lowered 0 (fun _ => 0) sessionAfterReset 0 (Op.feed 3) rfl).1
     (fun _ h => Op.noConfusion h) (fun h => Op.noConfusion h)
     (fun _ _ => by unfold FeedCovers; decide)⟩

/-! ## C8: setSize -/

theorem toupper_eq_S (v : Nat) : toupper v = 83 ↔ (v = 83 ∨ v = 115) := by
  unfold toupper
  split_ifs <;> omega

theorem toupper_eq_M (v : Nat) : toupper v = 77 ↔ (v = 77 ∨ v = 109) := by
  unfold toupper
  split_ifs <;> omega

theorem toupper_eq_L (v : Nat) : toupper v = 76 ↔ (v = 76 ∨ v = 108) := by
  unfold toupper
  split_ifs <;> omega

theorem setSize_sizeTriple (env : Timer) (w : World) (v : Nat) :
    sizeTriple (Adafruit_Thermal_setSize env w v).printer =
      if toupper (u8 v) = 83 then (0x00, 24, 32)
      else if toupper (u8 v) = 77 then (0x01, 48, 32)
      else if toupper (u8 v) = 76 then (0x11, 48, 16)
      else (0x00, 24, 32) := by
  simp only [Adafruit_Thermal_setSize, sizeTriple, writeBytes_print_mode,
    writeBytes_char_height, writeBytes_max_column]
  split_ifs <;> rfl

theorem setSize_bytes (env : Timer) (p : Adafruit_Thermal) (clock v : Nat) :
    bytesOf (Adafruit_Thermal_setSize env (World.start p clock) v).trace
      = [ASCII_GS, 33, (Adafruit_Thermal_setSize env (World.start p clock) v).printer.print_mode]
    ∧ (Adafruit_Thermal_setSize env (World.start p clock) v).printer.prev_byte = ASCII_LF := by
  simp [Adafruit_Thermal_setSize, World.start, bytesOf, bytesOf_append]

/-- C8: for every character v, setSize leaves (print_mode, char_height, max_column)
    equal to one of exactly three triples: (0x00, 24, 32) for S, (0x01, 48, 32) for M,
    (0x11, 48, 16) for L (the letters are recognized in either case, through toupper),
    and the S triple for every other character; it transmits exactly GS, !, print_mode
    with the resulting print_mode and sets prev_byte to LF. -/
theorem C8_setSize_three_triples (env : Timer) (p : Adafruit_Thermal) (clock v : Nat)
    (hv : v < 256) :
    (sizeTriple (Adafruit_Thermal_setSize env (World.start p clock) v).printer = (0x00, 24, 32)
      ∨ sizeTriple (Adafruit_Thermal_setSize env (World.start p clock) v).printer
          = (0x01, 48, 32)
      ∨ sizeTriple (Adafruit_Thermal_setSize env (World.start p clock) v).printer
          = (0x11, 48, 16))
    ∧ (v = 83 ∨ v = 115 →
        sizeTriple (Adafruit_Thermal_setSize env (World.start p clock) v).printer
          = (0x00, 24, 32))
    ∧ (v = 77 ∨ v = 109 →
        sizeTriple (Adafruit_Thermal_setSize env (World.start p clock) v).printer
          = (0x01, 48, 32))
    ∧ (v = 76 ∨ v = 108 →
        sizeTriple (Adafruit_Thermal_setSize env (World.start p clock) v).printer
          = (0x11, 48, 16))
    ∧ (v ≠ 83 ∧ v ≠ 115 ∧ v ≠ 77 ∧ v ≠ 109 ∧ v ≠ 76 ∧ v ≠ 108 →
        sizeTriple (Adafruit_Thermal_setSize env (World.start p clock) v).printer
          = (0x00, 24, 32))
    ∧ bytesOf (Adafruit_Thermal_setSize env (World.start p clock) v).trace
        = [ASCII_GS, 33,
            (Adafruit_Thermal_setSize env (World.start p clock) v).printer.print_mode]
    ∧ (Adafruit_Thermal_setSize env (World.start p clock) v).printer.prev_byte = ASCII_LF := by
  have hu : u8 v = v := Nat.mod_eq_of_lt hv
  rw [setSize_sizeTriple, hu]
  simp only [toupper_eq_S, toupper_eq_M, toupper_eq_L]
  refine ⟨?_, ?_, ?_, ?_, ?_, setSize_bytes env p clock v⟩
  · split_ifs <;> simp
  · intro h
    rw [if_pos h]
  · intro h
    have h1 : ¬ (v = 83 ∨ v = 115) := by omega
    rw [if_neg h1, if_pos h]
  · intro h
    have h1 : ¬ (v = 83 ∨ v = 115) := by omega
    have h2 : ¬ (v = 77 ∨ v = 109) := by omega
    rw [if_neg h1, if_neg h2, if_pos h]
  · rintro ⟨h1, h2, h3, h4, h5, h6⟩
    have h1 : ¬ (v = 83 ∨ v = 115) := by omega
    have h2 : ¬ (v = 77 ∨ v = 109) := by omega
    have h3 : ¬ (v = 76 ∨ v = 108) := by omega
    rw [if_neg h1, if_neg h2, if_neg h3]

/-- C8 (witness): the character L. -/
theorem C8_setSize_three_triples_witness :
    (76 : Nat) < 256
    ∧ sizeTriple (Adafruit_Thermal_setSize (fun _ => 0) (World.start sessionAfterReset 0)
        76).printer = (0x11, 48, 16) :=
  ⟨by decide,
   (C8_setSize_three_triples (fun _ => 0) sessionAfterReset 0 76 (by decide)).2.2.2.1
     (Or.inl rfl)⟩

/-! ## C9: clamped parameters -/

/-- C9: out-of-range parameters are clamped: for every value v, underlineOn transmits
    exactly ESC, -, min v 2; setCodePage transmits exactly ESC, t, min v 47; setCharset
    transmits exactly ESC, R, min v 15 (so underlineOn 5 sends 2, setCodePage 200 sends
    47 and setCharset 99 sends 15). -/
theorem C9_parameters_are_clamped (env : Timer) (p : Adafruit_Thermal) (clock v : Nat) :
    bytesOf (Adafruit_Thermal_underlineOn env (World.start p clock) v).trace
        = [ASCII_ESC, 45, min v 2]
    ∧ bytesOf (Adafruit_Thermal_setCodePage env (World.start p clock) v).trace
        = [ASCII_ESC, 116, min v 47]
    ∧ bytesOf (Adafruit_Thermal_setCharset env (World.start p clock) v).trace
        = [ASCII_ESC, 82, min v 15]
    ∧ bytesOf (Adafruit_Thermal_underlineOn env (World.start p clock) 5).trace
        = [ASCII_ESC, 45, 2]
    ∧ bytesOf (Adafruit_Thermal_setCodePage env (World.start p clock) 200).trace
        = [ASCII_ESC, 116, 47]
    ∧ bytesOf (Adafruit_Thermal_setCharset env (World.start p clock) 99).trace
        = [ASCII_ESC, 82, 15] := by
  have h2 : (if v > 2 then 2 else v) = min v 2 := by
    split_ifs <;> omega
  have h47 : (if v > 47 then 47 else v) = min v 47 := by
    split_ifs <;> omega
  have h15 : (if v > 15 then 15 else v) = min v 15 := by
    split_ifs <;> omega
  simp [Adafruit_Thermal_underlineOn, Adafruit_Thermal_setCodePage,
    Adafruit_Thermal_setCharset, World.start, bytesOf, h2, h47, h15]

/-! ## C10: feed on firmware 264 and later -/

/-- What feed does on firmware 264 and later, for every session state and line
    count: one command ESC, d, x; the last recorded busy duration is
    dot_feed_time * char_height (as a 32 bit product), where x does not occur. -/
theorem feed_fast_records (env : Timer) (p : Adafruit_Thermal) (clock x : Nat)
    (hfw : p.firmware ≥ 264) :
    bytesOf (Adafruit_Thermal_feed env (World.start p clock) x).trace = [ASCII_ESC, 100, x]
    ∧ busyOf (Adafruit_Thermal_feed env (World.start p clock) x).trace
        = [3 * BYTE_TIME, u32 (p.dot_feed_time * p.char_height)]
    ∧ (p.dtr_enabled = false →
        (Adafruit_Thermal_feed env (World.start p clock) x).printer.resume_time
          = (Adafruit_Thermal_feed env (World.start p clock) x).clock
            + u32 (p.dot_feed_time * p.char_height)) := by
  have h3 : u32 (u32 (3 * BYTE_TIME)) = 3 * BYTE_TIME := by decide
  refine ⟨?_, ?_, ?_⟩
  · simp [Adafruit_Thermal_feed, World.start, hfw, bytesOf_append]
  · simp [Adafruit_Thermal_feed, World.start, hfw, busyOf_append, writeBytes_events, busyOf,
      h3, u32_u32]
  · intro hd
    simp only [Adafruit_Thermal_feed, World.start, hfw, if_true]
    rw [timeoutSet_resume_time _ _ _ (by simpa using hd), u32_u32]
    simp

/-- C10 (failing input): on firmware 268 under timed flow control, feed 3 with
    char_height 24 and dot_feed_time 2100 transmits ESC, d, 3 and finally records a busy
    duration of 50400 = char_height * dot_feed_time microseconds (resume_time is the timer
    value plus 50400), not 3 * char_height * dot_feed_time = 151200. -/
theorem C10_feed_busy_ignores_line_count :
    sessionAfterReset.firmware ≥ 264 ∧ sessionAfterReset.dtr_enabled = false
    ∧ bytesOf (Adafruit_Thermal_feed (fun _ => 0) (World.start sessionAfterReset 0) 3).trace
        = [ASCII_ESC, 100, 3]
    ∧ busyOf (Adafruit_Thermal_feed (fun _ => 0) (World.start sessionAfterReset 0) 3).trace
        = [3 * BYTE_TIME, 50400]
    ∧ (Adafruit_Thermal_feed (fun _ => 0) (World.start sessionAfterReset 0) 3).printer.resume_time
        = (Adafruit_Thermal_feed (fun _ => 0) (World.start sessionAfterReset 0) 3).clock + 50400
    ∧ 3 * sessionAfterReset.char_height * sessionAfterReset.dot_feed_time = 151200 := by
  decide

/-! ## C11: reset -/

theorem sendsOf_append (a b : List Event) : sendsOf (a ++ b) = sendsOf a ++ sendsOf b := by
  induction a with
  | nil => rfl
  | cons e t ih => cases e <;> simp [sendsOf, ih]

@[simp] theorem sendsOf_timeoutSet_events (env : Timer) (w : World) (x : Nat) :
    sendsOf (timeoutSet_events env w x) = [] := by
  unfold timeoutSet_events
  split <;> rfl

@[simp] theorem sendsOf_writeBytes_events (env : Timer) (w : World) (data : List Nat) :
    sendsOf (writeBytes_events env w data) = [data] := by
  simp [writeBytes_events, sendsOf, sendsOf_append]

theorem bytesOf_eq_join_sendsOf (tr : List Event) : bytesOf tr = (sendsOf tr).flatten := by
  induction tr with
  | nil => rfl
  | cons e t ih => cases e <;> simp [bytesOf, sendsOf, ih]

/-- C11: for every session state, reset transmits the printer-reset command ESC, @
    first, leaves column = 0, max_column = 32, char_height = 24, line_spacing = 6 and
    barcode_height = 50, and transmits in addition the tab-stop command
    ESC, D, 4, 8, 12, 16, 20, 24, 28, 0 if and only if firmware is at least 264. -/
theorem C11_reset_defaults_and_tab_stops (env : Timer) (p : Adafruit_Thermal) (clock : Nat) :
    sendsOf (Adafruit_Thermal_reset env (World.start p clock)).trace
        = [ASCII_ESC, 64] ::
            (if p.firmware ≥ 264 then [[ASCII_ESC, 68, 4, 8, 12, 16, 20, 24, 28, 0]] else [])
    ∧ ([ASCII_ESC, 68, 4, 8, 12, 16, 20, 24, 28, 0]
          ∈ sendsOf (Adafruit_Thermal_reset env (World.start p clock)).trace
        ↔ p.firmware ≥ 264)
    ∧ (Adafruit_Thermal_reset env (World.start p clock)).printer.column = 0
    ∧ (Adafruit_Thermal_reset env (World.start p clock)).printer.max_column = 32
    ∧ (Adafruit_Thermal_reset env (World.start p clock)).printer.char_height = 24
    ∧ (Adafruit_Thermal_reset env (World.start p clock)).printer.line_spacing = 6
    ∧ (Adafruit_Thermal_reset env (World.start p clock)).printer.barcode_height = 50 := by
  by_cases hfw : p.firmware ≥ 264
  · simp [Adafruit_Thermal_reset, World.start, hfw, sendsOf_append, ASCII_ESC]
  · simp [Adafruit_Thermal_reset, World.start, hfw, sendsOf_append, ASCII_ESC]

/-! ## C12: printBarcode -/

theorem write_sends (env : Timer) (w : World) (c : Nat) :
    sendsOf (Adafruit_Thermal_write env w c).trace
      = sendsOf w.trace ++
          (if c = ASCII_CR then []
           else if c = ASCII_LF ∨ w.printer.column = w.printer.max_column then [[c], [ASCII_CR]]
           else [[c]]) := by
  unfold Adafruit_Thermal_write
  by_cases h1 : c = ASCII_CR
  · simp [h1]
  · have h1n : c ≠ ASCII_CR := h1
    rw [if_pos h1n, if_neg h1]
    dsimp only
    by_cases h2 : c = ASCII_LF ∨ w.printer.column = w.printer.max_column
    · simp [h2, sendsOf_append, sendsOf]
    · simp [h2, sendsOf_append, sendsOf]

/-- The bytes of printBarcode for every session state: the height command, the type
    command, the payload, the NUL byte, and a CR after the NUL when the call finds
    column = max_column. -/
theorem printBarcode_bytes (env : Timer) (p : Adafruit_Thermal) (clock : Nat)
    (data : List Nat) (type : Nat) :
    bytesOf (Adafruit_Thermal_printBarcode env (World.start p clock) data type).trace
      = [ASCII_GS, 104, p.barcode_height] ++ [ASCII_GS, 107, type] ++ data ++
          (if p.column = p.max_column then [0, ASCII_CR] else [0]) := by
  rw [bytesOf_eq_join_sendsOf]
  unfold Adafruit_Thermal_printBarcode
  dsimp only
  rw [write_sends]
  by_cases h : p.column = p.max_column
  · simp [World.start, sendsOf_append, sendsOf, h, ASCII_CR, ASCII_LF]
  · simp [World.start, sendsOf_append, sendsOf, h, ASCII_CR, ASCII_LF]

set_option maxRecDepth 8000 in
/-- C12 (failing input): after thirty-two written letters (column = max_column = 32)
    printBarcode with payload 0, 1, 2 and type CODE39 transmits GS, h, 50, then
    GS, k, 4, then the payload, then the NUL byte, and after the NUL byte a CR. -/
theorem C12_barcode_nul_followed_by_cr :
    lineFull.printer.column = 32 ∧ lineFull.printer.max_column = 32
    ∧ bytesOf (Adafruit_Thermal_printBarcode (fun _ => 0)
        (World.start lineFull.printer lineFull.clock) [48, 49, 50] 4).trace
      = [29, 104, 50, 29, 107, 4, 48, 49, 50, 0, 13]
    ∧ bytesOf (Adafruit_Thermal_printBarcode (fun _ => 0)
        (World.start lineFull.printer lineFull.clock) [48, 49, 50] 4).trace
      ≠ [29, 104, 50] ++ [29, 107, 4] ++ [48, 49, 50] ++ [0] := by
  decide

/-! ## C13, C14: printQRCode -/

/-- The five transmissions of printQRCode for every session state and text. -/
theorem printQRCode_sends (env : Timer) (p : Adafruit_Thermal) (clock : Nat)
    (qr_data : List Nat) :
    sendsOf (Adafruit_Thermal_printQRCode env (World.start p clock) qr_data).trace
      = [[ASCII_GS, 40, 107, 0x03, 0x00, 0x31, 0x43, 0x03],
         [ASCII_GS, 40, 107, 0x03, 0x00, 0x31, 0x45, 0x30],
         [ASCII_GS, 40, 107, u8 (u16 (qr_data.length + 3) &&& 0xFF),
            u8 (u16 (qr_data.length + 3) >>> 8), 0x31, 0x50, 0x30],
         qr_data,
         [ASCII_GS, 40, 107, 0x03, 0x00, 0x31, 0x51, 0x30]] := by
  simp [Adafruit_Thermal_printQRCode, World.start, sendsOf_append]

theorem lo_hi_of_u16 (n : Nat) (h : n < 65536) :
    u8 (u16 n &&& 0xFF) + 256 * u8 (u16 n >>> 8) = n := by
  have h1 : u16 n = n := Nat.mod_eq_of_lt h
  have h2 : n &&& 0xFF = n % 256 := Nat.and_pow_two_sub_one_eq_mod n 8
  have h3 : n >>> 8 = n / 256 := Nat.shiftRight_eq_div_pow n 8
  rw [h1, h2, h3]
  unfold u8
  omega

/-- C13 (counterexample): for a text of 65533 characters the two length bytes of the
    store-data header are 0 and 0, so the declared length is 0 and not 65536. -/
theorem C13_counterexample_length_65533 :
    (sendsOf (Adafruit_Thermal_printQRCode (fun _ => 0) (World.start sessionAfterReset 0)
        (List.replicate 65533 65)).trace)[2]?
      = some [ASCII_GS, 40, 107, 0, 0, 0x31, 0x50, 0x30]
    ∧ ¬ ∃ lo hi,
        (sendsOf (Adafruit_Thermal_printQRCode (fun _ => 0) (World.start sessionAfterReset 0)
          (List.replicate 65533 65)).trace)[2]?
          = some [ASCII_GS, 40, 107, lo, hi, 0x31, 0x50, 0x30]
        ∧ lo + 256 * hi = (List.replicate 65533 65).length + 3 := by
  have h : (sendsOf (Adafruit_Thermal_printQRCode (fun _ => 0)
      (World.start sessionAfterReset 0) (List.replicate 65533 65)).trace)[2]?
      = some [ASCII_GS, 40, 107, 0, 0, 0x31, 0x50, 0x30] := by
    rw [printQRCode_sends, List.length_replicate]
    decide
  refine ⟨h, ?_⟩
  rintro ⟨lo, hi, h1, h2⟩
  rw [h, List.length_replicate] at *
  simp only [Option.some.injEq, List.cons.injEq] at h1
  omega

/-- C13 (amended): for every text with len + 3 below 65536, the store-data header
    that printQRCode transmits (its third transmission) has the form
    GS, (, k, lo, hi, 0x31, 0x50, 0x30 with lo + 256 * hi = len + 3. -/
theorem C13_qr_store_length (env : Timer) (p : Adafruit_Thermal) (clock : Nat)
    (qr_data : List Nat) (hlen : qr_data.length + 3 < 65536) :
    ∃ lo hi,
      (sendsOf (Adafruit_Thermal_printQRCode env (World.start p clock) qr_data).trace)[2]?
        = some [ASCII_GS, 40, 107, lo, hi, 0x31, 0x50, 0x30]
      ∧ lo < 256 ∧ hi < 256
      ∧ lo + 256 * hi = qr_data.length + 3 := by
  refine ⟨u8 (u16 (qr_data.length + 3) &&& 0xFF), u8 (u16 (qr_data.length + 3) >>> 8), ?_,
    Nat.mod_lt _ (by decide), Nat.mod_lt _ (by decide), lo_hi_of_u16 _ hlen⟩
  rw [printQRCode_sends]
  rfl

/-- C13 (witness): the text https://example.com (19 characters, declared length 22). -/
theorem C13_qr_store_length_witness :
    ∃ lo hi,
      (sendsOf (Adafruit_Thermal_printQRCode (fun _ => 0) (World.start sessionAfterReset 0)
        [104, 116, 116, 112, 115, 58, 47, 47, 101, 120, 97, 109, 112, 108, 101, 46, 99, 111,
          109]).trace)[2]?
        = some [ASCII_GS, 40, 107, lo, hi, 0x31, 0x50, 0x30]
      ∧ lo < 256 ∧ hi < 256
      ∧ lo + 256 * hi = 19 + 3 :=
  C13_qr_store_length (fun _ => 0) sessionAfterReset 0
    [104, 116, 116, 112, 115, 58, 47, 47, 101, 120, 97, 109, 112, 108, 101, 46, 99, 111, 109]
    (by decide)

/-- C14 (counterexample): the last byte of the set-module-size header is 0x03 and the
    last byte of the set-error-correction-level header is 0x30: the headers differ in a
    position that is neither a length byte nor the function byte. -/
theorem C14_counterexample_last_header_byte :
    (sendsOf (Adafruit_Thermal_printQRCode (fun _ => 0) (World.start sessionAfterReset 0)
        [65]).trace)[0]? = some [ASCII_GS, 40, 107, 0x03, 0x00, 0x31, 0x43, 0x03]
    ∧ (sendsOf (Adafruit_Thermal_printQRCode (fun _ => 0) (World.start sessionAfterReset 0)
        [65]).trace)[1]? = some [ASCII_GS, 40, 107, 0x03, 0x00, 0x31, 0x45, 0x30]
    ∧ [ASCII_GS, 40, 107, 0x03, 0x00, 0x31, 0x43, 0x03][7]?
        ≠ [ASCII_GS, 40, 107, 0x03, 0x00, 0x31, 0x45, 0x30][7]? := by
  decide

/-- C14 (amended): for every text, printQRCode makes exactly five transmissions: the
    set-module-size header, the set-error-correction-level header, the store-data
    header, the text bytes, the trigger-print header, in this order.  The four headers
    have 8 bytes each; they agree in positions 0, 1, 2 and 5 (GS, (, k and 0x31); the
    length bytes (positions 3, 4) are 3, 0 except in the store-data header; the function
    byte (position 6) is 0x43, 0x45, 0x50, 0x51; the last byte (position 7) is 0x03 in
    the set-module-size header and 0x30 in the other three. -/
theorem C14_qr_four_subcommands (env : Timer) (p : Adafruit_Thermal) (clock : Nat)
    (qr_data : List Nat) :
    ∃ lo hi,
      sendsOf (Adafruit_Thermal_printQRCode env (World.start p clock) qr_data).trace
        = [[ASCII_GS, 40, 107, 0x03, 0x00, 0x31, 0x43, 0x03],
           [ASCII_GS, 40, 107, 0x03, 0x00, 0x31, 0x45, 0x30],
           [ASCII_GS, 40, 107, lo, hi, 0x31, 0x50, 0x30],
           qr_data,
           [ASCII_GS, 40, 107, 0x03, 0x00, 0x31, 0x51, 0x30]]
      ∧ bytesOf (Adafruit_Thermal_printQRCode env (World.start p clock) qr_data).trace
        = [ASCII_GS, 40, 107, 0x03, 0x00, 0x31, 0x43, 0x03]
          ++ [ASCII_GS, 40, 107, 0x03, 0x00, 0x31, 0x45, 0x30]
          ++ [ASCII_GS, 40, 107, lo, hi, 0x31, 0x50, 0x30] ++ qr_data
          ++ [ASCII_GS, 40, 107, 0x03, 0x00, 0x31, 0x51, 0x30] := by
  refine ⟨u8 (u16 (qr_data.length + 3) &&& 0xFF), u8 (u16 (qr_data.length + 3) >>> 8),
    printQRCode_sends env p clock qr_data, ?_⟩
  rw [bytesOf_eq_join_sendsOf, printQRCode_sends]
  simp

/-! ## C15, C16: printBitmap -/

/-- C15: for every world (session, timer, log), bitmap, height and fuel, and every
    width that is not a multiple of 8, printBitmap returns at once: it leaves the world
    unchanged (no field of the session changes) and transmits no byte. -/
theorem C15_bitmap_bad_width_sends_nothing (fuel : Nat) (env : Timer) (w : World)
    (bitmap_data : List Nat) (width height : Nat) (hw : width % 8 ≠ 0) :
    Adafruit_Thermal_printBitmap fuel env w bitmap_data width height = (w, true)
    ∧ Op.run fuel env w (Op.printBitmap bitmap_data width height) = w
    ∧ bytesOf (Op.run fuel env (World.start w.printer w.clock)
        (Op.printBitmap bitmap_data width height)).trace = [] := by
  have h : Adafruit_Thermal_printBitmap fuel env w bitmap_data width height = (w, true) := by
    unfold Adafruit_Thermal_printBitmap
    rw [if_pos hw]
  have h2 : ∀ w0 : World, Op.run fuel env w0 (Op.printBitmap bitmap_data width height) = w0 := by
    intro w0
    show (Adafruit_Thermal_printBitmap fuel env w0 bitmap_data width height).1 = w0
    unfold Adafruit_Thermal_printBitmap
    rw [if_pos hw]
  refine ⟨h, h2 w, ?_⟩
  rw [h2]
  rfl

/-- C15 (witness): width 12 in the session of the demo program. -/
theorem C15_bitmap_bad_width_sends_nothing_witness :
    12 % 8 ≠ 0
    ∧ Adafruit_Thermal_printBitmap 5 (fun _ => 0) (World.start sessionAfterReset 0)
        [1, 2, 3] 12 2 = (World.start sessionAfterReset 0, true) :=
  ⟨by decide,
   (C15_bitmap_bad_width_sends_nothing 5 (fun _ => 0) (World.start sessionAfterReset 0)
      [1, 2, 3] 12 2 (by decide)).1⟩

theorem printBitmap_rows_sends (env : Timer) (bitmap_data : List Nat) (row_bytes y n i : Nat)
    (w : World) :
    sendsOf (printBitmap_rows env bitmap_data row_bytes y n i w).trace
      = sendsOf w.trace
        ++ (List.range n).map (fun j => bitmapRow bitmap_data row_bytes (y + (i + j))) := by
  induction n generalizing i w with
  | zero => simp [printBitmap_rows]
  | succ n ih =>
    rw [printBitmap_rows, ih, List.range_succ_eq_map]
    simp [sendsOf_append, bitmapRow, Nat.add_assoc, Nat.add_comm 1]

theorem feed_one_sends (env : Timer) (w : World) :
    sendsOf (Adafruit_Thermal_feed env w 1).trace
      = sendsOf w.trace ++ feedOneSends w.printer.firmware := by
  unfold Adafruit_Thermal_feed feedOneSends
  by_cases hfw : w.printer.firmware ≥ 264
  · simp [hfw, sendsOf_append]
  · rw [if_neg hfw, if_neg hfw]
    show sendsOf (Adafruit_Thermal_write env w ASCII_LF).trace = _
    rw [write_sends]
    simp [ASCII_LF, ASCII_CR]

theorem band_header_bytes (row_bytes : Nat) (h : row_bytes < 65536) :
    [ASCII_ESC, 42, 0x00, u8 (row_bytes &&& 0xFF), u8 ((row_bytes >>> 8) &&& 0xFF)]
      = [ASCII_ESC, 42, 0, row_bytes % 256, row_bytes / 256] := by
  have h1 : row_bytes &&& 0xFF = row_bytes % 256 := Nat.and_pow_two_sub_one_eq_mod row_bytes 8
  have h2 : (row_bytes >>> 8) &&& 0xFF = (row_bytes >>> 8) % 256 :=
    Nat.and_pow_two_sub_one_eq_mod _ 8
  have h3 : row_bytes >>> 8 = row_bytes / 256 := Nat.shiftRight_eq_div_pow row_bytes 8
  rw [h1, h2, h3]
  unfold u8
  have e1 : row_bytes % 256 % 256 = row_bytes % 256 := by omega
  have e2 : row_bytes / 256 % 256 % 256 = row_bytes / 256 := by omega
  rw [e1, e2]

theorem printBitmap_bands_sends (env : Timer) (bitmap_data : List Nat)
    (row_bytes height : Nat) (hrb : row_bytes < 65536) (hh : height ≤ 65520) :
    ∀ (n k fuel : Nat) (w : World), k + n = (height + 23) / 24 → n ≤ fuel →
      (printBitmap_bands env bitmap_data row_bytes height fuel (24 * k) w).2 = true
      ∧ sendsOf (printBitmap_bands env bitmap_data row_bytes height fuel (24 * k) w).1.trace
        = sendsOf w.trace
          ++ (List.range n).flatMap
              (fun j => bandSends w.printer.firmware bitmap_data row_bytes height (k + j)) := by
  intro n
  induction n with
  | zero =>
    intro k fuel w hk _
    have hy : ¬ 24 * k < height := by omega
    cases fuel with
    | zero => simp [printBitmap_bands, hy]
    | succ f =>
      rw [printBitmap_bands, if_neg hy]
      simp
  | succ n ih =>
    intro k fuel w hk hfuel
    have hy : 24 * k < height := by omega
    obtain ⟨f, rfl⟩ : ∃ f, fuel = f + 1 := ⟨fuel - 1, by omega⟩
    have hnext : u16 (24 * k + 24) = 24 * (k + 1) := by
      unfold u16
      omega
    have hchunk : (if height - 24 * k > 24 then 24 else height - 24 * k)
        = min 24 (height - 24 * k) := by
      split_ifs <;> omega
    rw [printBitmap_bands, if_pos hy]
    dsimp only
    rw [hnext, hchunk]
    have hfw : (Adafruit_Thermal_feed env
        (printBitmap_rows env bitmap_data row_bytes (24 * k) (min 24 (height - 24 * k)) 0
          (Adafruit_Thermal_writeBytes env w
            [ASCII_ESC, 42, 0x00, u8 (row_bytes &&& 0xFF), u8 ((row_bytes >>> 8) &&& 0xFF)]))
        1).printer.firmware = w.printer.firmware :=
      (((writeBytes_sameCfg env w _).cfg_trans
        (printBitmap_rows_sameCfg env bitmap_data row_bytes (24 * k) _ 0 _)).cfg_trans
        (feed_sameCfg env _ 1)).2.1
    obtain ⟨ih1, ih2⟩ := ih (k + 1) f _ (by omega) (by omega)
    refine ⟨ih1, ?_⟩
    rw [ih2, hfw, feed_one_sends, printBitmap_rows_sends, List.range_succ_eq_map]
    have hfw2 : (printBitmap_rows env bitmap_data row_bytes (24 * k)
        (min 24 (height - 24 * k)) 0
        (Adafruit_Thermal_writeBytes env w
          [ASCII_ESC, 42, 0x00, u8 (row_bytes &&& 0xFF),
            u8 ((row_bytes >>> 8) &&& 0xFF)])).printer.firmware = w.printer.firmware :=
      ((writeBytes_sameCfg env w _).cfg_trans
        (printBitmap_rows_sameCfg env bitmap_data row_bytes (24 * k) _ 0 _)).2.1
    rw [hfw2, band_header_bytes row_bytes hrb]
    simp [sendsOf_append, bandSends, List.flatMap_map, Nat.add_assoc, Nat.add_comm 1]

theorem bitmapRow_length (bitmap_data : List Nat) (row_bytes r : Nat)
    (h : (r + 1) * row_bytes ≤ bitmap_data.length) :
    (bitmapRow bitmap_data row_bytes r).length = row_bytes := by
  unfold bitmapRow
  rw [List.length_take, List.length_drop]
  have : (r + 1) * row_bytes = r * row_bytes + row_bytes := by ring
  omega

/-- C16: for every width below 2^16 that is a multiple of 8, every height up to 65520
    and every bitmap of at least height * (width / 8) bytes, printBitmap (given fuel for
    ceil (height / 24) bands) leaves its loop through the loop condition, and its
    transmissions are exactly the bands 0, ..., ceil (height / 24) - 1: band k is the
    header ESC, *, 0, (width / 8) mod 256, (width / 8) div 256, then
    min 24 (height - 24 k) rows, row r being the width / 8 bytes of the bitmap at offset
    r * (width / 8), then a one-line paper feed (so there is one feed between
    consecutive bands; a feed also follows the last band).  Every row has exactly
    width / 8 bytes. -/
theorem C16_bitmap_bands (fuel : Nat) (env : Timer) (p : Adafruit_Thermal) (clock : Nat)
    (bitmap_data : List Nat) (width height : Nat)
    (hw : width % 8 = 0) (hwidth : width < 65536) (hh : height ≤ 65520)
    (hb : height * (width / 8) ≤ bitmap_data.length) (hfuel : (height + 23) / 24 ≤ fuel) :
    (Adafruit_Thermal_printBitmap fuel env (World.start p clock) bitmap_data width height).2
        = true
    ∧ sendsOf (Adafruit_Thermal_printBitmap fuel env (World.start p clock) bitmap_data
        width height).1.trace
        = bitmapSends p.firmware bitmap_data (width / 8) height
    ∧ (∀ r, r < height → (bitmapRow bitmap_data (width / 8) r).length = width / 8) := by
  have hrb : u16 (width / 8) = width / 8 := by
    unfold u16
    omega
  have hnot : ¬ width % 8 ≠ 0 := by omega
  obtain ⟨h1, h2⟩ := printBitmap_bands_sends env bitmap_data (width / 8) height (by omega) hh
    ((height + 23) / 24) 0 fuel (World.start p clock) (by omega) hfuel
  refine ⟨?_, ?_, ?_⟩
  · unfold Adafruit_Thermal_printBitmap
    rw [if_neg hnot]
    dsimp only
    rw [hrb]
    exact h1
  · unfold Adafruit_Thermal_printBitmap
    rw [if_neg hnot]
    dsimp only
    rw [hrb]
    rw [h2]
    simp [World.start, sendsOf, bitmapSends]
  · intro r hr
    apply bitmapRow_length
    exact le_trans (Nat.mul_le_mul_right _ hr) hb

/-- C16 (witness): width 16 and height 50 in the session of the demo program (firmware
    268) give three bands of 24, 24 and 2 rows; every row has 2 bytes. -/
theorem C16_bitmap_bands_witness :
    16 % 8 = 0 ∧ 50 ≤ 65520 ∧ 50 * (16 / 8) ≤ (List.range 100).length
    ∧ sendsOf (Adafruit_Thermal_printBitmap 3 (fun _ => 0) (World.start sessionAfterReset 0)
        (List.range 100) 16 50).1.trace
        = bandSends 268 (List.range 100) 2 50 0 ++ bandSends 268 (List.range 100) 2 50 1
          ++ bandSends 268 (List.range 100) 2 50 2
    ∧ (bandSends 268 (List.range 100) 2 50 0).length = 1 + 24 + 1
    ∧ (bandSends 268 (List.range 100) 2 50 1).length = 1 + 24 + 1
    ∧ (bandSends 268 (List.range 100) 2 50 2).length = 1 + 2 + 1
    ∧ (∀ r, r < 50 → (bitmapRow (List.range 100) (16 / 8) r).length = 16 / 8) := by
  have h := C16_bitmap_bands 3 (fun _ => 0) sessionAfterReset 0 (List.range 100) 16 50
    (by decide) (by decide) (by decide) (by decide) (by decide)
  refine ⟨by decide, by decide, by decide, ?_, by decide, by decide, by decide, h.2.2⟩
  rw [h.2.1]
  decide

/-! ## C17, C18, C19: utf8_to_cp1251 -/

theorem utf8_loop_nil (limit : Nat) (out : List Nat) :
    utf8_to_cp1251_loop limit [] out = out := rfl

theorem utf8_loop_one (limit c0 : Nat) (out : List Nat) :
    utf8_to_cp1251_loop limit [c0] out =
      if out.length < limit then
        if u8 c0 < 0x80 then utf8_to_cp1251_loop limit [] (out ++ [u8 c0])
        else if u8 c0 &&& 0xE0 = 0xC0 then out
        else if u8 c0 &&& 0xF0 = 0xE0 then out
        else utf8_to_cp1251_loop limit [] (out ++ [63])
      else out := rfl

theorem utf8_loop_two (limit c0 c1 : Nat) (out : List Nat) :
    utf8_to_cp1251_loop limit [c0, c1] out =
      if out.length < limit then
        if u8 c0 < 0x80 then utf8_to_cp1251_loop limit [c1] (out ++ [u8 c0])
        else if u8 c0 &&& 0xE0 = 0xC0 then
          utf8_to_cp1251_loop limit []
            (out ++ [cp1251_byte (u16 (((u8 c0 &&& 0x1F) <<< 6) ||| (u8 c1 &&& 0x3F)))])
        else if u8 c0 &&& 0xF0 = 0xE0 then out
        else utf8_to_cp1251_loop limit [c1] (out ++ [63])
      else out := rfl

theorem utf8_loop_three (limit c0 c1 c2 : Nat) (rest out : List Nat) :
    utf8_to_cp1251_loop limit (c0 :: c1 :: c2 :: rest) out =
      if out.length < limit then
        if u8 c0 < 0x80 then utf8_to_cp1251_loop limit (c1 :: c2 :: rest) (out ++ [u8 c0])
        else if u8 c0 &&& 0xE0 = 0xC0 then
          utf8_to_cp1251_loop limit (c2 :: rest)
            (out ++ [cp1251_byte (u16 (((u8 c0 &&& 0x1F) <<< 6) ||| (u8 c1 &&& 0x3F)))])
        else if u8 c0 &&& 0xF0 = 0xE0 then utf8_to_cp1251_loop limit rest out
        else utf8_to_cp1251_loop limit (c1 :: c2 :: rest) (out ++ [63])
      else out := rfl

theorem utf8_loop_full (limit : Nat) (inp out : List Nat) (h : ¬ out.length < limit) :
    utf8_to_cp1251_loop limit inp out = out := by
  match inp with
  | [] => rfl
  | [c0] => rw [utf8_loop_one, if_neg h]
  | [c0, c1] => rw [utf8_loop_two, if_neg h]
  | c0 :: c1 :: c2 :: rest => rw [utf8_loop_three, if_neg h]

theorem utf8_loop_ascii (limit c0 : Nat) (rest out : List Nat) (h1 : out.length < limit)
    (h2 : u8 c0 < 0x80) :
    utf8_to_cp1251_loop limit (c0 :: rest) out
      = utf8_to_cp1251_loop limit rest (out ++ [u8 c0]) := by
  match rest with
  | [] => rw [utf8_loop_one, if_pos h1, if_pos h2]
  | [c1] => rw [utf8_loop_two, if_pos h1, if_pos h2]
  | c1 :: c2 :: rest => rw [utf8_loop_three, if_pos h1, if_pos h2]

theorem utf8_loop_pair (limit c0 c1 : Nat) (rest out : List Nat) (h1 : out.length < limit)
    (h2 : ¬ u8 c0 < 0x80) (h3 : u8 c0 &&& 0xE0 = 0xC0) :
    utf8_to_cp1251_loop limit (c0 :: c1 :: rest) out
      = utf8_to_cp1251_loop limit rest
          (out ++ [cp1251_byte (u16 (((u8 c0 &&& 0x1F) <<< 6) ||| (u8 c1 &&& 0x3F)))]) := by
  match rest with
  | [] => rw [utf8_loop_two, if_pos h1, if_neg h2, if_pos h3]
  | c2 :: rest => rw [utf8_loop_three, if_pos h1, if_neg h2, if_pos h3]

theorem utf8_loop_triple (limit c0 c1 c2 : Nat) (rest out : List Nat)
    (h2 : ¬ u8 c0 < 0x80) (h3 : ¬ u8 c0 &&& 0xE0 = 0xC0) (h4 : u8 c0 &&& 0xF0 = 0xE0) :
    utf8_to_cp1251_loop limit (c0 :: c1 :: c2 :: rest) out
      = utf8_to_cp1251_loop limit rest out := by
  by_cases h1 : out.length < limit
  · rw [utf8_loop_three, if_pos h1, if_neg h2, if_neg h3, if_pos h4]
  · rw [utf8_loop_full limit _ out h1, utf8_loop_full limit _ out h1]

theorem utf8_loop_triple_short (limit c0 : Nat) (rest out : List Nat)
    (h2 : ¬ u8 c0 < 0x80) (h3 : ¬ u8 c0 &&& 0xE0 = 0xC0) (h4 : u8 c0 &&& 0xF0 = 0xE0)
    (hrest : rest.length < 2) :
    utf8_to_cp1251_loop limit (c0 :: rest) out = out := by
  match rest, hrest with
  | [], _ => rw [utf8_loop_one]; split_ifs <;> rfl
  | [c1], _ => rw [utf8_loop_two]; split_ifs <;> rfl

theorem utf8_loop_other (limit c0 : Nat) (rest out : List Nat) (h1 : out.length < limit)
    (h2 : ¬ u8 c0 < 0x80) (h3 : ¬ u8 c0 &&& 0xE0 = 0xC0) (h4 : ¬ u8 c0 &&& 0xF0 = 0xE0) :
    utf8_to_cp1251_loop limit (c0 :: rest) out
      = utf8_to_cp1251_loop limit rest (out ++ [63]) := by
  match rest with
  | [] => rw [utf8_loop_one, if_pos h1, if_neg h2, if_neg h3, if_neg h4]
  | [c1] => rw [utf8_loop_two, if_pos h1, if_neg h2, if_neg h3, if_neg h4]
  | c1 :: c2 :: rest => rw [utf8_loop_three, if_pos h1, if_neg h2, if_neg h3, if_neg h4]

theorem utf8_loop_pair_short (limit c0 : Nat) (out : List Nat)
    (h2 : ¬ u8 c0 < 0x80) (h3 : u8 c0 &&& 0xE0 = 0xC0) :
    utf8_to_cp1251_loop limit [c0] out = out := by
  rw [utf8_loop_one, if_neg h2, if_pos h3]
  split_ifs <;> rfl

theorem short_of_no_two {rest : List Nat}
    (h : ∀ (a b : Nat) (rest3 : List Nat), rest = a :: b :: rest3 → False) :
    rest.length < 2 := by
  match rest, h with
  | [], _ => simp
  | [_], _ => simp
  | a :: b :: r, h => exact (h a b r rfl).elim

theorem utf8_loop_prefix (limit : Nat) (inp out : List Nat) :
    ∃ t, utf8_to_cp1251_loop limit inp out = out ++ t := by
  induction inp, out using utf8_to_cp1251_loop.induct limit with
  | case1 out => exact ⟨[], by rw [utf8_loop_nil]; simp⟩
  | case2 c0 rest out h1 h2 ih =>
    obtain ⟨t, ht⟩ := ih
    exact ⟨u8 c0 :: t, by rw [utf8_loop_ascii limit c0 rest out h1 h2, ht]; simp⟩
  | case3 c0 out h1 h2 h3 =>
    exact ⟨[], by rw [utf8_loop_pair_short limit c0 out h2 h3]; simp⟩
  | case4 c0 out h1 h2 h3 c1 rest2 ih =>
    obtain ⟨t, ht⟩ := ih
    exact ⟨cp1251_byte (u16 (((u8 c0 &&& 0x1F) <<< 6) ||| (u8 c1 &&& 0x3F))) :: t, by
      rw [utf8_loop_pair limit c0 c1 rest2 out h1 h2 h3, ht]; simp⟩
  | case5 c0 out h1 h2 h3 h4 a b rest3 ih =>
    obtain ⟨t, ht⟩ := ih
    exact ⟨t, by rw [utf8_loop_triple limit c0 a b rest3 out h2 h3 h4, ht]⟩
  | case6 c0 rest out h1 h2 h3 h4 hrest =>
    exact ⟨[], by
      rw [utf8_loop_triple_short limit c0 rest out h2 h3 h4 (short_of_no_two hrest)]; simp⟩
  | case7 c0 rest out h1 h2 h3 h4 ih =>
    obtain ⟨t, ht⟩ := ih
    exact ⟨63 :: t, by rw [utf8_loop_other limit c0 rest out h1 h2 h3 h4, ht]; simp⟩
  | case8 c0 rest out h1 =>
    exact ⟨[], by rw [utf8_loop_full limit _ out h1]; simp⟩

theorem utf8_loop_length_le (limit : Nat) (inp out : List Nat) (h : out.length ≤ limit) :
    (utf8_to_cp1251_loop limit inp out).length ≤ limit := by
  induction inp, out using utf8_to_cp1251_loop.induct limit with
  | case1 out =>
    rw [utf8_loop_nil]
    exact h
  | case2 c0 rest out h1 h2 ih =>
    rw [utf8_loop_ascii limit c0 rest out h1 h2]
    exact ih (by simp; omega)
  | case3 c0 out h1 h2 h3 =>
    rw [utf8_loop_pair_short limit c0 out h2 h3]
    exact h
  | case4 c0 out h1 h2 h3 c1 rest2 ih =>
    rw [utf8_loop_pair limit c0 c1 rest2 out h1 h2 h3]
    exact ih (by simp; omega)
  | case5 c0 out h1 h2 h3 h4 a b rest3 ih =>
    rw [utf8_loop_triple limit c0 a b rest3 out h2 h3 h4]
    exact ih h
  | case6 c0 rest out h1 h2 h3 h4 hrest =>
    rw [utf8_loop_triple_short limit c0 rest out h2 h3 h4 (short_of_no_two hrest)]
    exact h
  | case7 c0 rest out h1 h2 h3 h4 ih =>
    rw [utf8_loop_other limit c0 rest out h1 h2 h3 h4]
    exact ih (by simp; omega)
  | case8 c0 rest out h1 =>
    rw [utf8_loop_full limit _ out h1]
    exact h

theorem utf8_loop_take (limit big : Nat) (hle : limit ≤ big) (inp out : List Nat)
    (h : out.length ≤ limit) :
    utf8_to_cp1251_loop limit inp out = (utf8_to_cp1251_loop big inp out).take limit := by
  induction inp, out using utf8_to_cp1251_loop.induct limit with
  | case1 out =>
    rw [utf8_loop_nil, utf8_loop_nil]
    exact (List.take_of_length_le h).symm
  | case2 c0 rest out h1 h2 ih =>
    rw [utf8_loop_ascii limit c0 rest out h1 h2,
      utf8_loop_ascii big c0 rest out (by omega) h2]
    exact ih (by simp; omega)
  | case3 c0 out h1 h2 h3 =>
    rw [utf8_loop_pair_short limit c0 out h2 h3, utf8_loop_pair_short big c0 out h2 h3]
    exact (List.take_of_length_le h).symm
  | case4 c0 out h1 h2 h3 c1 rest2 ih =>
    rw [utf8_loop_pair limit c0 c1 rest2 out h1 h2 h3,
      utf8_loop_pair big c0 c1 rest2 out (by omega) h2 h3]
    exact ih (by simp; omega)
  | case5 c0 out h1 h2 h3 h4 a b rest3 ih =>
    rw [utf8_loop_triple limit c0 a b rest3 out h2 h3 h4,
      utf8_loop_triple big c0 a b rest3 out h2 h3 h4]
    exact ih h
  | case6 c0 rest out h1 h2 h3 h4 hrest =>
    rw [utf8_loop_triple_short limit c0 rest out h2 h3 h4 (short_of_no_two hrest),
      utf8_loop_triple_short big c0 rest out h2 h3 h4 (short_of_no_two hrest)]
    exact (List.take_of_length_le h).symm
  | case7 c0 rest out h1 h2 h3 h4 ih =>
    rw [utf8_loop_other limit c0 rest out h1 h2 h3 h4,
      utf8_loop_other big c0 rest out (by omega) h2 h3 h4]
    exact ih (by simp; omega)
  | case8 c0 rest out h1 =>
    rw [utf8_loop_full limit _ out h1]
    obtain ⟨t, ht⟩ := utf8_loop_prefix big (c0 :: rest) out
    rw [ht]
    have hl : out.length = limit := by omega
    rw [← hl]
    simp

theorem two_byte_encoding_decoded (cp : Nat)
    (h : (0x410 ≤ cp ∧ cp ≤ 0x44F) ∨ cp = 0x401 ∨ cp = 0x451) :
    ¬ u8 (0xC0 ||| (cp >>> 6)) < 0x80
    ∧ u8 (0xC0 ||| (cp >>> 6)) &&& 0xE0 = 0xC0
    ∧ cp1251_byte (u16 (((u8 (0xC0 ||| (cp >>> 6)) &&& 0x1F) <<< 6)
        ||| (u8 (0x80 ||| (cp &&& 0x3F)) &&& 0x3F))) = cp1251Of cp := by
  rcases h with ⟨h1, h2⟩ | rfl | rfl
  · interval_cases cp <;> decide
  · decide
  · decide

theorem utf8_loop_mapped_char (limit cp : Nat) (rest out : List Nat) (hm : Mapped cp)
    (h1 : out.length < limit) :
    utf8_to_cp1251_loop limit (utf8Encode cp ++ rest) out
      = utf8_to_cp1251_loop limit rest (out ++ [cp1251Of cp]) := by
  by_cases ha : cp < 0x80
  · have hu : u8 cp = cp := Nat.mod_eq_of_lt (by omega)
    have h2 : u8 cp < 0x80 := by rw [hu]; exact ha
    simp only [utf8Encode, cp1251Of, if_pos ha, List.singleton_append]
    rw [utf8_loop_ascii limit cp rest out h1 h2, hu]
  · have hc : (0x410 ≤ cp ∧ cp ≤ 0x44F) ∨ cp = 0x401 ∨ cp = 0x451 := by
      rcases hm with h | h | h | h
      · omega
      · exact Or.inl h
      · exact Or.inr (Or.inl h)
      · exact Or.inr (Or.inr h)
    obtain ⟨f1, f2, f3⟩ := two_byte_encoding_decoded cp hc
    simp only [utf8Encode, if_neg ha, List.cons_append, List.nil_append]
    rw [utf8_loop_pair limit _ _ rest out h1 f1 f2, f3]

theorem utf8_loop_mapped (limit : Nat) (cps : List Nat) :
    ∀ out : List Nat, (∀ cp ∈ cps, Mapped cp) → out.length + cps.length ≤ limit →
      utf8_to_cp1251_loop limit (cps.flatMap utf8Encode) out = out ++ cps.map cp1251Of := by
  induction cps with
  | nil =>
    intro out _ _
    simp [utf8_loop_nil]
  | cons cp cps ih =>
    intro out hm hlen
    have hlen2 : out.length + (cps.length + 1) ≤ limit := by simpa using hlen
    rw [List.flatMap_cons, utf8_loop_mapped_char limit cp _ out (hm cp (List.mem_cons_self _ _))
      (by omega)]
    rw [ih (out ++ [cp1251Of cp]) (fun c hc => hm c (List.mem_cons_of_mem _ hc))
      (by simp; omega)]
    simp

/-- C17: for every list of code points taken from non-NUL ASCII, U+0410..U+044F,
    U+0401 and U+0451, and every buffer size (a size_t value) larger than the number of
    characters, utf8_to_cp1251 applied to the UTF-8 encoding stores exactly one byte per
    character, in order, followed by the terminating NUL, and returns the number of
    characters.  The byte of a character is the ASCII byte itself, code point - 0x350
    for the Cyrillic block (0xC0 for U+0410 up to 0xFF for U+044F), 0xA8 for U+0401 and
    0xB8 for U+0451. -/
theorem C17_mapped_repertoire (cps : List Nat) (cp1251_size : Nat)
    (hm : ∀ cp ∈ cps, Mapped cp) (hsize : cps.length < cp1251_size)
    (hrange : cp1251_size < 4294967296) :
    utf8_to_cp1251 (cps.flatMap utf8Encode) cp1251_size
        = (cps.map cp1251Of ++ [0], cps.length)
    ∧ (∀ cp, cp < 0x80 → cp1251Of cp = cp)
    ∧ (∀ cp, 0x410 ≤ cp → cp ≤ 0x44F → cp1251Of cp = cp - 0x350)
    ∧ cp1251Of 0x410 = 0xC0 ∧ cp1251Of 0x44F = 0xFF
    ∧ cp1251Of 0x401 = 0xA8 ∧ cp1251Of 0x451 = 0xB8 := by
  have hlim : u32 (cp1251_size + 4294967295) = cp1251_size - 1 := by
    unfold u32
    omega
  have hloop := utf8_loop_mapped (cp1251_size - 1) cps [] hm (by simp; omega)
  refine ⟨?_, ?_, ?_, by decide, by decide, by decide, by decide⟩
  · unfold utf8_to_cp1251
    rw [hlim, hloop]
    simp
  · intro cp h
    simp [cp1251Of, h]
  · intro cp h1 h2
    have e1 : ¬ cp < 0x80 := by omega
    have e2 : ¬ cp = 0x401 := by omega
    have e3 : ¬ cp = 0x451 := by omega
    simp only [cp1251Of, if_neg e1, if_neg e2, if_neg e3]

/-- C17 (witness): the text Privet! in Cyrillic letters (six letters and an exclamation mark)
    with a buffer of 100 bytes. -/
theorem C17_mapped_repertoire_witness :
    (∀ cp ∈ [0x41F, 0x440, 0x438, 0x432, 0x435, 0x442, 0x21], Mapped cp)
    ∧ [0x41F, 0x440, 0x438, 0x432, 0x435, 0x442, 0x21].length < 100
    ∧ utf8_to_cp1251 ([0x41F, 0x440, 0x438, 0x432, 0x435, 0x442, 0x21].flatMap utf8Encode) 100
        = ([0x41F, 0x440, 0x438, 0x432, 0x435, 0x442, 0x21].map cp1251Of ++ [0], 7) :=
  ⟨by decide, by decide,
   (C17_mapped_repertoire [0x41F, 0x440, 0x438, 0x432, 0x435, 0x442, 0x21] 100 (by decide)
      (by decide) (by decide)).1⟩

set_option maxRecDepth 100000 in
theorem three_byte_lead_facts :
    ∀ c < 256, c &&& 0xF0 = 0xE0 → (¬ c < 0x80 ∧ ¬ c &&& 0xE0 = 0xC0) := by
  decide

set_option maxRecDepth 100000 in
theorem two_byte_lead_facts : ∀ c < 256, c &&& 0xE0 = 0xC0 → ¬ c < 0x80 := by
  decide

theorem two_byte_code_point_lt (c0 c1 : Nat) :
    ((c0 &&& 0x1F) <<< 6) ||| (c1 &&& 0x3F) < 65536 := by
  have h1 : c0 &&& 0x1F ≤ 0x1F := Nat.and_le_right
  have h2 : c1 &&& 0x3F ≤ 0x3F := Nat.and_le_right
  have h3 : (c0 &&& 0x1F) <<< 6 = (c0 &&& 0x1F) * 2 ^ 6 := Nat.shiftLeft_eq _ _
  have h4 : (c0 &&& 0x1F) <<< 6 < 2 ^ 16 := by
    rw [h3]
    omega
  have h5 : c1 &&& 0x3F < 2 ^ 16 := by omega
  exact Nat.or_lt_two_pow h4 h5

/-- C18: at every state of the loop of utf8_to_cp1251 (output so far, bound of the
    buffer), a three-byte sequence (lead byte 1110xxxx and the two bytes after it)
    contributes no output byte: the loop continues behind it with the output unchanged;
    the same holds for a three-byte lead with fewer than two bytes after it, which ends
    the conversion.  A two-byte sequence (lead byte 110xxxxx) whose code point is
    outside U+0410..U+044F, U+0401, U+0451 contributes exactly one byte 63 (the question
    mark) when the buffer has room. -/
theorem C18_three_byte_skipped_two_byte_replaced (limit c0 c1 c2 : Nat) (rest out : List Nat)
    (hc0 : c0 < 256) (hc1 : c1 < 256) :
    (c0 &&& 0xF0 = 0xE0 →
        utf8_to_cp1251_loop limit (c0 :: c1 :: c2 :: rest) out
          = utf8_to_cp1251_loop limit rest out
        ∧ utf8_to_cp1251_loop limit [c0, c1] out = out
        ∧ utf8_to_cp1251_loop limit [c0] out = out
        ∧ ∀ size, utf8_to_cp1251 (c0 :: c1 :: c2 :: rest) size = utf8_to_cp1251 rest size)
    ∧ (c0 &&& 0xE0 = 0xC0 →
        ¬ (0x410 ≤ ((c0 &&& 0x1F) <<< 6) ||| (c1 &&& 0x3F)
            ∧ ((c0 &&& 0x1F) <<< 6) ||| (c1 &&& 0x3F) ≤ 0x44F) →
        ((c0 &&& 0x1F) <<< 6) ||| (c1 &&& 0x3F) ≠ 0x401 →
        ((c0 &&& 0x1F) <<< 6) ||| (c1 &&& 0x3F) ≠ 0x451 →
        out.length < limit →
        utf8_to_cp1251_loop limit (c0 :: c1 :: rest) out
          = utf8_to_cp1251_loop limit rest (out ++ [63])) := by
  have hu0 : u8 c0 = c0 := Nat.mod_eq_of_lt hc0
  have hu1 : u8 c1 = c1 := Nat.mod_eq_of_lt hc1
  constructor
  · intro h
    obtain ⟨f1, f2⟩ := three_byte_lead_facts c0 hc0 h
    have g1 : ¬ u8 c0 < 0x80 := by rw [hu0]; exact f1
    have g2 : ¬ u8 c0 &&& 0xE0 = 0xC0 := by rw [hu0]; exact f2
    have g3 : u8 c0 &&& 0xF0 = 0xE0 := by rw [hu0]; exact h
    have key : ∀ lim o, utf8_to_cp1251_loop lim (c0 :: c1 :: c2 :: rest) o
        = utf8_to_cp1251_loop lim rest o :=
      fun lim o => utf8_loop_triple lim c0 c1 c2 rest o g1 g2 g3
    refine ⟨key limit out, ?_, ?_, ?_⟩
    · exact utf8_loop_triple_short limit c0 [c1] out g1 g2 g3 (by simp)
    · exact utf8_loop_triple_short limit c0 [] out g1 g2 g3 (by simp)
    · intro size
      unfold utf8_to_cp1251
      rw [key]
  · intro h hblock hyo hyo2 hroom
    have g1 : ¬ u8 c0 < 0x80 := by rw [hu0]; exact two_byte_lead_facts c0 hc0 h
    have g2 : u8 c0 &&& 0xE0 = 0xC0 := by rw [hu0]; exact h
    rw [utf8_loop_pair limit c0 c1 rest out hroom g1 g2, hu0, hu1]
    have hcp : u16 (((c0 &&& 0x1F) <<< 6) ||| (c1 &&& 0x3F))
        = ((c0 &&& 0x1F) <<< 6) ||| (c1 &&& 0x3F) :=
      Nat.mod_eq_of_lt (two_byte_code_point_lt c0 c1)
    rw [hcp]
    have hb : cp1251_byte (((c0 &&& 0x1F) <<< 6) ||| (c1 &&& 0x3F)) = 63 := by
      unfold cp1251_byte
      rw [if_neg hblock, if_neg hyo, if_neg hyo2]
    rw [hb]

/-- C18 (witness): the euro sign (E2 82 AC) gives no output byte; e with acute accent
    (C3 A9, U+00E9) gives one question mark. -/
theorem C18_three_byte_skipped_two_byte_replaced_witness :
    utf8_to_cp1251 [0xE2, 0x82, 0xAC, 65] 10 = utf8_to_cp1251 [65] 10
    ∧ utf8_to_cp1251_loop 9 [0xC3, 0xA9, 65] [] = utf8_to_cp1251_loop 9 [65] ([] ++ [63]) :=
  ⟨((C18_three_byte_skipped_two_byte_replaced 9 0xE2 0x82 0xAC [65] [] (by decide)
      (by decide)).1 (by decide)).2.2.2 10,
   (C18_three_byte_skipped_two_byte_replaced 9 0xC3 0xA9 65 [65] [] (by decide)
      (by decide)).2 (by decide) (by decide) (by decide) (by decide) (by decide)⟩

/-- For every input string and every buffer size from 1 up (a size_t value),
    utf8_to_cp1251 stays inside the buffer: the returned length is at most size - 1,
    the bytes stored are the converted bytes followed by the terminating NUL at index
    (returned length), which is below size, and the converted bytes are the first
    size - 1 bytes of what a larger buffer receives (truncation). -/
theorem utf8_inside_buffer_of_pos (utf8_str : List Nat) (cp1251_size : Nat)
    (hpos : 1 ≤ cp1251_size) (hrange : cp1251_size < 4294967296) :
    (utf8_to_cp1251 utf8_str cp1251_size).2 ≤ cp1251_size - 1
    ∧ (utf8_to_cp1251 utf8_str cp1251_size).1.length
        = (utf8_to_cp1251 utf8_str cp1251_size).2 + 1
    ∧ (utf8_to_cp1251 utf8_str cp1251_size).1.length ≤ cp1251_size
    ∧ (utf8_to_cp1251 utf8_str cp1251_size).1[(utf8_to_cp1251 utf8_str cp1251_size).2]?
        = some 0
    ∧ (∀ big, cp1251_size ≤ big → big < 4294967296 →
        (utf8_to_cp1251 utf8_str cp1251_size).1.take (utf8_to_cp1251 utf8_str cp1251_size).2
          = ((utf8_to_cp1251 utf8_str big).1.take (utf8_to_cp1251 utf8_str big).2).take
              (cp1251_size - 1)) := by
  have hlim : u32 (cp1251_size + 4294967295) = cp1251_size - 1 := by
    unfold u32
    omega
  have hlen := utf8_loop_length_le (cp1251_size - 1) utf8_str [] (by simp)
  unfold utf8_to_cp1251
  rw [hlim]
  refine ⟨hlen, by simp, by simp; omega, by simp, ?_⟩
  intro big hbig hbigr
  have hlimb : u32 (big + 4294967295) = big - 1 := by
    unfold u32
    omega
  rw [hlimb]
  have e : ∀ l : List Nat, (l ++ [0]).take l.length = l := by
    intro l
    simp
  rw [e, e]
  exact utf8_loop_take (cp1251_size - 1) (big - 1) (by omega) utf8_str [] (by simp)

/-- Four letters into a buffer of three bytes: two letters and the terminator are
    stored, 2 is returned. -/
theorem utf8_inside_buffer_three :
    (1 : Nat) ≤ 3
    ∧ (utf8_to_cp1251 [65, 66, 67, 68] 3).2 ≤ 3 - 1
    ∧ (utf8_to_cp1251 [65, 66, 67, 68] 3).1.length ≤ 3 :=
  ⟨by decide,
   (utf8_inside_buffer_of_pos [65, 66, 67, 68] 3 (by decide) (by decide)).1,
   (utf8_inside_buffer_of_pos [65, 66, 67, 68] 3 (by decide) (by decide)).2.2.1⟩

/-- With a buffer of size 0 the bound cp1251_size - 1 is 2^32 - 1, so the loop is
    bounded by the input alone: n letters A (n below 2^32 - 1) are all stored, followed
    by the terminating NUL, and n is returned. -/
theorem utf8_size_zero_unbounded (n : Nat) (hn : n < 4294967295) :
    utf8_to_cp1251 (List.replicate n 65) 0 = (List.replicate n 65 ++ [0], n) := by
  have hloop : ∀ (k : Nat) (out : List Nat), out.length + k < 4294967296 →
      utf8_to_cp1251_loop 4294967295 (List.replicate k 65) out
        = out ++ List.replicate k 65 := by
    intro k
    induction k with
    | zero => intro out _; simp [utf8_loop_nil]
    | succ j ih =>
      intro out hout
      rw [List.replicate_succ, utf8_loop_ascii 4294967295 65 _ out (by omega) (by decide),
        ih _ (by simp; omega)]
      simp [u8]
  have hlim : u32 (0 + 4294967295) = 4294967295 := by decide
  unfold utf8_to_cp1251
  rw [hlim, hloop n [] (by simp; omega)]
  simp

/-- C19 (failing input): with a buffer of size 0 the bound cp1251_size - 1 wraps
    around in size_t to 2^32 - 1: for the one-letter input A the call stores two bytes
    (A at index 0 and the terminating NUL at index 1) and returns 1, so both bytes are
    written past the buffer, the returned length is not at most size - 1 and nothing
    is truncated. -/
theorem C19_size_zero_writes_past_buffer :
    u32 (0 + 4294967295) = 4294967295
    ∧ utf8_to_cp1251 [65] 0 = ([65, 0], 1)
    ∧ ¬ ((utf8_to_cp1251 [65] 0).2 ≤ 0 - 1)
    ∧ ¬ ((utf8_to_cp1251 [65] 0).1.length ≤ 0) := by
  decide

/-! ## C20: print and println -/

/-- C20: for every session state and every string, print transmits exactly the bytes of
    the string in one call of uart_write_bytes, records a busy duration of
    len * BYTE_TIME (a 32 bit product: it is len * BYTE_TIME whenever that is below 2^32)
    and leaves column and prev_byte unchanged; println transmits exactly the bytes of the
    string followed by exactly one LF byte. -/
theorem C20_print_is_one_burst (env : Timer) (p : Adafruit_Thermal) (clock : Nat)
    (str : List Nat) :
    sendsOf (Adafruit_Thermal_print env (World.start p clock) str).trace = [str]
    ∧ bytesOf (Adafruit_Thermal_print env (World.start p clock) str).trace = str
    ∧ busyOf (Adafruit_Thermal_print env (World.start p clock) str).trace
        = [u32 (str.length * BYTE_TIME)]
    ∧ (str.length * BYTE_TIME < 4294967296 →
        busyOf (Adafruit_Thermal_print env (World.start p clock) str).trace
          = [str.length * BYTE_TIME])
    ∧ (Adafruit_Thermal_print env (World.start p clock) str).printer.column = p.column
    ∧ (Adafruit_Thermal_print env (World.start p clock) str).printer.prev_byte = p.prev_byte
    ∧ sendsOf (Adafruit_Thermal_println env (World.start p clock) str).trace
        = [str, [ASCII_LF]]
    ∧ bytesOf (Adafruit_Thermal_println env (World.start p clock) str).trace
        = str ++ [ASCII_LF] := by
  have hb : busyOf (Adafruit_Thermal_print env (World.start p clock) str).trace
      = [u32 (str.length * BYTE_TIME)] := by
    rw [busyOf_print, BYTE_TIME_eq]
  refine ⟨?_, ?_, hb, ?_, ?_, ?_, ?_, ?_⟩
  · simp [Adafruit_Thermal_print, World.start, sendsOf_append, sendsOf]
  · simp [Adafruit_Thermal_print, World.start, bytesOf_append, bytesOf]
  · intro h
    rw [hb, u32, Nat.mod_eq_of_lt h]
  · simp [Adafruit_Thermal_print, World.start]
  · simp [Adafruit_Thermal_print, World.start]
  · simp [Adafruit_Thermal_println, Adafruit_Thermal_print, World.start, sendsOf_append,
      sendsOf]
  · simp [Adafruit_Thermal_println, Adafruit_Thermal_print, World.start, bytesOf_append,
      bytesOf]

/-- C20 (witness): the string EcoVend of the demo program. -/
theorem C20_print_is_one_burst_witness :
    [69, 99, 111, 86, 101, 110, 100].length * BYTE_TIME < 4294967296
    ∧ busyOf (Adafruit_Thermal_print (fun _ => 0) (World.start sessionAfterReset 0)
        [69, 99, 111, 86, 101, 110, 100]).trace
      = [[69, 99, 111, 86, 101, 110, 100].length * BYTE_TIME] :=
  ⟨by decide,
   (C20_print_is_one_burst (fun _ => 0) sessionAfterReset 0
      [69, 99, 111, 86, 101, 110, 100]).2.2.2.1 (by decide)⟩

/-! ## C21: the busy duration of write -/

/-- The duration that write passes to timeoutSet, for every session state. -/
theorem write_busy (env : Timer) (p : Adafruit_Thermal) (clock c : Nat) (hc : c ≠ ASCII_CR) :
    busyOf (Adafruit_Thermal_write env (World.start p clock) c).trace
      = [if c = ASCII_LF ∨ p.column = p.max_column then
           u32 (BYTE_TIME +
             (if p.prev_byte = ASCII_LF then
               u32 ((p.char_height + p.line_spacing) * p.dot_feed_time)
             else
               u32 (u32 (p.char_height * p.dot_print_time)
                 + u32 (p.line_spacing * p.dot_feed_time))))
         else BYTE_TIME] := by
  unfold Adafruit_Thermal_write
  rw [if_pos hc]
  dsimp only
  by_cases h2 : c = ASCII_LF ∨ p.column = p.max_column
  · simp [h2, World.start, busyOf_append, busyOf, u32_u32]
  · have hb : u32 BYTE_TIME = BYTE_TIME := by decide
    simp [h2, World.start, busyOf_append, busyOf, hb]

/-- Under timed flow control write leaves resume_time at the timer value plus the
    duration it passed to timeoutSet. -/
theorem write_resume_time (env : Timer) (p : Adafruit_Thermal) (clock c : Nat)
    (hc : c ≠ ASCII_CR) (hd : p.dtr_enabled = false) :
    busyOf (Adafruit_Thermal_write env (World.start p clock) c).trace
      = [(Adafruit_Thermal_write env (World.start p clock) c).printer.resume_time
          - (Adafruit_Thermal_write env (World.start p clock) c).clock]
    ∧ (Adafruit_Thermal_write env (World.start p clock) c).clock
        ≤ (Adafruit_Thermal_write env (World.start p clock) c).printer.resume_time := by
  unfold Adafruit_Thermal_write
  rw [if_pos hc]
  dsimp only
  by_cases h2 : c = ASCII_LF ∨ p.column = p.max_column
  · simp [h2, World.start, busyOf_append, busyOf, Adafruit_Thermal_timeoutSet, hd, u32_u32]
  · simp [h2, World.start, busyOf_append, busyOf, Adafruit_Thermal_timeoutSet, hd, u32_u32]

/-- C21 (counterexample): in the session of the demo program after reset (previous
    byte a line feed, timed flow control) write of a line feed sends two bytes (LF, CR)
    and records a busy duration of 63573 = (24 + 6) * 2100 + BYTE_TIME, which is not
    (24 + 6) * 2100 plus the byte time of the two bytes sent. -/
theorem C21_counterexample_line_feed :
    sessionAfterReset.dtr_enabled = false ∧ sessionAfterReset.prev_byte = ASCII_LF
    ∧ bytesOf (Adafruit_Thermal_write (fun _ => 0) (World.start sessionAfterReset 0)
        ASCII_LF).trace = [ASCII_LF, ASCII_CR]
    ∧ busyOf (Adafruit_Thermal_write (fun _ => 0) (World.start sessionAfterReset 0)
        ASCII_LF).trace = [63573]
    ∧ lineAdvanceTime sessionAfterReset = 63000
    ∧ busyOf (Adafruit_Thermal_write (fun _ => 0) (World.start sessionAfterReset 0)
        ASCII_LF).trace
      ≠ [lineAdvanceTime sessionAfterReset
          + (bytesOf (Adafruit_Thermal_write (fun _ => 0) (World.start sessionAfterReset 0)
              ASCII_LF).trace).length * BYTE_TIME] := by
  decide

/-- C21 (amended): under timed flow control, for every session state and every byte c
    other than CR: when write performs a line break (c is LF or column = max_column)
    the busy duration it records is the line-advance time, that is
    (char_height + line_spacing) * dot_feed_time if prev_byte is a line feed and
    char_height * dot_print_time + line_spacing * dot_feed_time otherwise, plus BYTE_TIME,
    the byte time of one byte (the CR sent after c adds nothing), as long as the sum is
    below 2^32; when it performs no line break the busy duration is BYTE_TIME.  In both
    cases resume_time is the timer value plus that duration. -/
theorem C21_write_busy_duration (env : Timer) (p : Adafruit_Thermal) (clock c : Nat)
    (hc : c ≠ ASCII_CR) (hd : p.dtr_enabled = false) :
    ((c = ASCII_LF ∨ p.column = p.max_column) →
        BYTE_TIME + lineAdvanceTime p < 4294967296 →
        busyOf (Adafruit_Thermal_write env (World.start p clock) c).trace
          = [BYTE_TIME + lineAdvanceTime p]
        ∧ (Adafruit_Thermal_write env (World.start p clock) c).printer.resume_time
          = (Adafruit_Thermal_write env (World.start p clock) c).clock
            + (BYTE_TIME + lineAdvanceTime p))
    ∧ (¬ (c = ASCII_LF ∨ p.column = p.max_column) →
        busyOf (Adafruit_Thermal_write env (World.start p clock) c).trace = [BYTE_TIME]
        ∧ (Adafruit_Thermal_write env (World.start p clock) c).printer.resume_time
          = (Adafruit_Thermal_write env (World.start p clock) c).clock + BYTE_TIME) := by
  obtain ⟨hr, hle⟩ := write_resume_time env p clock c hc hd
  have hb := write_busy env p clock c hc
  constructor
  · intro hbreak hfit
    have hval : u32 (BYTE_TIME +
        (if p.prev_byte = ASCII_LF then
          u32 ((p.char_height + p.line_spacing) * p.dot_feed_time)
        else
          u32 (u32 (p.char_height * p.dot_print_time)
            + u32 (p.line_spacing * p.dot_feed_time))))
        = BYTE_TIME + lineAdvanceTime p := by
      unfold lineAdvanceTime at hfit ⊢
      unfold u32
      by_cases hp : p.prev_byte = ASCII_LF
      · rw [if_pos hp] at hfit ⊢
        rw [if_pos hp]
        generalize (p.char_height + p.line_spacing) * p.dot_feed_time = a at hfit ⊢
        omega
      · rw [if_neg hp] at hfit ⊢
        rw [if_neg hp]
        generalize p.char_height * p.dot_print_time = a at hfit ⊢
        generalize p.line_spacing * p.dot_feed_time = b at hfit ⊢
        omega
    rw [if_pos hbreak, hval] at hb
    refine ⟨hb, ?_⟩
    rw [hb] at hr
    simp only [List.cons.injEq, and_true] at hr
    omega
  · intro hno
    rw [if_neg hno] at hb
    refine ⟨hb, ?_⟩
    rw [hb] at hr
    simp only [List.cons.injEq, and_true] at hr
    omega

/-- C21 (witness): a line feed after a letter in the session of the demo program:
    573 + 24 * 30000 + 6 * 2100 microseconds. -/
theorem C21_write_busy_duration_witness :
    ASCII_LF ≠ ASCII_CR
    ∧ ({ sessionAfterReset with prev_byte := 65 } : Adafruit_Thermal).dtr_enabled = false
    ∧ busyOf (Adafruit_Thermal_write (fun _ => 0)
        (World.start { sessionAfterReset with prev_byte := 65 } 0) ASCII_LF).trace
      = [BYTE_TIME + lineAdvanceTime { sessionAfterReset with prev_byte := 65 }] :=
  ⟨by decide, rfl,
   ((C21_write_busy_duration (fun _ => 0) { sessionAfterReset with prev_byte := 65 } 0
      ASCII_LF (by decide) rfl).1 (Or.inl rfl) (by decide)).1⟩

/-! ## C22: feed on firmware before 264 -/

theorem feed_loop_eq_writeNewlines (env : Timer) (n : Nat) (w : World) :
    feed_loop env n w = writeNewlines env n w := by
  unfold writeNewlines
  induction n generalizing w with
  | zero => rfl
  | succ n ih =>
    rw [feed_loop, ih, Function.iterate_succ]
    rfl

theorem feed_loop_sends (env : Timer) (n : Nat) (w : World) :
    sendsOf (feed_loop env n w).trace
      = sendsOf w.trace ++ (List.replicate n [[ASCII_LF], [ASCII_CR]]).flatten := by
  induction n generalizing w with
  | zero => simp [feed_loop]
  | succ n ih =>
    rw [feed_loop, ih, write_sends]
    simp [List.replicate_succ, ASCII_LF, ASCII_CR]

theorem feed_loop_busy_length (env : Timer) (n : Nat) (w : World) :
    (busyOf (feed_loop env n w).trace).length = (busyOf w.trace).length + n := by
  induction n generalizing w with
  | zero => simp [feed_loop]
  | succ n ih =>
    rw [feed_loop, ih]
    have h1 : (busyOf (Adafruit_Thermal_write env w ASCII_LF).trace).length
        = (busyOf w.trace).length + 1 := by
      unfold Adafruit_Thermal_write
      rw [if_pos (by decide)]
      simp [busyOf_append, busyOf]
    rw [h1]
    omega

/-- C22: for every world whose session has firmware below 264 and every n, feed is the
    same as n successive calls of write with a line feed: the world after it (session,
    timer, log) is the same; the transmissions are n times a line feed followed by CR;
    and timeoutSet is called n times, once for each line feed. -/
theorem C22_feed_fallback_is_n_newlines (env : Timer) (w : World) (n : Nat)
    (hfw : w.printer.firmware < 264) :
    Adafruit_Thermal_feed env w n = writeNewlines env n w
    ∧ sendsOf (Adafruit_Thermal_feed env (World.start w.printer w.clock) n).trace
        = (List.replicate n [[ASCII_LF], [ASCII_CR]]).flatten
    ∧ bytesOf (Adafruit_Thermal_feed env (World.start w.printer w.clock) n).trace
        = (List.replicate n [ASCII_LF, ASCII_CR]).flatten
    ∧ (busyOf (Adafruit_Thermal_feed env (World.start w.printer w.clock) n).trace).length
        = n := by
  have hnot : ¬ w.printer.firmware ≥ 264 := by omega
  have hfeed : ∀ v : World, v.printer.firmware = w.printer.firmware →
      Adafruit_Thermal_feed env v n = feed_loop env n v := by
    intro v hv
    unfold Adafruit_Thermal_feed
    rw [hv, if_neg hnot]
  have hs : sendsOf (Adafruit_Thermal_feed env (World.start w.printer w.clock) n).trace
      = (List.replicate n [[ASCII_LF], [ASCII_CR]]).flatten := by
    rw [hfeed (World.start w.printer w.clock) rfl, feed_loop_sends]
    simp [World.start, sendsOf]
  refine ⟨?_, hs, ?_, ?_⟩
  · rw [hfeed w rfl, feed_loop_eq_writeNewlines]
  · rw [bytesOf_eq_join_sendsOf, hs]
    clear hs hfeed
    induction n with
    | zero => rfl
    | succ n ih => simp [List.replicate_succ, ih]
  · rw [hfeed (World.start w.printer w.clock) rfl, feed_loop_busy_length]
    simp [World.start, busyOf]

/-- C22 (witness): feeding two lines on firmware 200. -/
theorem C22_feed_fallback_is_n_newlines_witness :
    (World.start { sessionAfterReset with firmware := 200 } 0).printer.firmware < 264
    ∧ Adafruit_Thermal_feed (fun _ => 0)
        (World.start { sessionAfterReset with firmware := 200 } 0) 2
      = writeNewlines (fun _ => 0) 2 (World.start { sessionAfterReset with firmware := 200 } 0) :=
  ⟨by decide,
   (C22_feed_fallback_is_n_newlines (fun _ => 0)
      (World.start { sessionAfterReset with firmware := 200 } 0) 2 (by decide)).1⟩

/-! ## C23: the bold bit of print_mode -/

set_option maxRecDepth 100000 in
theorem bold_bit_facts :
    ∀ m < 256,
      (u8 (m ||| 0x08) &&& 0x08 = 0x08 ∧ u8 (m ||| 0x08) &&& 0xF7 = m &&& 0xF7
        ∧ u8 (m ||| 0x08) &&& 0x01 = m &&& 0x01 ∧ u8 (m ||| 0x08) &&& 0x10 = m &&& 0x10
        ∧ u8 (u8 (m ||| 0x08) ||| 0x08) = u8 (m ||| 0x08))
      ∧ (u8 (m &&& 0xF7) &&& 0x08 = 0 ∧ u8 (m &&& 0xF7) &&& 0xF7 = m &&& 0xF7
        ∧ u8 (m &&& 0xF7) &&& 0x01 = m &&& 0x01 ∧ u8 (m &&& 0xF7) &&& 0x10 = m &&& 0x10
        ∧ u8 (u8 (m &&& 0xF7) &&& 0xF7) = u8 (m &&& 0xF7)) := by
  decide

theorem boldOn_print_mode (env : Timer) (w : World) :
    (Adafruit_Thermal_boldOn env w).printer.print_mode = u8 (w.printer.print_mode ||| 0x08) := by
  simp [Adafruit_Thermal_boldOn]

theorem boldOff_print_mode (env : Timer) (w : World) :
    (Adafruit_Thermal_boldOff env w).printer.print_mode
      = u8 (w.printer.print_mode &&& 0xF7) := by
  simp [Adafruit_Thermal_boldOff]

/-- C23: for every session state (print_mode an 8 bit value): boldOn sets and boldOff
    clears exactly bit 0x08 of print_mode, leaving all other bits (in particular the
    size bits 0x01 and 0x10) unchanged, and each transmits ESC, !, print_mode with the
    resulting print_mode; a second boldOn (boldOff) leaves print_mode as the first one
    left it; setSize replaces the whole byte by 0x00, 0x01 or 0x11, whatever it was
    before, so its bold bit 0x08 is clear. -/
theorem C23_bold_bit_and_size_byte (env env2 : Timer) (p : Adafruit_Thermal) (clock v : Nat)
    (hpm : p.print_mode < 256) :
    ((Adafruit_Thermal_boldOn env (World.start p clock)).printer.print_mode &&& 0x08 = 0x08
      ∧ (Adafruit_Thermal_boldOn env (World.start p clock)).printer.print_mode &&& 0xF7
          = p.print_mode &&& 0xF7
      ∧ (Adafruit_Thermal_boldOn env (World.start p clock)).printer.print_mode &&& 0x01
          = p.print_mode &&& 0x01
      ∧ (Adafruit_Thermal_boldOn env (World.start p clock)).printer.print_mode &&& 0x10
          = p.print_mode &&& 0x10
      ∧ bytesOf (Adafruit_Thermal_boldOn env (World.start p clock)).trace
          = [ASCII_ESC, 33,
              (Adafruit_Thermal_boldOn env (World.start p clock)).printer.print_mode]
      ∧ (Adafruit_Thermal_boldOn env2
            (Adafruit_Thermal_boldOn env (World.start p clock))).printer.print_mode
          = (Adafruit_Thermal_boldOn env (World.start p clock)).printer.print_mode)
    ∧ ((Adafruit_Thermal_boldOff env (World.start p clock)).printer.print_mode &&& 0x08 = 0
      ∧ (Adafruit_Thermal_boldOff env (World.start p clock)).printer.print_mode &&& 0xF7
          = p.print_mode &&& 0xF7
      ∧ (Adafruit_Thermal_boldOff env (World.start p clock)).printer.print_mode &&& 0x01
          = p.print_mode &&& 0x01
      ∧ (Adafruit_Thermal_boldOff env (World.start p clock)).printer.print_mode &&& 0x10
          = p.print_mode &&& 0x10
      ∧ bytesOf (Adafruit_Thermal_boldOff env (World.start p clock)).trace
          = [ASCII_ESC, 33,
              (Adafruit_Thermal_boldOff env (World.start p clock)).printer.print_mode]
      ∧ (Adafruit_Thermal_boldOff env2
            (Adafruit_Thermal_boldOff env (World.start p clock))).printer.print_mode
          = (Adafruit_Thermal_boldOff env (World.start p clock)).printer.print_mode)
    ∧ (((Adafruit_Thermal_setSize env (World.start p clock) v).printer.print_mode = 0x00
        ∨ (Adafruit_Thermal_setSize env (World.start p clock) v).printer.print_mode = 0x01
        ∨ (Adafruit_Thermal_setSize env (World.start p clock) v).printer.print_mode = 0x11)
      ∧ (Adafruit_Thermal_setSize env (World.start p clock) v).printer.print_mode &&& 0x08
          = 0) := by
  obtain ⟨⟨a1, a2, a3, a4, a5⟩, ⟨b1, b2, b3, b4, b5⟩⟩ := bold_bit_facts p.print_mode hpm
  have hs : (Adafruit_Thermal_setSize env (World.start p clock) v).printer.print_mode = 0x00
      ∨ (Adafruit_Thermal_setSize env (World.start p clock) v).printer.print_mode = 0x01
      ∨ (Adafruit_Thermal_setSize env (World.start p clock) v).printer.print_mode = 0x11 := by
    have h := setSize_sizeTriple env (World.start p clock) v
    unfold sizeTriple at h
    split_ifs at h <;> simp only [Prod.mk.injEq] at h <;> simp [h.1]
  refine ⟨⟨?_, ?_, ?_, ?_, ?_, ?_⟩, ⟨?_, ?_, ?_, ?_, ?_, ?_⟩, hs, ?_⟩
  · rw [boldOn_print_mode]; exact a1
  · rw [boldOn_print_mode]; exact a2
  · rw [boldOn_print_mode]; exact a3
  · rw [boldOn_print_mode]; exact a4
  · simp [Adafruit_Thermal_boldOn, World.start, bytesOf]
  · rw [boldOn_print_mode, boldOn_print_mode]; exact a5
  · rw [boldOff_print_mode]; exact b1
  · rw [boldOff_print_mode]; exact b2
  · rw [boldOff_print_mode]; exact b3
  · rw [boldOff_print_mode]; exact b4
  · simp [Adafruit_Thermal_boldOff, World.start, bytesOf]
  · rw [boldOff_print_mode, boldOff_print_mode]; exact b5
  · rcases hs with h | h | h <;> rw [h] <;> decide

/-- C23 (witness): boldOn after setSize with L (print_mode 0x11) gives 0x19. -/
theorem C23_bold_bit_and_size_byte_witness :
    ({ sessionAfterReset with print_mode := 0x11 } : Adafruit_Thermal).print_mode < 256
    ∧ (Adafruit_Thermal_boldOn (fun _ => 0)
        (World.start { sessionAfterReset with print_mode := 0x11 } 0)).printer.print_mode
          &&& 0xF7
        = ({ sessionAfterReset with print_mode := 0x11 } : Adafruit_Thermal).print_mode
          &&& 0xF7 :=
  ⟨by decide,
   (C23_bold_bit_and_size_byte (fun _ => 0) (fun _ => 0)
      { sessionAfterReset with print_mode := 0x11 } 0 76 (by decide)).1.2.1⟩

/-! ## C24: termination of the band loop of printBitmap -/

theorem printBitmap_bands_flag (env : Timer) (bitmap_data : List Nat)
    (row_bytes height fuel y : Nat) (w : World) :
    (printBitmap_bands env bitmap_data row_bytes height fuel y w).2
      = bandLoopExit height fuel y := by
  induction fuel generalizing y w with
  | zero => rfl
  | succ n ih =>
    rw [printBitmap_bands, bandLoopExit]
    by_cases hy : y < height
    · rw [if_pos hy, if_pos hy]
      exact ih _ _
    · rw [if_neg hy, if_neg hy]

/-- For heights up to 65520 the loop is left after exactly ceil (height / 24)
    iterations: fuel suffices if and only if it is at least that number. -/
theorem bandLoopExit_iff (height : Nat) (hh : height ≤ 65520) :
    ∀ (fuel k : Nat), k ≤ (height + 23) / 24 →
      (bandLoopExit height fuel (24 * k) = true ↔ (height + 23) / 24 ≤ k + fuel) := by
  intro fuel
  induction fuel with
  | zero =>
    intro k hk
    simp only [bandLoopExit, decide_eq_true_eq]
    omega
  | succ n ih =>
    intro k hk
    rw [bandLoopExit]
    by_cases hy : 24 * k < height
    · have hnext : u16 (24 * k + 24) = 24 * (k + 1) := by
        unfold u16
        omega
      rw [if_pos hy, hnext, ih (k + 1) (by omega)]
      omega
    · rw [if_neg hy]
      simp only [true_iff]
      omega

/-- For heights from 65521 to 65535 the counter wraps around from 65520 to 8 in
    iteration 2731 = ceil (height / 24), and the loop is not left then. -/
theorem bandLoopExit_wraps (height : Nat) (hlo : 65520 < height) (hhi : height < 65536) :
    ∀ (n k : Nat), k + n = 2730 → bandLoopExit height (n + 1) (24 * k) = false := by
  intro n
  induction n with
  | zero =>
    intro k hk
    have hy : 24 * k < height := by omega
    have hwrap : u16 (24 * k + 24) = 8 := by
      unfold u16
      omega
    rw [bandLoopExit, if_pos hy, hwrap, bandLoopExit]
    simp only [decide_eq_false_iff_not, not_not]
    omega
  | succ n ih =>
    intro k hk
    have hy : 24 * k < height := by omega
    have hnext : u16 (24 * k + 24) = 24 * (k + 1) := by
      unfold u16
      omega
    rw [bandLoopExit, if_pos hy, hnext]
    exact ih (k + 1) (by omega)

/-- For heights from 65529 to 65535 the loop is never left: the counter only takes
    multiples of 8 below 65536, all of which are below the height. -/
theorem bandLoopExit_never (height : Nat) (hlo : 65528 < height) :
    ∀ (fuel y : Nat), y % 8 = 0 → y < 65536 → bandLoopExit height fuel y = false := by
  intro fuel
  induction fuel with
  | zero =>
    intro y h8 hy
    simp only [bandLoopExit, decide_eq_false_iff_not, not_not]
    omega
  | succ n ih =>
    intro y h8 hy
    have hlt : y < height := by omega
    rw [bandLoopExit, if_pos hlt]
    apply ih
    · unfold u16
      omega
    · unfold u16
      omega

/-- C24 (failing input): for width 8 and height 65535 the 16 bit counter y goes from
    65520 to 65544 mod 65536 = 8 and the band loop of printBitmap is not left after any
    number of iterations; in particular not after ceil (65535 / 24) = 2731. -/
theorem C24_band_loop_never_ends :
    u16 (65520 + 24) = 8
    ∧ (65535 + 23) / 24 = 2731
    ∧ ∀ fuel, (Adafruit_Thermal_printBitmap fuel (fun _ => 0)
        (World.start sessionAfterReset 0) (List.replicate 65535 0) 8 65535).2 = false := by
  refine ⟨by decide, by decide, ?_⟩
  intro fuel
  unfold Adafruit_Thermal_printBitmap
  rw [if_neg (by decide)]
  dsimp only
  rw [printBitmap_bands_flag]
  exact bandLoopExit_never 65535 (by decide) fuel 0 (by decide) (by decide)

/-! ## C25: the transcoder is injective on its repertoire -/

theorem cp1251Of_image (cp : Nat) (h : Mapped cp) :
    ((1 ≤ cp ∧ cp < 0x80) → 1 ≤ cp1251Of cp ∧ cp1251Of cp ≤ 0x7F)
    ∧ ((0x410 ≤ cp ∧ cp ≤ 0x44F) → 0xC0 ≤ cp1251Of cp ∧ cp1251Of cp ≤ 0xFF)
    ∧ (cp = 0x401 → cp1251Of cp = 0xA8)
    ∧ (cp = 0x451 → cp1251Of cp = 0xB8) := by
  unfold cp1251Of
  refine ⟨?_, ?_, ?_, ?_⟩
  · intro h1
    rw [if_pos h1.2]
    omega
  · intro h1
    have e1 : ¬ cp < 0x80 := by omega
    have e2 : ¬ cp = 0x401 := by omega
    have e3 : ¬ cp = 0x451 := by omega
    rw [if_neg e1, if_neg e2, if_neg e3]
    omega
  · intro h1
    subst h1
    decide
  · intro h1
    subst h1
    decide

theorem cp1251Of_injective_on_mapped (a b : Nat) (ha : Mapped a) (hb : Mapped b)
    (h : cp1251Of a = cp1251Of b) : a = b := by
  unfold cp1251Of at h
  rcases ha with ha | ha | ha | ha <;> rcases hb with hb | hb | hb | hb <;>
    split_ifs at h <;> omega

theorem map_cp1251Of_injective :
    ∀ (l1 l2 : List Nat), (∀ cp ∈ l1, Mapped cp) → (∀ cp ∈ l2, Mapped cp) →
      l1.map cp1251Of = l2.map cp1251Of → l1 = l2 := by
  intro l1
  induction l1 with
  | nil =>
    intro l2 _ _ h
    cases l2 with
    | nil => rfl
    | cons b t => simp at h
  | cons a s ih =>
    intro l2 h1 h2 h
    cases l2 with
    | nil => simp at h
    | cons b t =>
      simp only [List.map_cons, List.cons.injEq] at h
      have hab := cp1251Of_injective_on_mapped a b (h1 a (List.mem_cons_self _ _))
        (h2 b (List.mem_cons_self _ _)) h.1
      have hst := ih t (fun c hc => h1 c (List.mem_cons_of_mem _ hc))
        (fun c hc => h2 c (List.mem_cons_of_mem _ hc)) h.2
      rw [hab, hst]

/-- C25: for any two lists of code points taken from non-NUL ASCII, U+0410..U+044F,
    U+0401 and U+0451 whose UTF-8 encodings differ, and every buffer size (a size_t
    value) larger than both numbers of characters, the results of utf8_to_cp1251 on the
    two encodings differ.  The images are pairwise disjoint: ASCII goes to 0x01..0x7F,
    U+0401 to 0xA8, U+0451 to 0xB8 and the Cyrillic block to 0xC0..0xFF. -/
theorem C25_transcoder_injective (cps1 cps2 : List Nat) (cp1251_size : Nat)
    (hm1 : ∀ cp ∈ cps1, Mapped cp) (hm2 : ∀ cp ∈ cps2, Mapped cp)
    (hs1 : cps1.length < cp1251_size) (hs2 : cps2.length < cp1251_size)
    (hrange : cp1251_size < 4294967296)
    (hne : cps1.flatMap utf8Encode ≠ cps2.flatMap utf8Encode) :
    utf8_to_cp1251 (cps1.flatMap utf8Encode) cp1251_size
      ≠ utf8_to_cp1251 (cps2.flatMap utf8Encode) cp1251_size
    ∧ (utf8_to_cp1251 (cps1.flatMap utf8Encode) cp1251_size).1
      ≠ (utf8_to_cp1251 (cps2.flatMap utf8Encode) cp1251_size).1 := by
  have hlim : u32 (cp1251_size + 4294967295) = cp1251_size - 1 := by
    unfold u32
    omega
  have h1 := utf8_loop_mapped (cp1251_size - 1) cps1 [] hm1 (by simp; omega)
  have h2 := utf8_loop_mapped (cp1251_size - 1) cps2 [] hm2 (by simp; omega)
  have key : (utf8_to_cp1251 (cps1.flatMap utf8Encode) cp1251_size).1
      ≠ (utf8_to_cp1251 (cps2.flatMap utf8Encode) cp1251_size).1 := by
    unfold utf8_to_cp1251
    rw [hlim, h1, h2]
    intro heq
    simp only [List.nil_append, List.append_cancel_right_eq] at heq
    exact hne (by rw [map_cp1251Of_injective cps1 cps2 hm1 hm2 heq])
  exact ⟨fun heq => key (by rw [heq]), key⟩

/-- C25 (witness): the Cyrillic letter A (U+0410) and the Latin letter A. -/
theorem C25_transcoder_injective_witness :
    [0x410].flatMap utf8Encode ≠ [0x41].flatMap utf8Encode
    ∧ utf8_to_cp1251 ([0x410].flatMap utf8Encode) 10
      ≠ utf8_to_cp1251 ([0x41].flatMap utf8Encode) 10 :=
  ⟨by decide,
   (C25_transcoder_injective [0x410] [0x41] 10 (by decide) (by decide) (by decide) (by decide)
      (by decide) (by decide)).1⟩

/-! ## C26: flow control does not influence what is sent -/

theorem core_eq_iff (p q : Adafruit_Thermal) :
    Core p = Core q ↔
      (p.uart_num = q.uart_num ∧ p.tx_pin = q.tx_pin ∧ p.rx_pin = q.rx_pin
        ∧ p.dtr_pin = q.dtr_pin ∧ p.firmware = q.firmware ∧ p.prev_byte = q.prev_byte
        ∧ p.print_mode = q.print_mode ∧ p.column = q.column ∧ p.max_column = q.max_column
        ∧ p.char_height = q.char_height ∧ p.line_spacing = q.line_spacing
        ∧ p.barcode_height = q.barcode_height ∧ p.dot_print_time = q.dot_print_time
        ∧ p.dot_feed_time = q.dot_feed_time ∧ p.max_chunk_height = q.max_chunk_height) := by
  cases p
  cases q
  simp [Core]

theorem Frozen.frozen_refl (w : World) : Frozen w w := ⟨rfl, fun _ => rfl⟩

theorem Frozen.frozen_trans {w v u : World} (h1 : Frozen w v) (h2 : Frozen v u) :
    Frozen w u := by
  refine ⟨h2.1.trans h1.1, ?_⟩
  intro hd
  rw [h2.2 (h1.1.trans hd), h1.2 hd]

theorem Sim.sim_refl {w1 w2 : World} (h : Core w1.printer = Core w2.printer) :
    Sim w1 w2 w1 w2 :=
  ⟨h, ⟨[], by simp, by simp⟩, Frozen.frozen_refl w1, Frozen.frozen_refl w2⟩

theorem Sim.sim_trans {w1 w2 v1 v2 u1 u2 : World} (h1 : Sim w1 w2 v1 v2)
    (h2 : Sim v1 v2 u1 u2) : Sim w1 w2 u1 u2 := by
  obtain ⟨_, ⟨s, hs1, hs2⟩, f1, f2⟩ := h1
  obtain ⟨c, ⟨t, ht1, ht2⟩, g1, g2⟩ := h2
  exact ⟨c, ⟨s ++ t, by rw [ht1, hs1, List.append_assoc], by rw [ht2, hs2, List.append_assoc]⟩,
    f1.frozen_trans g1, f2.frozen_trans g2⟩

/-- A change of session fields other than the two of flow control, made in both runs. -/
theorem sim_set {w1 w2 : World} (f : Adafruit_Thermal → Adafruit_Thermal)
    (hcore : Core (f w1.printer) = Core (f w2.printer))
    (hflow : ∀ p, (f p).dtr_enabled = p.dtr_enabled ∧ (f p).resume_time = p.resume_time) :
    Sim w1 w2 { w1 with printer := f w1.printer } { w2 with printer := f w2.printer } :=
  ⟨hcore, ⟨[], by simp, by simp⟩, ⟨(hflow _).1, fun _ => (hflow _).2⟩,
    ⟨(hflow _).1, fun _ => (hflow _).2⟩⟩

theorem core_timeoutSet (env : Timer) (w : World) (x : Nat) :
    Core (Adafruit_Thermal_timeoutSet env w x).printer = Core w.printer := by
  unfold Adafruit_Thermal_timeoutSet
  split <;> rfl

theorem frozen_timeoutSet (env : Timer) (w : World) (x : Nat) :
    Frozen w (Adafruit_Thermal_timeoutSet env w x) :=
  ⟨timeoutSet_dtr_enabled env w x, fun hd => timeoutSet_resume_time_dtr env w x hd⟩

theorem sim_timeoutSet {w1 w2 : World} (env1 env2 : Timer) (x1 x2 : Nat)
    (h : Core w1.printer = Core w2.printer) :
    Sim w1 w2 (Adafruit_Thermal_timeoutSet env1 w1 x1) (Adafruit_Thermal_timeoutSet env2 w2 x2) :=
  ⟨by rw [core_timeoutSet, core_timeoutSet, h],
   ⟨[], by simp [sendsOf_append], by simp [sendsOf_append]⟩,
   frozen_timeoutSet env1 w1 x1, frozen_timeoutSet env2 w2 x2⟩

theorem sim_timeoutWait {w1 w2 : World} (env1 env2 : Timer)
    (h : Core w1.printer = Core w2.printer) :
    Sim w1 w2 (Adafruit_Thermal_timeoutWait env1 w1) (Adafruit_Thermal_timeoutWait env2 w2) :=
  ⟨by simpa using h,
   ⟨[], by simp [sendsOf_append, sendsOf], by simp [sendsOf_append, sendsOf]⟩,
   ⟨by simp, fun _ => by simp⟩, ⟨by simp, fun _ => by simp⟩⟩

theorem sim_uart_write_bytes {w1 w2 : World} (d : List Nat)
    (h : Core w1.printer = Core w2.printer) :
    Sim w1 w2 (uart_write_bytes w1 d) (uart_write_bytes w2 d) :=
  ⟨h, ⟨[d], by simp [sendsOf_append, sendsOf], by simp [sendsOf_append, sendsOf]⟩,
   ⟨rfl, fun _ => rfl⟩, ⟨rfl, fun _ => rfl⟩⟩

theorem sim_vTaskDelay {w1 w2 : World} (ms : Nat)
    (h : Core w1.printer = Core w2.printer) :
    Sim w1 w2 (vTaskDelay w1 ms) (vTaskDelay w2 ms) :=
  ⟨h, ⟨[], by simp [sendsOf_append, sendsOf], by simp [sendsOf_append, sendsOf]⟩,
   ⟨rfl, fun _ => rfl⟩, ⟨rfl, fun _ => rfl⟩⟩

theorem sim_writeBytes {w1 w2 : World} (env1 env2 : Timer) (d1 d2 : List Nat) (hd : d1 = d2)
    (h : Core w1.printer = Core w2.printer) :
    Sim w1 w2 (Adafruit_Thermal_writeBytes env1 w1 d1) (Adafruit_Thermal_writeBytes env2 w2 d2) := by
  subst hd
  have s1 := sim_timeoutWait env1 env2 h
  have s2 := sim_uart_write_bytes d1 s1.1
  have s3 := sim_timeoutSet env1 env2 (u32 (d1.length * BYTE_TIME)) (u32 (d1.length * BYTE_TIME))
    s2.1
  exact (s1.sim_trans s2).sim_trans s3

theorem Sim.then_timeoutSet {w1 w2 v1 v2 : World} (env1 env2 : Timer) (x1 x2 : Nat)
    (s : Sim w1 w2 v1 v2) :
    Sim w1 w2 (Adafruit_Thermal_timeoutSet env1 v1 x1) (Adafruit_Thermal_timeoutSet env2 v2 x2) :=
  s.sim_trans (sim_timeoutSet env1 env2 x1 x2 s.1)

theorem Sim.then_timeoutWait {w1 w2 v1 v2 : World} (env1 env2 : Timer)
    (s : Sim w1 w2 v1 v2) :
    Sim w1 w2 (Adafruit_Thermal_timeoutWait env1 v1) (Adafruit_Thermal_timeoutWait env2 v2) :=
  s.sim_trans (sim_timeoutWait env1 env2 s.1)

theorem Sim.then_send {w1 w2 v1 v2 : World} (d : List Nat) (s : Sim w1 w2 v1 v2) :
    Sim w1 w2 (uart_write_bytes v1 d) (uart_write_bytes v2 d) :=
  s.sim_trans (sim_uart_write_bytes d s.1)

theorem Sim.then_delay {w1 w2 v1 v2 : World} (ms : Nat) (s : Sim w1 w2 v1 v2) :
    Sim w1 w2 (vTaskDelay v1 ms) (vTaskDelay v2 ms) :=
  s.sim_trans (sim_vTaskDelay ms s.1)

theorem Sim.then_writeBytes {w1 w2 v1 v2 : World} (env1 env2 : Timer) (d1 d2 : List Nat)
    (s : Sim w1 w2 v1 v2) (hd : d1 = d2) :
    Sim w1 w2 (Adafruit_Thermal_writeBytes env1 v1 d1) (Adafruit_Thermal_writeBytes env2 v2 d2) :=
  s.sim_trans (sim_writeBytes env1 env2 d1 d2 hd s.1)

theorem Sim.then_set {w1 w2 v1 v2 : World} (f : Adafruit_Thermal → Adafruit_Thermal)
    (hcore : ∀ p q, Core p = Core q → Core (f p) = Core (f q))
    (hflow : ∀ p, (f p).dtr_enabled = p.dtr_enabled ∧ (f p).resume_time = p.resume_time)
    (s : Sim w1 w2 v1 v2) :
    Sim w1 w2 { v1 with printer := f v1.printer } { v2 with printer := f v2.printer } :=
  s.sim_trans (sim_set f (hcore _ _ s.1) hflow)

/-- The fields that the two runs of a pair share. -/
theorem Sim.fields {w1 w2 v1 v2 : World} (s : Sim w1 w2 v1 v2) :
    v1.printer.firmware = v2.printer.firmware ∧ v1.printer.prev_byte = v2.printer.prev_byte
      ∧ v1.printer.print_mode = v2.printer.print_mode ∧ v1.printer.column = v2.printer.column
      ∧ v1.printer.max_column = v2.printer.max_column
      ∧ v1.printer.char_height = v2.printer.char_height
      ∧ v1.printer.line_spacing = v2.printer.line_spacing
      ∧ v1.printer.barcode_height = v2.printer.barcode_height
      ∧ v1.printer.dot_print_time = v2.printer.dot_print_time
      ∧ v1.printer.dot_feed_time = v2.printer.dot_feed_time := by
  obtain ⟨-, -, -, -, h5, h6, h7, h8, h9, h10, h11, h12, h13, h14, -⟩ := (core_eq_iff _ _).1 s.1
  exact ⟨h5, h6, h7, h8, h9, h10, h11, h12, h13, h14⟩

theorem Sim.then_write {w1 w2 v1 v2 : World} (env1 env2 : Timer) (c : Nat)
    (s : Sim w1 w2 v1 v2) :
    Sim w1 w2 (Adafruit_Thermal_write env1 v1 c) (Adafruit_Thermal_write env2 v2 c) := by
  obtain ⟨-, -, -, hcol, hmax, -⟩ := s.fields
  unfold Adafruit_Thermal_write
  dsimp only
  by_cases hc : c ≠ ASCII_CR
  · rw [if_pos hc, if_pos hc]
    by_cases hb : c = ASCII_LF ∨ v1.printer.column = v1.printer.max_column
    · have hb1 : c = ASCII_LF ∨
          (uart_write_bytes (Adafruit_Thermal_timeoutWait env1 v1) [c]).printer.column
            = (uart_write_bytes (Adafruit_Thermal_timeoutWait env1 v1) [c]).printer.max_column := by
        simpa using hb
      have hb2 : c = ASCII_LF ∨
          (uart_write_bytes (Adafruit_Thermal_timeoutWait env2 v2) [c]).printer.column
            = (uart_write_bytes (Adafruit_Thermal_timeoutWait env2 v2) [c]).printer.max_column := by
        rw [hcol, hmax] at hb
        simpa using hb
      rw [if_pos hb1, if_pos hb2]
      refine Sim.then_set (fun p => { p with prev_byte := c }) ?_ (fun p => ⟨rfl, rfl⟩) ?_
      · intro p q hpq
        rw [core_eq_iff] at hpq ⊢
        simp_all
      refine Sim.then_timeoutSet env1 env2 _ _ ?_
      refine Sim.then_send [ASCII_CR] ?_
      refine Sim.then_set (fun p => { p with column := 0 }) ?_ (fun p => ⟨rfl, rfl⟩) ?_
      · intro p q hpq
        rw [core_eq_iff] at hpq ⊢
        simp_all
      exact (s.then_timeoutWait env1 env2).then_send [c]
    · have hb1 : ¬ (c = ASCII_LF ∨
          (uart_write_bytes (Adafruit_Thermal_timeoutWait env1 v1) [c]).printer.column
            = (uart_write_bytes (Adafruit_Thermal_timeoutWait env1 v1) [c]).printer.max_column) := by
        simpa using hb
      have hb2 : ¬ (c = ASCII_LF ∨
          (uart_write_bytes (Adafruit_Thermal_timeoutWait env2 v2) [c]).printer.column
            = (uart_write_bytes (Adafruit_Thermal_timeoutWait env2 v2) [c]).printer.max_column) := by
        rw [hcol, hmax] at hb
        simpa using hb
      rw [if_neg hb1, if_neg hb2]
      refine Sim.then_set (fun p => { p with prev_byte := c }) ?_ (fun p => ⟨rfl, rfl⟩) ?_
      · intro p q hpq
        rw [core_eq_iff] at hpq ⊢
        simp_all
      refine Sim.then_timeoutSet env1 env2 _ _ ?_
      refine Sim.then_set (fun p => { p with column := u8 (p.column + 1) }) ?_
        (fun p => ⟨rfl, rfl⟩) ?_
      · intro p q hpq
        rw [core_eq_iff] at hpq ⊢
        simp_all
      exact (s.then_timeoutWait env1 env2).then_send [c]
  · rw [if_neg hc, if_neg hc]
    exact s

theorem Sim.then_feed_loop {w1 w2 : World} (env1 env2 : Timer) (n : Nat) :
    ∀ {v1 v2 : World}, Sim w1 w2 v1 v2 →
      Sim w1 w2 (feed_loop env1 n v1) (feed_loop env2 n v2) := by
  induction n with
  | zero => intro v1 v2 s; exact s
  | succ k ih =>
    intro v1 v2 s
    exact ih (s.then_write env1 env2 ASCII_LF)

theorem Sim.then_wake_loop {w1 w2 : World} (env1 env2 : Timer) (n : Nat) :
    ∀ {v1 v2 : World}, Sim w1 w2 v1 v2 →
      Sim w1 w2 (wake_loop env1 n v1) (wake_loop env2 n v2) := by
  induction n with
  | zero => intro v1 v2 s; exact s
  | succ k ih =>
    intro v1 v2 s
    exact ih ((s.then_writeBytes env1 env2 [0] [0] rfl).then_timeoutSet env1 env2 10000 10000)

theorem Sim.then_rows {w1 w2 : World} (env1 env2 : Timer) (bitmap_data : List Nat)
    (row_bytes y n : Nat) :
    ∀ (i : Nat) {v1 v2 : World}, Sim w1 w2 v1 v2 →
      Sim w1 w2 (printBitmap_rows env1 bitmap_data row_bytes y n i v1)
        (printBitmap_rows env2 bitmap_data row_bytes y n i v2) := by
  induction n with
  | zero => intro i v1 v2 s; exact s
  | succ k ih =>
    intro i v1 v2 s
    exact ih (i + 1) (s.then_writeBytes env1 env2 _ _ rfl)

theorem Sim.then_feed {w1 w2 v1 v2 : World} (env1 env2 : Timer) (x : Nat)
    (s : Sim w1 w2 v1 v2) :
    Sim w1 w2 (Adafruit_Thermal_feed env1 v1 x) (Adafruit_Thermal_feed env2 v2 x) := by
  obtain ⟨hfw, -⟩ := s.fields
  unfold Adafruit_Thermal_feed
  dsimp only
  by_cases hf : v1.printer.firmware ≥ 264
  · rw [if_pos hf, if_pos (hfw ▸ hf)]
    refine Sim.then_set (fun p => { p with prev_byte := ASCII_LF, column := 0 }) ?_
      (fun p => ⟨rfl, rfl⟩) ?_
    · intro p q hpq
      rw [core_eq_iff] at hpq ⊢
      simp_all
    exact (s.then_writeBytes env1 env2 _ _ rfl).then_timeoutSet env1 env2 _ _
  · rw [if_neg hf, if_neg (hfw ▸ hf)]
    exact s.then_feed_loop env1 env2 x

theorem Sim.then_bands {w1 w2 : World} (env1 env2 : Timer) (bitmap_data : List Nat)
    (row_bytes height fuel : Nat) :
    ∀ (y : Nat) {v1 v2 : World}, Sim w1 w2 v1 v2 →
      Sim w1 w2 (printBitmap_bands env1 bitmap_data row_bytes height fuel y v1).1
          (printBitmap_bands env2 bitmap_data row_bytes height fuel y v2).1
        ∧ (printBitmap_bands env1 bitmap_data row_bytes height fuel y v1).2
          = (printBitmap_bands env2 bitmap_data row_bytes height fuel y v2).2 := by
  induction fuel with
  | zero => intro y v1 v2 s; exact ⟨s, rfl⟩
  | succ k ih =>
    intro y v1 v2 s
    unfold printBitmap_bands
    by_cases hy : y < height
    · rw [if_pos hy, if_pos hy]
      exact ih (u16 (y + 24))
        ((Sim.then_rows env1 env2 bitmap_data row_bytes y _ 0
          (s.then_writeBytes env1 env2 _ _ rfl)).then_feed env1 env2 1)
    · rw [if_neg hy, if_neg hy]
      exact ⟨s, rfl⟩

/-- Every operation, run from two sessions with equal cores under any two timers,
    transmits the same and ends in sessions with equal cores; neither run touches
    dtr_enabled, and a run under the DTR line does not touch resume_time. -/
theorem run_sim (fuel : Nat) (env1 env2 : Timer) {w1 w2 : World} (op : Op)
    (h : Core w1.printer = Core w2.printer) :
    Sim w1 w2 (Op.run fuel env1 w1 op) (Op.run fuel env2 w2 op) := by
  have s := Sim.sim_refl h
  obtain ⟨hfw, hprev, hpm, hcol, hmax, hch, hls, hbh, hdp, hdf⟩ := s.fields
  cases op with
  | write c => exact s.then_write env1 env2 c
  | print str =>
    exact ((s.then_timeoutWait env1 env2).then_send str).then_timeoutSet env1 env2 _ _
  | println str =>
    exact ((((s.then_timeoutWait env1 env2).then_send str).then_timeoutSet env1 env2
      (u32 (str.length * BYTE_TIME)) (u32 (str.length * BYTE_TIME))).then_send
        [ASCII_LF]).then_timeoutSet env1 env2 BYTE_TIME BYTE_TIME
  | setSize value =>
    show Sim w1 w2 (Adafruit_Thermal_setSize env1 w1 value) (Adafruit_Thermal_setSize env2 w2 value)
    unfold Adafruit_Thermal_setSize
    dsimp only
    refine Sim.then_set (fun p => { p with prev_byte := ASCII_LF }) ?_ (fun p => ⟨rfl, rfl⟩) ?_
    · intro p q hpq
      rw [core_eq_iff] at hpq ⊢
      simp_all
    refine Sim.then_writeBytes env1 env2 _ _ ?_ ?_
    · exact Sim.then_set (fun p =>
        if toupper (u8 value) = 83 then
          { p with print_mode := 0x00, char_height := 24, max_column := 32 }
        else if toupper (u8 value) = 77 then
          { p with print_mode := 0x01, char_height := 48, max_column := 32 }
        else if toupper (u8 value) = 76 then
          { p with print_mode := 0x11, char_height := 48, max_column := 16 }
        else
          { p with print_mode := 0x00, char_height := 24, max_column := 32 })
        (by
          intro p q hpq
          rw [core_eq_iff] at hpq ⊢
          split_ifs <;> simp_all)
        (by intro p; split_ifs <;> exact ⟨rfl, rfl⟩) s
    · split_ifs <;> rfl
  | boldOn =>
    show Sim w1 w2 (Adafruit_Thermal_boldOn env1 w1) (Adafruit_Thermal_boldOn env2 w2)
    unfold Adafruit_Thermal_boldOn
    dsimp only
    refine Sim.then_writeBytes env1 env2 _ _ ?_ ?_
    · exact Sim.then_set (fun p => { p with print_mode := u8 (p.print_mode ||| 0x08) })
        (by
          intro p q hpq
          rw [core_eq_iff] at hpq ⊢
          simp_all)
        (fun p => ⟨rfl, rfl⟩) s
    · rw [hpm]
  | boldOff =>
    show Sim w1 w2 (Adafruit_Thermal_boldOff env1 w1) (Adafruit_Thermal_boldOff env2 w2)
    unfold Adafruit_Thermal_boldOff
    dsimp only
    refine Sim.then_writeBytes env1 env2 _ _ ?_ ?_
    · exact Sim.then_set (fun p => { p with print_mode := u8 (p.print_mode &&& 0xF7) })
        (by
          intro p q hpq
          rw [core_eq_iff] at hpq ⊢
          simp_all)
        (fun p => ⟨rfl, rfl⟩) s
    · rw [hpm]
  | underlineOn weight => exact s.then_writeBytes env1 env2 _ _ rfl
  | underlineOff => exact s.then_writeBytes env1 env2 _ _ rfl
  | inverseOn => exact s.then_writeBytes env1 env2 _ _ rfl
  | inverseOff => exact s.then_writeBytes env1 env2 _ _ rfl
  | justify value => exact s.then_writeBytes env1 env2 _ _ rfl
  | feed x => exact s.then_feed env1 env2 x
  | reset =>
    show Sim w1 w2 (Adafruit_Thermal_reset env1 w1) (Adafruit_Thermal_reset env2 w2)
    have s2 : Sim w1 w2
        { Adafruit_Thermal_writeBytes env1 w1 [ASCII_ESC, 64] with
          printer := { (Adafruit_Thermal_writeBytes env1 w1 [ASCII_ESC, 64]).printer with
            prev_byte := ASCII_LF, column := 0, max_column := 32, char_height := 24,
            line_spacing := 6, barcode_height := 50 } }
        { Adafruit_Thermal_writeBytes env2 w2 [ASCII_ESC, 64] with
          printer := { (Adafruit_Thermal_writeBytes env2 w2 [ASCII_ESC, 64]).printer with
            prev_byte := ASCII_LF, column := 0, max_column := 32, char_height := 24,
            line_spacing := 6, barcode_height := 50 } } := by
      refine Sim.then_set (fun p => { p with
          prev_byte := ASCII_LF, column := 0, max_column := 32, char_height := 24,
          line_spacing := 6, barcode_height := 50 }) ?_ (fun p => ⟨rfl, rfl⟩) ?_
      · intro p q hpq
        rw [core_eq_iff] at hpq ⊢
        simp_all
      exact s.then_writeBytes env1 env2 _ _ rfl
    unfold Adafruit_Thermal_reset
    dsimp only
    by_cases hf : w1.printer.firmware ≥ 264
    · have hf1 : (Adafruit_Thermal_writeBytes env1 w1 [ASCII_ESC, 64]).printer.firmware ≥ 264 := by
        simpa using hf
      have hf2 : (Adafruit_Thermal_writeBytes env2 w2 [ASCII_ESC, 64]).printer.firmware ≥ 264 := by
        rw [hfw] at hf
        simpa using hf
      rw [if_pos hf1, if_pos hf2]
      exact s2.then_writeBytes env1 env2 _ _ rfl
    · have hf1 : ¬ (Adafruit_Thermal_writeBytes env1 w1 [ASCII_ESC, 64]).printer.firmware ≥ 264 := by
        simpa using hf
      have hf2 : ¬ (Adafruit_Thermal_writeBytes env2 w2 [ASCII_ESC, 64]).printer.firmware ≥ 264 := by
        rw [hfw] at hf
        simpa using hf
      rw [if_neg hf1, if_neg hf2]
      exact s2
  | wake =>
    show Sim w1 w2 (Adafruit_Thermal_wake env1 w1) (Adafruit_Thermal_wake env2 w2)
    have s2 := (s.then_timeoutSet env1 env2 10000 10000).then_send [255]
    unfold Adafruit_Thermal_wake
    dsimp only
    by_cases hf : w1.printer.firmware ≥ 264
    · have hf1 : (uart_write_bytes (Adafruit_Thermal_timeoutSet env1 w1 10000) [255]).printer.firmware
          ≥ 264 := by
        simpa using hf
      have hf2 : (uart_write_bytes (Adafruit_Thermal_timeoutSet env2 w2 10000) [255]).printer.firmware
          ≥ 264 := by
        rw [hfw] at hf
        simpa using hf
      rw [if_pos hf1, if_pos hf2]
      exact (s2.then_delay 50).then_writeBytes env1 env2 _ _ rfl
    · have hf1 : ¬ (uart_write_bytes (Adafruit_Thermal_timeoutSet env1 w1 10000) [255]).printer.firmware
          ≥ 264 := by
        simpa using hf
      have hf2 : ¬ (uart_write_bytes (Adafruit_Thermal_timeoutSet env2 w2 10000) [255]).printer.firmware
          ≥ 264 := by
        rw [hfw] at hf
        simpa using hf
      rw [if_neg hf1, if_neg hf2]
      exact s2.then_wake_loop env1 env2 10
  | sleep =>
    show Sim w1 w2 (Adafruit_Thermal_sleepAfter env1 w1 1) (Adafruit_Thermal_sleepAfter env2 w2 1)
    unfold Adafruit_Thermal_sleepAfter
    by_cases hf : w1.printer.firmware ≥ 264
    · rw [if_pos hf, if_pos (hfw ▸ hf)]
      exact s.then_writeBytes env1 env2 _ _ rfl
    · rw [if_neg hf, if_neg (hfw ▸ hf)]
      exact s.then_writeBytes env1 env2 _ _ rfl
  | sleepAfter seconds =>
    show Sim w1 w2 (Adafruit_Thermal_sleepAfter env1 w1 seconds)
      (Adafruit_Thermal_sleepAfter env2 w2 seconds)
    unfold Adafruit_Thermal_sleepAfter
    by_cases hf : w1.printer.firmware ≥ 264
    · rw [if_pos hf, if_pos (hfw ▸ hf)]
      exact s.then_writeBytes env1 env2 _ _ rfl
    · rw [if_neg hf, if_neg (hfw ▸ hf)]
      exact s.then_writeBytes env1 env2 _ _ rfl
  | setHeatConfig dots time interval => exact s.then_writeBytes env1 env2 _ _ rfl
  | setPrintDensity density breakTime => exact s.then_writeBytes env1 env2 _ _ rfl
  | setCharset val => exact s.then_writeBytes env1 env2 _ _ rfl
  | setCodePage val => exact s.then_writeBytes env1 env2 _ _ rfl
  | printBarcode data type =>
    show Sim w1 w2 (Adafruit_Thermal_printBarcode env1 w1 data type)
      (Adafruit_Thermal_printBarcode env2 w2 data type)
    unfold Adafruit_Thermal_printBarcode
    dsimp only
    refine Sim.then_write env1 env2 0 ?_
    refine Sim.then_writeBytes env1 env2 _ _ ?_ rfl
    refine Sim.then_writeBytes env1 env2 _ _ ?_ rfl
    exact s.then_writeBytes env1 env2 _ _ (by rw [hbh])
  | printQRCode qr_data =>
    exact ((((s.then_writeBytes env1 env2 _ _ rfl).then_writeBytes env1 env2 _ _
      rfl).then_writeBytes env1 env2 _ _ rfl).then_writeBytes env1 env2 _ _
        rfl).then_writeBytes env1 env2 _ _ rfl
  | printBitmap bitmap_data width height =>
    show Sim w1 w2 (Adafruit_Thermal_printBitmap fuel env1 w1 bitmap_data width height).1
      (Adafruit_Thermal_printBitmap fuel env2 w2 bitmap_data width height).1
    unfold Adafruit_Thermal_printBitmap
    by_cases hw : width % 8 ≠ 0
    · rw [if_pos hw, if_pos hw]
      exact s
    · rw [if_neg hw, if_neg hw]
      exact (Sim.then_bands env1 env2 bitmap_data (u16 (width / 8)) height fuel 0 s).1

/-- C26 (counterexample): the session after reset and the same session with
    dtr_enabled set agree on all fields except dtr_enabled and resume_time, yet after
    boldOn the two resulting sessions do not agree on all fields except resume_time:
    they still differ in dtr_enabled, which no operation writes. -/
theorem C26_counterexample_dtr_enabled_still_differs :
    Core sessionAfterReset = Core { sessionAfterReset with dtr_enabled := true }
      ∧ ¬ SameButResumeTime
          (Op.run 0 (fun _ => 0) (World.start sessionAfterReset 0) Op.boldOn).printer
          (Op.run 0 (fun _ => 0)
            (World.start { sessionAfterReset with dtr_enabled := true } 0) Op.boldOn).printer := by
  unfold SameButResumeTime
  decide

/-- C26 (amended): for every operation, any two sessions that agree on all fields except
    dtr_enabled and resume_time, and any two timers and clock values, the two runs hand
    the same bursts (hence the same bytes) to the UART and end in sessions that again
    agree on all fields except dtr_enabled and resume_time; the run keeps dtr_enabled,
    and when dtr_enabled is true it leaves resume_time unchanged.  printBitmap is run
    for the same number of bands on both sides, whatever that number is. -/
theorem C26_flow_control_does_not_change_what_is_sent (fuel : Nat) (env1 env2 : Timer)
    (p1 p2 : Adafruit_Thermal) (clock1 clock2 : Nat) (op : Op) (h : Core p1 = Core p2) :
    sendsOf (Op.run fuel env1 (World.start p1 clock1) op).trace
        = sendsOf (Op.run fuel env2 (World.start p2 clock2) op).trace
      ∧ bytesOf (Op.run fuel env1 (World.start p1 clock1) op).trace
        = bytesOf (Op.run fuel env2 (World.start p2 clock2) op).trace
      ∧ Core (Op.run fuel env1 (World.start p1 clock1) op).printer
        = Core (Op.run fuel env2 (World.start p2 clock2) op).printer
      ∧ (Op.run fuel env1 (World.start p1 clock1) op).printer.dtr_enabled = p1.dtr_enabled
      ∧ (p1.dtr_enabled = true →
          (Op.run fuel env1 (World.start p1 clock1) op).printer.resume_time = p1.resume_time) := by
  have s : Sim (World.start p1 clock1) (World.start p2 clock2)
      (Op.run fuel env1 (World.start p1 clock1) op)
      (Op.run fuel env2 (World.start p2 clock2) op) := run_sim fuel env1 env2 op h
  obtain ⟨hcore, ⟨t, ht1, ht2⟩, hfrozen, -⟩ := s
  have hsends : sendsOf (Op.run fuel env1 (World.start p1 clock1) op).trace
      = sendsOf (Op.run fuel env2 (World.start p2 clock2) op).trace := by
    rw [ht1, ht2]
    rfl
  refine ⟨hsends, ?_, hcore, hfrozen.1, hfrozen.2⟩
  rw [bytesOf_eq_join_sendsOf, bytesOf_eq_join_sendsOf, hsends]

set_option maxRecDepth 100000 in
theorem C26_flow_control_does_not_change_what_is_sent_witness :
    Core sessionAfterReset
        = Core { sessionAfterReset with dtr_enabled := true, resume_time := 5 }
      ∧ bytesOf (Op.run 0 (fun _ => 7) (World.start sessionAfterReset 0) (Op.feed 2)).trace
        = bytesOf (Op.run 0 (fun _ => 0)
            (World.start { sessionAfterReset with dtr_enabled := true, resume_time := 5 } 100)
            (Op.feed 2)).trace :=
  ⟨by decide,
   (C26_flow_control_does_not_change_what_is_sent 0 (fun _ => 7) (fun _ => 0) sessionAfterReset
      { sessionAfterReset with dtr_enabled := true, resume_time := 5 } 0 100 (Op.feed 2)
      (by decide)).2.1⟩

/-! ## C27: feed leaves the session at the start of a line -/

theorem write_lf_fields (env : Timer) (w : World) :
    (Adafruit_Thermal_write env w ASCII_LF).printer.column = 0
    ∧ (Adafruit_Thermal_write env w ASCII_LF).printer.prev_byte = ASCII_LF := by
  unfold Adafruit_Thermal_write
  rw [if_pos (by decide)]
  simp

theorem feed_loop_fields (env : Timer) (n : Nat) (w : World) :
    (feed_loop env (n + 1) w).printer.column = 0
    ∧ (feed_loop env (n + 1) w).printer.prev_byte = ASCII_LF := by
  induction n generalizing w with
  | zero => exact write_lf_fields env w
  | succ n ih =>
    rw [feed_loop]
    exact ih _

/-- C27: for every session state, every firmware version and every n ≥ 1, feed leaves
    column = 0 and prev_byte a line feed, on the branch of firmware 264 and later as on
    the branch that writes line feeds; for n = 0 that second branch (firmware below 264)
    leaves the world unchanged and transmits nothing. -/
theorem C27_feed_ends_at_line_start (env : Timer) (p : Adafruit_Thermal) (clock n : Nat)
    (hn : 1 ≤ n) :
    (Adafruit_Thermal_feed env (World.start p clock) n).printer.column = 0
    ∧ (Adafruit_Thermal_feed env (World.start p clock) n).printer.prev_byte = ASCII_LF
    ∧ (p.firmware < 264 →
        Adafruit_Thermal_feed env (World.start p clock) 0 = World.start p clock
        ∧ bytesOf (Adafruit_Thermal_feed env (World.start p clock) 0).trace = []) := by
  obtain ⟨m, rfl⟩ : ∃ m, n = m + 1 := ⟨n - 1, by omega⟩
  have h12 : (Adafruit_Thermal_feed env (World.start p clock) (m + 1)).printer.column = 0
      ∧ (Adafruit_Thermal_feed env (World.start p clock) (m + 1)).printer.prev_byte
          = ASCII_LF := by
    unfold Adafruit_Thermal_feed
    by_cases hfw : (World.start p clock).printer.firmware ≥ 264
    · rw [if_pos hfw]
      exact ⟨rfl, rfl⟩
    · rw [if_neg hfw]
      exact feed_loop_fields env m _
  refine ⟨h12.1, h12.2, ?_⟩
  intro hfw
  have hnot : ¬ (World.start p clock).printer.firmware ≥ 264 := by
    show ¬ p.firmware ≥ 264
    omega
  have h0 : Adafruit_Thermal_feed env (World.start p clock) 0 = World.start p clock := by
    unfold Adafruit_Thermal_feed
    rw [if_neg hnot]
    rfl
  rw [h0]
  exact ⟨rfl, rfl⟩

/-- C27 (witness): feeding three lines on firmware 268 and on firmware 200. -/
theorem C27_feed_ends_at_line_start_witness :
    (1 : Nat) ≤ 3
    ∧ (Adafruit_Thermal_feed (fun _ => 0)
        (World.start { sessionAfterReset with column := 7, prev_byte := 65 } 0) 3).printer.column
        = 0
    ∧ (Adafruit_Thermal_feed (fun _ => 0)
        (World.start { sessionAfterReset with column := 7, prev_byte := 65, firmware := 200 } 0)
        3).printer.prev_byte = ASCII_LF :=
  ⟨by decide,
   (C27_feed_ends_at_line_start (fun _ => 0)
      { sessionAfterReset with column := 7, prev_byte := 65 } 0 3 (by decide)).1,
   (C27_feed_ends_at_line_start (fun _ => 0)
      { sessionAfterReset with column := 7, prev_byte := 65, firmware := 200 } 0 3
      (by decide)).2.1⟩

end ThermalPrinter
